import Mathlib

/-!
# Hosted-provider helpers: update, confirm, poll

A shallow embedding of `hosted/ack/helper/helper_cluster.go`.  The CCE and TKE
helpers repeat the same four functions (upgrade, scale, add, delete) over their
own field names; the development follows the ACK file.

Conventions of the embedding

* `*management.Cluster` is a pointer.  Every helper starts with
  `upgradedCluster := cluster`, which copies the pointer, so the object the
  caller passed, the "existing" argument and the "updates" argument of
  `client.Management.Cluster.Update` are one and the same mutated object.  The
  embedding therefore builds one value `upgradedCluster` and passes it in both
  positions; the recorded `Call.Update` keeps both arguments.
* Pointer-typed fields that the helpers dereference unconditionally
  (`ACKConfig`, `ACKStatus.UpstreamSpec`, ...) are modelled by their pointees.
* `int64` and `int` values are `Int`; the helpers do no arithmetic on them
  except `len + increaseBy` and `len - 1` on slice lengths.
* A slice is a `List`; its capacity is taken to be its length.
* The management API, the test-configuration loader, the random name generator
  and `tools.SetTimeout` are not part of the sources: they are parameters
  (`Client`, `Env`) acting on an abstract external state `σ`.
* A failed gomega assertion calls the registered fail handler (ginkgo `Fail`,
  see `RegisterFailHandler(Fail)` in the suites), which aborts the running spec;
  like a runtime panic it is an `Outcome.failed`.
* `Eventually(f, timeout, interval).Should(m)` polls `f` once at the start and
  again after every `interval` while the window `timeout` lasts; the embedding
  polls at most `timeout / interval + 1` times.  Logging is left out.
-/

namespace HostedProviders

/-- Why a helper did not return: a failed assertion, a timed-out `Eventually`
or a runtime panic. -/
inductive Failure where
  /-- The assertion `Expect(err).To(BeNil())` was handed the error `err` -/
  | errNotNil (err : String)
  /-- The assertion `Expect(actual).To(Equal(expected))` on strings failed -/
  | notEqual (actual expected : String)
  /-- The assertion `Expect(actual).To(BeNumerically("==", expected))` failed -/
  | notNumerically (actual expected : Int)
  /-- An `Eventually(...).Should(...)` ran out of its window -/
  | timedOut
  /-- runtime panic: index out of range `[i]` with length `len` -/
  | indexOutOfRange (i len : Nat)
  /-- runtime panic: slice bounds out of range `[:hi]` with capacity `cap` -/
  | sliceBoundsOutOfRange (hi cap : Nat)
  deriving DecidableEq, Repr

/-- Result of running a helper: it returned `a`, or it was aborted. -/
inductive Outcome (α : Type) where
  | ok (a : α)
  | failed (f : Failure)
  deriving DecidableEq, Repr

/-- One call made to the management API (`C` is the cluster type). -/
inductive Call (C : Type) where
  /-- A call `client.Management.Cluster.Update(existing, updates)` -/
  | Update (existing updates : C)
  /-- A call `client.Management.Cluster.ByID(id)` -/
  | ByID (id : String)
  /-- A call `clusters.WaitClusterToBeUpgraded(client, id)` -/
  | WaitClusterToBeUpgraded (id : String)
  deriving DecidableEq, Repr

/-- The management API as seen by the helpers; `σ` is the state of everything
outside the test process. -/
structure Client (σ C : Type) where
  Update : C → C → σ → Except String C × σ
  ByID : String → σ → Except String C × σ
  WaitClusterToBeUpgraded : String → σ → Option String × σ

/-- External state together with the list of API calls made so far (oldest
first). -/
structure World (σ C : Type) where
  state : σ
  calls : List (Call C)

/-- A computation of the test process: it reads and changes the world and
either returns or is aborted.  The world is kept when it is aborted. -/
def Run (σ C α : Type) : Type := World σ C → Outcome α × World σ C

namespace Run

/-- Return without touching the world. -/
def ret {σ C α : Type} (a : α) : Run σ C α := fun w => (Outcome.ok a, w)

/-- Abort with the failure `f`. -/
def fail {σ C α : Type} (f : Failure) : Run σ C α := fun w => (Outcome.failed f, w)

/-- Sequencing: an aborted first part skips the rest. -/
def andThen {σ C α β : Type} (m : Run σ C α) (k : α → Run σ C β) : Run σ C β := fun w =>
  match m w with
  | (Outcome.ok a, w1) => k a w1
  | (Outcome.failed f, w1) => (Outcome.failed f, w1)

end Run

instance instMonadRun {σ C : Type} : Monad (Run σ C) where
  pure := Run.ret
  bind := Run.andThen

/-- The statement `cluster, err := client.Management.Cluster.Update(existing, updates)`
followed by `Expect(err).To(BeNil())`. -/
def Update {σ C : Type} (client : Client σ C) (existing updates : C) : Run σ C C := fun w =>
  match client.Update existing updates w.state with
  | (Except.ok cluster, s) =>
      (Outcome.ok cluster, { state := s, calls := w.calls ++ [Call.Update existing updates] })
  | (Except.error err, s) =>
      (Outcome.failed (Failure.errNotNil err),
        { state := s, calls := w.calls ++ [Call.Update existing updates] })

/-- The statement `cluster, err = client.Management.Cluster.ByID(id)` followed by
`Expect(err).To(BeNil())`. -/
def ByID {σ C : Type} (client : Client σ C) (id : String) : Run σ C C := fun w =>
  match client.ByID id w.state with
  | (Except.ok cluster, s) =>
      (Outcome.ok cluster, { state := s, calls := w.calls ++ [Call.ByID id] })
  | (Except.error err, s) =>
      (Outcome.failed (Failure.errNotNil err), { state := s, calls := w.calls ++ [Call.ByID id] })

/-- The statement `err = clusters.WaitClusterToBeUpgraded(client, id)` followed by
`Expect(err).To(BeNil())`. -/
def WaitClusterToBeUpgraded {σ C : Type} (client : Client σ C) (id : String) : Run σ C Unit :=
  fun w =>
  match client.WaitClusterToBeUpgraded id w.state with
  | (none, s) =>
      (Outcome.ok (), { state := s, calls := w.calls ++ [Call.WaitClusterToBeUpgraded id] })
  | (some err, s) =>
      (Outcome.failed (Failure.errNotNil err),
        { state := s, calls := w.calls ++ [Call.WaitClusterToBeUpgraded id] })

/-- The assertion `Expect(actual).To(Equal(expected))` on strings. -/
def ExpectEqual {σ C : Type} (actual expected : String) : Run σ C Unit :=
  if actual = expected then Run.ret () else Run.fail (Failure.notEqual actual expected)

/-- The assertion `Expect(actual).To(BeNumerically("==", expected))` on integers. -/
def ExpectNumerically {σ C : Type} (actual expected : Int) : Run σ C Unit :=
  if actual = expected then Run.ret () else Run.fail (Failure.notNumerically actual expected)

/-- The retry loop of `Eventually`: `poll` re-assigns the captured variable
`cluster` and yields the polled value; the loop stops at the first value that
satisfies `should` and gives up when no retry is left. -/
def pollLoop {σ C β : Type} (poll : C → Run σ C (C × β)) (should : β → Bool) :
    Nat → C → Run σ C C
  | 0, cluster => do
      let r ← poll cluster
      if should r.2 then pure r.1 else Run.fail Failure.timedOut
  | retries + 1, cluster => do
      let r ← poll cluster
      if should r.2 then pure r.1 else pollLoop poll should retries r.1

/-- The assertion `Eventually(poll, timeout, interval).Should(should)`, durations in seconds;
returns the last value assigned to the captured variable `cluster`. -/
def Eventually {σ C β : Type} (poll : C → Run σ C (C × β)) (timeout interval : Nat)
    (should : β → Bool) (cluster : C) : Run σ C C :=
  pollLoop poll should (timeout / interval) cluster

/-- The clusters submitted as `updates` by the `Update` calls of a call list. -/
def submitted {C : Type} : List (Call C) → List C
  | [] => []
  | Call.Update _ updates :: rest => updates :: submitted rest
  | _ :: rest => submitted rest

/-- The ids re-fetched by the `ByID` calls of a call list. -/
def refetched {C : Type} : List (Call C) → List String
  | [] => []
  | Call.ByID id :: rest => id :: refetched rest
  | _ :: rest => refetched rest

/-- The loop `for i, ng := range actual { Expect(ng.Name).To(Equal(updateNodeGroupsList[i].Name)) }`
with `i` counting from the given index; `name` reads the field `Name`. -/
def ExpectNames {σ C P : Type} (name : P → String) (updateNodeGroupsList : List P) :
    Nat → List P → Run σ C Unit
  | _, [] => Run.ret ()
  | i, ng :: rest =>
      match updateNodeGroupsList[i]? with
      | none => Run.fail (Failure.indexOutOfRange i updateNodeGroupsList.length)
      | some u => do
          ExpectEqual (name ng) (name u)
          ExpectNames name updateNodeGroupsList (i + 1) rest

/-- The names that `k` successive calls of the name generator `gen` on `base`
yield, starting in the external state `s`. -/
def generatedNames {σ : Type} (gen : String → σ → String × σ) (base : String) :
    Nat → σ → List String
  | 0, _ => []
  | k + 1, s => (gen base s).1 :: generatedNames gen base k (gen base s).2

/-- The external state after `k` successive calls of the name generator. -/
def stateAfterNames {σ : Type} (gen : String → σ → String × σ) (base : String) :
    Nat → σ → σ
  | 0, s => s
  | k + 1, s => stateAfterNames gen base k (gen base s).2

/-- Every run of `m` only appends calls to the call list, and each appended
call satisfies `p`. -/
def Appends {σ C α : Type} (p : Call C → Prop) (m : Run σ C α) : Prop :=
  ∀ w, ∃ l, (m w).2.calls = w.calls ++ l ∧ ∀ c ∈ l, p c

/-- Every run of `m` adds at most `k` re-fetches (`ByID` calls) to the call
list. -/
def RefetchesAtMost {σ C α : Type} (k : Nat) (m : Run σ C α) : Prop :=
  ∀ w, (refetched (m w).2.calls).length ≤ (refetched w.calls).length + k

/-- Every run of `m` is aborted: `m` never returns. -/
def Fails {σ C α : Type} (m : Run σ C α) : Prop :=
  ∀ w, ∃ f w1, m w = (Outcome.failed f, w1)

/-- A call that is not an `Update`. -/
def Call.notUpdate {C : Type} : Call C → Prop
  | Call.Update _ _ => False
  | _ => True

/-- A call that is not a `ByID`. -/
def Call.notByID {C : Type} : Call C → Prop
  | Call.ByID _ => False
  | _ => True

namespace ACK

/-- The type `management.NodePoolInfo`, with the fields the helper names. -/
structure NodePoolInfo where
  Name : String
  InstanceTypes : List String
  InstancesNum : Int
  KeyPair : String
  Platform : String
  SystemDiskCategory : String
  SystemDiskSize : Int
  VSwitchIds : List String
  Runtime : String
  RuntimeVersion : String
  deriving DecidableEq, Repr

/-- The type `management.ACKClusterConfigSpec`, with the fields the helper names. -/
structure ACKClusterConfigSpec where
  KubernetesVersion : String
  NodePoolList : List NodePoolInfo
  deriving DecidableEq, Repr

/-- The type `management.ACKStatus`. -/
structure ACKStatus where
  UpstreamSpec : ACKClusterConfigSpec
  deriving DecidableEq, Repr

/-- The type `management.Cluster` as used by the ACK helper. -/
structure Cluster where
  ID : String
  ACKConfig : ACKClusterConfigSpec
  ACKStatus : ACKStatus
  deriving DecidableEq, Repr

/-- Everything the ACK helper takes from outside: the API client, the loaded
test configuration (`config.LoadConfig(ack.ACKClusterConfigConfigurationFileKey, ...)`),
the name generator and `tools.SetTimeout`. -/
structure Env (σ : Type) where
  client : Client σ Cluster
  LoadConfig : σ → ACKClusterConfigSpec
  AppendRandomString : String → σ → String × σ
  SetTimeout : Nat → Nat

/-- The call `namegen.AppendRandomString(base)`. -/
def AppendRandomString {σ : Type} (env : Env σ) (base : String) : Run σ Cluster String :=
  fun w =>
  let r := env.AppendRandomString base w.state
  (Outcome.ok r.1, { w with state := r.2 })

/-- The call `config.LoadConfig(ack.ACKClusterConfigConfigurationFileKey, &ackClusterConfig)`. -/
def LoadConfig {σ : Type} (env : Env σ) : Run σ Cluster ACKClusterConfigSpec :=
  fun w => (Outcome.ok (env.LoadConfig w.state), w)

/-- The object behind `cluster` and `upgradedCluster` once
`upgradedCluster.ACKConfig.KubernetesVersion = upgradeToVersion` has run. -/
def UpgradeClusterKubernetesVersion.upgradedCluster (cluster : Cluster)
    (upgradeToVersion : String) : Cluster :=
  { cluster with ACKConfig := { cluster.ACKConfig with KubernetesVersion := upgradeToVersion } }

/-- The function polled by `UpgradeClusterKubernetesVersion`. -/
def UpgradeClusterKubernetesVersion.poll {σ : Type} (env : Env σ) (upgradeToVersion : String)
    (cluster : Cluster) : Run σ Cluster (Cluster × Bool) := do
  let cluster ← ByID env.client cluster.ID
  pure (cluster, decide (cluster.ACKStatus.UpstreamSpec.KubernetesVersion = upgradeToVersion)
    && decide (cluster.ACKConfig.KubernetesVersion = upgradeToVersion))

/-- The helper `UpgradeClusterKubernetesVersion(cluster, upgradeToVersion, client, checkClusterConfig)`;
the returned error is always nil, so only the cluster is returned. -/
def UpgradeClusterKubernetesVersion {σ : Type} (env : Env σ) (cluster : Cluster)
    (upgradeToVersion : String) (checkClusterConfig : Bool) : Run σ Cluster Cluster := do
  let upgradedCluster := UpgradeClusterKubernetesVersion.upgradedCluster cluster upgradeToVersion
  let cluster ← Update env.client upgradedCluster upgradedCluster
  if checkClusterConfig then do
    ExpectEqual cluster.ACKConfig.KubernetesVersion upgradeToVersion
    Eventually (UpgradeClusterKubernetesVersion.poll env upgradeToVersion)
      (env.SetTimeout (30 * 60)) 30 (fun b => b) cluster
  else
    pure cluster

/-- The loop `for i := range configNodePools { configNodePools[i].InstancesNum = nodeCount }`. -/
def ScaleNodeGroup.setInstancesNum (nodeCount : Int) : List NodePoolInfo → List NodePoolInfo
  | [] => []
  | ng :: rest => { ng with InstancesNum := nodeCount } :: ScaleNodeGroup.setInstancesNum nodeCount rest

/-- The object behind `cluster` and `upgradedCluster` once the loop over
`configNodePools` has run: the slice shares its array with the cluster. -/
def ScaleNodeGroup.upgradedCluster (cluster : Cluster) (nodeCount : Int) : Cluster :=
  { cluster with ACKConfig := { cluster.ACKConfig with
      NodePoolList := ScaleNodeGroup.setInstancesNum nodeCount cluster.ACKConfig.NodePoolList } }

/-- The loop `for i := range configNodePools {
  Expect(configNodePools[i].InstancesNum).To(BeNumerically("==", nodeCount)) }`. -/
def ScaleNodeGroup.expectInstancesNum {σ : Type} (nodeCount : Int) :
    List NodePoolInfo → Run σ Cluster Unit
  | [] => Run.ret ()
  | ng :: rest => do
      ExpectNumerically ng.InstancesNum nodeCount
      ScaleNodeGroup.expectInstancesNum nodeCount rest

/-- The loop of the polled function of `ScaleNodeGroup`: false at the first
upstream pool whose `InstancesNum` differs from `nodeCount`, true at the end. -/
def ScaleNodeGroup.converged (nodeCount : Int) : List NodePoolInfo → Bool
  | [] => true
  | ng :: rest =>
      if ng.InstancesNum ≠ nodeCount then false else ScaleNodeGroup.converged nodeCount rest

/-- The function polled by `ScaleNodeGroup`. -/
def ScaleNodeGroup.poll {σ : Type} (env : Env σ) (nodeCount : Int) (cluster : Cluster) :
    Run σ Cluster (Cluster × Bool) := do
  let cluster ← ByID env.client cluster.ID
  let upstreamNodeGroups := cluster.ACKStatus.UpstreamSpec.NodePoolList
  pure (cluster, ScaleNodeGroup.converged nodeCount upstreamNodeGroups)

/-- The helper `ScaleNodeGroup(cluster, client, nodeCount, wait, checkClusterConfig)`. -/
def ScaleNodeGroup {σ : Type} (env : Env σ) (cluster : Cluster) (nodeCount : Int)
    (wait checkClusterConfig : Bool) : Run σ Cluster Cluster := do
  let upgradedCluster := ScaleNodeGroup.upgradedCluster cluster nodeCount
  let cluster ← Update env.client upgradedCluster upgradedCluster
  if checkClusterConfig then
    ScaleNodeGroup.expectInstancesNum nodeCount cluster.ACKConfig.NodePoolList
  if wait then
    WaitClusterToBeUpgraded env.client cluster.ID
  if checkClusterConfig then
    Eventually (ScaleNodeGroup.poll env nodeCount) (env.SetTimeout (15 * 60)) 10 (fun b => b) cluster
  else
    pure cluster

/-- The composite literal `management.NodePoolInfo{ Name: ..., InstanceTypes:
ngTemplate.InstanceTypes, ... }` of `AddNodePool`. -/
def AddNodePool.newNodeGroup (ngTemplate : NodePoolInfo) (name : String) : NodePoolInfo :=
  { Name := name
    InstanceTypes := ngTemplate.InstanceTypes
    InstancesNum := ngTemplate.InstancesNum
    KeyPair := ngTemplate.KeyPair
    Platform := ngTemplate.Platform
    SystemDiskCategory := ngTemplate.SystemDiskCategory
    SystemDiskSize := ngTemplate.SystemDiskSize
    VSwitchIds := ngTemplate.VSwitchIds
    Runtime := ngTemplate.Runtime
    RuntimeVersion := ngTemplate.RuntimeVersion }

/-- The loop `for i := 1; i <= increaseBy; i++ { ...; updateNodeGroupsList =
append(updateNodeGroupsList, newNodeGroup) }`, by the number of rounds left. -/
def AddNodePool.loop {σ : Type} (env : Env σ) (ngTemplate : NodePoolInfo) :
    Nat → List NodePoolInfo → Run σ Cluster (List NodePoolInfo)
  | 0, updateNodeGroupsList => pure updateNodeGroupsList
  | rounds + 1, updateNodeGroupsList => do
      let name ← AppendRandomString env "ng"
      AddNodePool.loop env ngTemplate rounds
        (updateNodeGroupsList ++ [AddNodePool.newNodeGroup ngTemplate name])

/-- The object behind `cluster` and `upgradedCluster` once
`upgradedCluster.ACKConfig.NodePoolList = updateNodeGroupsList` has run. -/
def setNodePoolList (cluster : Cluster) (updateNodeGroupsList : List NodePoolInfo) : Cluster :=
  { cluster with ACKConfig := { cluster.ACKConfig with NodePoolList := updateNodeGroupsList } }

/-- The function polled by `AddNodePool` and by `DeleteNodePool`. -/
def pollNodePoolCount {σ : Type} (env : Env σ) (cluster : Cluster) :
    Run σ Cluster (Cluster × Int) := do
  let cluster ← ByID env.client cluster.ID
  pure (cluster, (cluster.ACKStatus.UpstreamSpec.NodePoolList.length : Int))

/-- The helper `AddNodePool(cluster, increaseBy, client, wait, checkClusterConfig)`; the
loop runs `increaseBy` times, no time when `increaseBy` is below 1. -/
def AddNodePool {σ : Type} (env : Env σ) (cluster : Cluster) (increaseBy : Int)
    (wait checkClusterConfig : Bool) : Run σ Cluster Cluster := do
  let currentNodeGroupNumber : Int := cluster.ACKConfig.NodePoolList.length
  let ackClusterConfig ← LoadConfig env
  let nodePools := ackClusterConfig.NodePoolList
  match nodePools with
  | [] => Run.fail (Failure.indexOutOfRange 0 0)
  | ngTemplate :: _ => do
    let updateNodeGroupsList ←
      AddNodePool.loop env ngTemplate increaseBy.toNat cluster.ACKConfig.NodePoolList
    let upgradedCluster := setNodePoolList cluster updateNodeGroupsList
    let cluster ← Update env.client upgradedCluster upgradedCluster
    if checkClusterConfig then do
      ExpectNumerically cluster.ACKConfig.NodePoolList.length (currentNodeGroupNumber + increaseBy)
      ExpectNames NodePoolInfo.Name updateNodeGroupsList 0 cluster.ACKConfig.NodePoolList
    if wait then
      WaitClusterToBeUpgraded env.client cluster.ID
    if checkClusterConfig then do
      let cluster ← Eventually (pollNodePoolCount env) (env.SetTimeout (15 * 60)) 10
        (fun n => decide (n = currentNodeGroupNumber + increaseBy)) cluster
      ExpectNames NodePoolInfo.Name updateNodeGroupsList 0
        cluster.ACKStatus.UpstreamSpec.NodePoolList
      pure cluster
    else
      pure cluster

/-- The helper `DeleteNodePool(cluster, client, wait, checkClusterConfig)`. -/
def DeleteNodePool {σ : Type} (env : Env σ) (cluster : Cluster)
    (wait checkClusterConfig : Bool) : Run σ Cluster Cluster := do
  let currentNodeGroupNumber : Int := cluster.ACKConfig.NodePoolList.length
  let configNodePools := cluster.ACKConfig.NodePoolList
  match configNodePools with
  | [] => Run.fail (Failure.sliceBoundsOutOfRange 1 0)
  | _ :: _ => do
    let updateNodeGroupsList := configNodePools.take 1
    let upgradedCluster := setNodePoolList cluster updateNodeGroupsList
    let cluster ← Update env.client upgradedCluster upgradedCluster
    if checkClusterConfig then do
      ExpectNumerically cluster.ACKConfig.NodePoolList.length (currentNodeGroupNumber - 1)
      ExpectNames NodePoolInfo.Name updateNodeGroupsList 0 cluster.ACKConfig.NodePoolList
    if wait then
      WaitClusterToBeUpgraded env.client cluster.ID
    if checkClusterConfig then do
      let cluster ← Eventually (pollNodePoolCount env) (env.SetTimeout (15 * 60)) 10
        (fun n => decide (n = currentNodeGroupNumber - 1)) cluster
      ExpectNames NodePoolInfo.Name updateNodeGroupsList 0
        cluster.ACKStatus.UpstreamSpec.NodePoolList
      pure cluster
    else
      pure cluster

/-! ### Sample backends, used to run the helpers on concrete inputs -/

/-- State of the sample backends: the cluster they store and the suffixes the
name generator will hand out. -/
structure Backend where
  stored : Cluster
  suffixes : List String
  deriving DecidableEq, Repr

/-- The cluster a backend stores for `updates` when it reconciles at once:
the upstream spec is the submitted config. -/
def reconciled (updates : Cluster) : Cluster :=
  { updates with ACKStatus := { UpstreamSpec := updates.ACKConfig } }

/-- A backend that accepts every update and reconciles it at once. -/
def syncClient : Client Backend Cluster where
  Update := fun _ updates s => (Except.ok (reconciled updates), { s with stored := reconciled updates })
  ByID := fun _ s => (Except.ok s.stored, s)
  WaitClusterToBeUpgraded := fun _ s => (none, s)

/-- A backend that accepts every update on the desired side and never
reconciles: the upstream spec stays what it was. -/
def staleClient : Client Backend Cluster where
  Update := fun _ updates s => (Except.ok updates, { s with stored := updates })
  ByID := fun _ s => (Except.ok s.stored, s)
  WaitClusterToBeUpgraded := fun _ s => (none, s)

/-- A backend whose update call fails. -/
def rejectClient : Client Backend Cluster where
  Update := fun _ _ s => (Except.error "update refused", s)
  ByID := fun _ s => (Except.ok s.stored, s)
  WaitClusterToBeUpgraded := fun _ s => (none, s)

/-- A backend that answers every update with a cluster without node pools. -/
def droppingClient : Client Backend Cluster where
  Update := fun _ updates s =>
    (Except.ok (reconciled (setNodePoolList updates [])),
      { s with stored := reconciled (setNodePoolList updates []) })
  ByID := fun _ s => (Except.ok s.stored, s)
  WaitClusterToBeUpgraded := fun _ s => (none, s)

/-- A node pool named `name` with `instancesNum` instances. -/
def samplePool (name : String) (instancesNum : Int) : NodePoolInfo :=
  { Name := name
    InstanceTypes := ["ecs.g6.large"]
    InstancesNum := instancesNum
    KeyPair := "kp"
    Platform := "AliyunLinux"
    SystemDiskCategory := "cloud_efficiency"
    SystemDiskSize := 120
    VSwitchIds := ["vsw-1"]
    Runtime := "containerd"
    RuntimeVersion := "1.6.20" }

/-- A cluster with the given desired node pools, upstream equal to desired. -/
def sampleCluster (nodePoolList : List NodePoolInfo) : Cluster :=
  { ID := "c-1"
    ACKConfig := { KubernetesVersion := "1.31.9-aliyun.1", NodePoolList := nodePoolList }
    ACKStatus := { UpstreamSpec :=
      { KubernetesVersion := "1.31.9-aliyun.1", NodePoolList := nodePoolList } } }

/-- An environment around a sample backend: the configured template is one
pool `tpl`, names are the base followed by the next suffix, timeouts are not
scaled. -/
def sampleEnv (client : Client Backend Cluster) : Env Backend where
  client := client
  LoadConfig := fun _ =>
    { KubernetesVersion := "1.31.9-aliyun.1", NodePoolList := [samplePool "tpl" 2] }
  AppendRandomString := fun base s =>
    match s.suffixes with
    | [] => (base, s)
    | suffix :: rest => (base ++ suffix, { s with suffixes := rest })
  SetTimeout := fun timeout => timeout

/-- A world with nothing called yet, storing `cluster`. -/
def sampleWorld (cluster : Cluster) : World Backend Cluster :=
  { state := { stored := cluster, suffixes := ["-a", "-b", "-c"] }, calls := [] }

end ACK

/-! ### The version helpers -/

/-- A query that the version helpers send to the management server. -/
inductive Query where
  /-- A call `helpers.GetRancherServerVersion(client)` -/
  | GetRancherServerVersion
  /-- A call `helpers.FilterUIUnsupportedVersions(versions, client)` -/
  | FilterUIUnsupportedVersions (versions : List String)
  deriving DecidableEq, Repr

/-- The package `hosted/helpers` as the provider helpers use it; the package is
not among the sources.  `DownstreamK8sMinorVersion` is its variable of that
name (the DOWNSTREAM_K8S_MINOR_VERSION override), `UISupported` answers which
versions the UI layer supports in a given server state. -/
structure Helpers (σ : Type) where
  DownstreamK8sMinorVersion : String
  GetRancherServerVersion : σ → Except String String × σ
  UISupported : σ → (String → Bool) × σ
  DefaultK8sVersion : List String → Bool → Except String String

/-- The management server as the version helpers see it: its state and the
queries made so far (oldest first). -/
structure Server (σ : Type) where
  state : σ
  queries : List Query

/-- The call `helpers.GetRancherServerVersion(client)`. -/
def GetRancherServerVersion {σ : Type} (h : Helpers σ) (srv : Server σ) :
    Except String String × Server σ :=
  ((h.GetRancherServerVersion srv.state).1,
    { state := (h.GetRancherServerVersion srv.state).2,
      queries := srv.queries ++ [Query.GetRancherServerVersion] })

/-- Modelled from the spec: `helpers.FilterUIUnsupportedVersions` is not among
the sources; the spec has the available versions "filtered by what the UI layer
supports", so the call keeps, in order, the versions the UI layer supports. -/
def FilterUIUnsupportedVersions {σ : Type} (h : Helpers σ) (versions : List String)
    (srv : Server σ) : List String × Server σ :=
  (versions.filter (h.UISupported srv.state).1,
    { state := (h.UISupported srv.state).2,
      queries := srv.queries ++ [Query.FilterUIUnsupportedVersions versions] })

/-- Whether the characters `substr` occur as a block in `s`. -/
def containsChars (substr : List Char) : List Char → Bool
  | [] => substr.isEmpty
  | c :: cs => substr.isPrefixOf (c :: cs) || containsChars substr cs

/-- The call `strings.Contains(s, substr)`; on well-formed UTF-8 a block of
bytes of `s` spells `substr` exactly when a block of characters does. -/
def Contains (s substr : String) : Bool := containsChars substr.data s.data

namespace ACK

/-- The `switch` of `ListACKAllVersions`, with the default assigned before it. -/
def ListACKAllVersions.allVersions (serverVersion : String) : List String :=
  if Contains serverVersion "2.12" then ["1.31.9-aliyun.1", "1.32.7-aliyun.1", "1.33.3-aliyun.1"]
  else if Contains serverVersion "2.11" then ["1.31.9-aliyun.1", "1.32.7-aliyun.1"]
  else if Contains serverVersion "2.10" then ["1.31.9-aliyun.1"]
  else ["1.31.9-aliyun.1", "1.32.7-aliyun.1", "1.33.3-aliyun.1"]

/-- The helper `ListACKAllVersions(client)`: `Except.error err` is the return
`nil, err`, `Except.ok l` is the return `l, nil`. -/
def ListACKAllVersions {σ : Type} (h : Helpers σ) (srv : Server σ) :
    Except String (List String) × Server σ :=
  match GetRancherServerVersion h srv with
  | (Except.error err, srv1) => (Except.error err, srv1)
  | (Except.ok serverVersion, srv1) =>
      let allVersions := ListACKAllVersions.allVersions serverVersion
      ((Except.ok (FilterUIUnsupportedVersions h allVersions srv1).1),
        (FilterUIUnsupportedVersions h allVersions srv1).2)

/-- The helper `GetK8sVersion(client, forUpgrade)` of the ACK package. -/
def GetK8sVersion {σ : Type} (h : Helpers σ) (forUpgrade : Bool) (srv : Server σ) :
    Except String String × Server σ :=
  if h.DownstreamK8sMinorVersion ≠ "" then
    (Except.ok h.DownstreamK8sMinorVersion, srv)
  else
    match ListACKAllVersions h srv with
    | (Except.error err, srv1) => (Except.error err, srv1)
    | (Except.ok allVariants, srv1) => (h.DefaultK8sVersion allVariants forUpgrade, srv1)

end ACK

namespace TKE

/-- The `switch` of `ListTKEAllVersions`, with the default assigned before it. -/
def ListTKEAllVersions.allVersions (serverVersion : String) : List String :=
  if Contains serverVersion "2.12" then ["1.32.2", "1.30.0"]
  else if Contains serverVersion "2.11" then ["1.32.2", "1.30.0"]
  else if Contains serverVersion "2.10" then ["1.30.0", "1.28.3"]
  else ["1.32.2", "1.30.0", "1.28.3"]

/-- The helper `ListTKEAllVersions(client)`. -/
def ListTKEAllVersions {σ : Type} (h : Helpers σ) (srv : Server σ) :
    Except String (List String) × Server σ :=
  match GetRancherServerVersion h srv with
  | (Except.error err, srv1) => (Except.error err, srv1)
  | (Except.ok serverVersion, srv1) =>
      let allVersions := ListTKEAllVersions.allVersions serverVersion
      ((Except.ok (FilterUIUnsupportedVersions h allVersions srv1).1),
        (FilterUIUnsupportedVersions h allVersions srv1).2)

/-- The helper `GetK8sVersion(client, forUpgrade)` of the TKE package. -/
def GetK8sVersion {σ : Type} (h : Helpers σ) (forUpgrade : Bool) (srv : Server σ) :
    Except String String × Server σ :=
  if h.DownstreamK8sMinorVersion ≠ "" then
    (Except.ok h.DownstreamK8sMinorVersion, srv)
  else
    match ListTKEAllVersions h srv with
    | (Except.error err, srv1) => (Except.error err, srv1)
    | (Except.ok allVariants, srv1) => (h.DefaultK8sVersion allVariants forUpgrade, srv1)

end TKE

namespace CCE

/-- The `switch` of `ListCCEAllVersions`, with the default assigned before it. -/
def ListCCEAllVersions.allVersions (serverVersion : String) : List String :=
  if Contains serverVersion "2.12" then ["v1.32", "v1.31", "v1.30"]
  else if Contains serverVersion "2.11" then ["v1.32", "v1.31", "v1.30"]
  else if Contains serverVersion "2.10" then ["v1.31", "v1.30", "v1.29", "v1.28"]
  else if Contains serverVersion "2.9" then ["v1.30", "v1.29", "v1.28"]
  else ["v1.32", "v1.31", "v1.30"]

/-- The helper `ListCCEAllVersions(client)`. -/
def ListCCEAllVersions {σ : Type} (h : Helpers σ) (srv : Server σ) :
    Except String (List String) × Server σ :=
  match GetRancherServerVersion h srv with
  | (Except.error err, srv1) => (Except.error err, srv1)
  | (Except.ok serverVersion, srv1) =>
      let allVersions := ListCCEAllVersions.allVersions serverVersion
      ((Except.ok (FilterUIUnsupportedVersions h allVersions srv1).1),
        (FilterUIUnsupportedVersions h allVersions srv1).2)

/-- The helper `GetK8sVersion(client, forUpgrade)` of the CCE package. -/
def GetK8sVersion {σ : Type} (h : Helpers σ) (forUpgrade : Bool) (srv : Server σ) :
    Except String String × Server σ :=
  if h.DownstreamK8sMinorVersion ≠ "" then
    (Except.ok h.DownstreamK8sMinorVersion, srv)
  else
    match ListCCEAllVersions h srv with
    | (Except.error err, srv1) => (Except.error err, srv1)
    | (Except.ok allVariants, srv1) => (h.DefaultK8sVersion allVariants forUpgrade, srv1)

end CCE

/-- Helpers for the examples: the server version is `serverVersion`, the UI
supports every version but "1.33.3-aliyun.1" and "v1.32", and the default
version is the first of the list. -/
def sampleHelpers (downstreamK8sMinorVersion serverVersion : String) : Helpers Unit where
  DownstreamK8sMinorVersion := downstreamK8sMinorVersion
  GetRancherServerVersion := fun s => (Except.ok serverVersion, s)
  UISupported := fun s => (fun v => v != "1.33.3-aliyun.1" && v != "v1.32", s)
  DefaultK8sVersion := fun versions _ =>
    match versions with
    | [] => Except.error "no version"
    | v :: _ => Except.ok v

/-- Helpers whose server version cannot be read. -/
def unreadableHelpers : Helpers Unit where
  DownstreamK8sMinorVersion := ""
  GetRancherServerVersion := fun s => (Except.error "server version unavailable", s)
  UISupported := fun s => (fun _ => true, s)
  DefaultK8sVersion := fun _ _ => Except.error "no version"

/-- A server that has not been queried. -/
def sampleServer : Server Unit := { state := (), queries := [] }

/-- The statement `return client.Management.Cluster.Update(existing, updates)`:
the call is made and its two results are handed on as they are. -/
def UpdateCall {σ C : Type} (client : Client σ C) (existing updates : C) :
    Run σ C (Except String C) := fun w =>
  (Outcome.ok (client.Update existing updates w.state).1,
    { state := (client.Update existing updates w.state).2,
      calls := w.calls ++ [Call.Update existing updates] })

/-- The assignment `data[j], data[j-1] = data[j-1], data[j]` of the sort. -/
def swapWithPrevious {α : Type} : Nat → List α → List α
  | 1, a :: b :: rest => b :: a :: rest
  | j + 2, a :: rest => a :: swapWithPrevious (j + 1) rest
  | _, l => l

/-- The inner loop `for j := i; j > 0 && less(j, j-1); j-- { swap(j, j-1) }`
of the insertion sort. -/
def insertionSort.sink {α : Type} (less : Nat → Nat → Bool) : Nat → List α → List α
  | 0, l => l
  | j + 1, l =>
      if less (j + 1) j then insertionSort.sink less j (swapWithPrevious (j + 1) l) else l

/-- The outer loop `for i := 1; i < n; i++` of the insertion sort, by the
number of rounds left. -/
def insertionSort.rounds {α : Type} (less : Nat → Nat → Bool) : Nat → Nat → List α → List α
  | 0, _, l => l
  | left + 1, i, l => insertionSort.rounds less left (i + 1) (insertionSort.sink less i l)

/-- The call `sort.SliceStable(l, less)`, `less` comparing by index.  Go sorts
blocks of 20 elements by insertion and merges the blocks afterwards; this is
the insertion sort, which is the whole algorithm for at most 20 elements. -/
def SliceStable {α : Type} (l : List α) (less : Nat → Nat → Bool) : List α :=
  insertionSort.rounds less (l.length - 1) 1 l

namespace CCE

/-- The type `management.CCENodePool`, with the fields the helper names
(`Type_` is the Go field `Type`; `NodeTemplate` is kept by its flavor only). -/
structure CCENodePool where
  CustomSecurityGroups : List String
  Type_ : String
  InitialNodeCount : Int
  Name : String
  NodeTemplate : String
  PodSecurityGroups : List String
  deriving DecidableEq, Repr

/-- The type `management.CCEClusterConfigSpec`, with the fields the helper names. -/
structure CCEClusterConfigSpec where
  HuaweiCredentialSecret : String
  Name : String
  Imported : Bool
  RegionID : String
  Version : String
  NodePools : List CCENodePool
  deriving DecidableEq, Repr

/-- The type `management.CCEStatus`. -/
structure CCEStatus where
  UpstreamSpec : CCEClusterConfigSpec
  deriving DecidableEq, Repr

/-- The type `version.Info` behind `cluster.Version`. -/
structure Info where
  GitVersion : String
  deriving DecidableEq, Repr

/-- The type `management.Cluster` as used by the CCE helper. -/
structure Cluster where
  ID : String
  Version : Info
  CCEConfig : CCEClusterConfigSpec
  CCEStatus : CCEStatus
  deriving DecidableEq, Repr

/-- Everything the CCE helper takes from outside for its updates: the API
client, the name generator and `tools.SetTimeout`. -/
structure Env (σ : Type) where
  client : Client σ Cluster
  AppendRandomString : String → σ → String × σ
  SetTimeout : Nat → Nat

/-- The object behind `cluster` and `upgradedCluster` once
`upgradedCluster.CCEConfig.Version = upgradeToVersion` has run. -/
def UpgradeClusterKubernetesVersion.upgradedCluster (cluster : Cluster)
    (upgradeToVersion : String) : Cluster :=
  { cluster with CCEConfig := { cluster.CCEConfig with Version := upgradeToVersion } }

/-- The function polled by `UpgradeClusterKubernetesVersion`. -/
def UpgradeClusterKubernetesVersion.poll {σ : Type} (env : Env σ) (upgradeToVersion : String)
    (cluster : Cluster) : Run σ Cluster (Cluster × Bool) := do
  let cluster ← ByID env.client cluster.ID
  pure (cluster, decide (cluster.CCEStatus.UpstreamSpec.Version = upgradeToVersion)
    && decide (cluster.CCEConfig.Version = upgradeToVersion))

/-- The helper `UpgradeClusterKubernetesVersion(cluster, upgradeToVersion, client,
checkClusterConfig)` of the CCE package. -/
def UpgradeClusterKubernetesVersion {σ : Type} (env : Env σ) (cluster : Cluster)
    (upgradeToVersion : String) (checkClusterConfig : Bool) : Run σ Cluster Cluster := do
  let upgradedCluster := UpgradeClusterKubernetesVersion.upgradedCluster cluster upgradeToVersion
  let cluster ← Update env.client upgradedCluster upgradedCluster
  if checkClusterConfig then do
    ExpectEqual cluster.CCEConfig.Version upgradeToVersion
    Eventually (UpgradeClusterKubernetesVersion.poll env upgradeToVersion)
      (env.SetTimeout (15 * 60)) 30 (fun b => b) cluster
  else
    pure cluster

/-- The helper `UpdateCluster(cluster, client, updateFunc)`: `updateFunc` works
on the object behind `upgradedCluster`, which is the caller's `cluster`. -/
def UpdateCluster {σ : Type} (env : Env σ) (cluster : Cluster)
    (updateFunc : Cluster → Cluster) : Run σ Cluster (Except String Cluster) :=
  let upgradedCluster := updateFunc cluster
  UpdateCall env.client upgradedCluster upgradedCluster

/-- The type `cce.NodePool` of the cluster template, with its name and the
fields it shares with `management.CCENodePool` (`Type_` is the Go field
`Type`). -/
structure NodePool where
  Name : String
  Type_ : String
  InitialNodeCount : Int
  NodeTemplate : String
  deriving DecidableEq, Repr

/-- The type `cce.ClusterConfig` of the cluster template, with the fields the
helper names. -/
structure ClusterConfig where
  Name : String
  Version : String
  RegionID : String
  Tags : List (String × String)
  ContainerNetworkCIDR : String
  NodePools : List NodePool
  deriving DecidableEq, Repr

/-- The loop `for i := 1; i <= ngCount; i++` of `AddNodePoolToConfig`, by the
number of rounds left; `ngTemplate[0]` panics on an empty list. -/
def AddNodePoolToConfig.loop {σ : Type} (AppendRandomString : String → σ → String × σ)
    (ngTemplate : List NodePool) : Nat → List NodePool → σ → Outcome (List NodePool) × σ
  | 0, updateNodeGroupsList, s => (Outcome.ok updateNodeGroupsList, s)
  | rounds + 1, updateNodeGroupsList, s =>
      match ngTemplate with
      | [] => (Outcome.failed (Failure.indexOutOfRange 0 0), s)
      | first :: _ =>
          let newNodeGroup : NodePool :=
            { first with Name := (AppendRandomString first.Name s).1 }
          AddNodePoolToConfig.loop AppendRandomString ngTemplate rounds
            (updateNodeGroupsList ++ [newNodeGroup]) (AppendRandomString first.Name s).2

/-- The helper `AddNodePoolToConfig(cceClusterConfig, ngCount)`: the returned
error is always nil, so only the config is returned; `updateNodeGroupsList`
starts as the nil slice. -/
def AddNodePoolToConfig {σ : Type} (AppendRandomString : String → σ → String × σ)
    (cceClusterConfig : ClusterConfig) (ngCount : Int) (s : σ) : Outcome ClusterConfig × σ :=
  let ngTemplate := cceClusterConfig.NodePools
  match AddNodePoolToConfig.loop AppendRandomString ngTemplate ngCount.toNat [] s with
  | (Outcome.failed f, s1) => (Outcome.failed f, s1)
  | (Outcome.ok updateNodeGroupsList, s1) =>
      (Outcome.ok { cceClusterConfig with NodePools := updateNodeGroupsList }, s1)

/-- The package `github.com/Masterminds/semver/v3` as the helper uses it, over
its type `V` of versions: `Minor` is a `uint64`, and `Compare` returns -1, 0
or 1. -/
structure Semver (V : Type) where
  NewVersion : String → Except String V
  Major : V → Nat
  Minor : V → Nat
  Compare : V → V → Int
  Minor_lt : ∀ v, Minor v < 2 ^ 64
  Compare_range : ∀ v o, Compare v o = -1 ∨ Compare v o = 0 ∨ Compare v o = 1

/-- The first loop of `ListCCEAvailableVersions`: the versions that parse, in
order. -/
def ListCCEAvailableVersions.validMasterVersions {V : Type} (semver : Semver V) :
    List String → List V
  | [] => []
  | version :: rest =>
      match semver.NewVersion version with
      | Except.error _ => ListCCEAvailableVersions.validMasterVersions semver rest
      | Except.ok v => v :: ListCCEAvailableVersions.validMasterVersions semver rest

/-- The second loop of `ListCCEAvailableVersions`; `v.Minor()-1` is computed in
`uint64`. -/
def ListCCEAvailableVersions.availableVersions {V : Type} (semver : Semver V)
    (currentVersion : V) : List V → List String
  | [] => []
  | v :: rest =>
      if (semver.Minor v + 2 ^ 64 - 1) % 2 ^ 64 > semver.Minor currentVersion
          ∨ semver.Compare v currentVersion = 0 ∨ semver.Compare v currentVersion = -1 then
        ListCCEAvailableVersions.availableVersions semver currentVersion rest
      else
        ("v" ++ toString (semver.Major v) ++ "." ++ toString (semver.Minor v)) ::
          ListCCEAvailableVersions.availableVersions semver currentVersion rest

/-- The helper `ListCCEAvailableVersions(client, cluster)`. -/
def ListCCEAvailableVersions {σ V : Type} (semver : Semver V) (h : Helpers σ)
    (cluster : Cluster) (srv : Server σ) : Except String (List String) × Server σ :=
  match semver.NewVersion cluster.Version.GitVersion with
  | Except.error err => (Except.error err, srv)
  | Except.ok currentVersion =>
      match ListCCEAllVersions h srv with
      | (Except.error err, srv1) => (Except.error err, srv1)
      | (Except.ok allAvailableVersions, srv1) =>
          let validMasterVersions :=
            ListCCEAvailableVersions.validMasterVersions semver allAvailableVersions
          let availableVersions :=
            ListCCEAvailableVersions.availableVersions semver currentVersion validMasterVersions
          let sorted := SliceStable availableVersions (fun i j => decide (i > j))
          ((Except.ok (FilterUIUnsupportedVersions h sorted srv1).1),
            (FilterUIUnsupportedVersions h sorted srv1).2)

/-- The upgrade targets in the words of the specification: of the candidates
that parse, those strictly newer than the current version whose minor number is
at most the current minor plus one, as "vMAJOR.MINOR". -/
def upgradeTargets {V : Type} (semver : Semver V) (currentVersion : V) :
    List String → List String
  | [] => []
  | candidate :: rest =>
      match semver.NewVersion candidate with
      | Except.error _ => upgradeTargets semver currentVersion rest
      | Except.ok v =>
          if semver.Compare v currentVersion = 1
              ∧ semver.Minor v ≤ semver.Minor currentVersion + 1 then
            ("v" ++ toString (semver.Major v) ++ "." ++ toString (semver.Minor v)) ::
              upgradeTargets semver currentVersion rest
          else upgradeTargets semver currentVersion rest

/-! ### Sample data for the CCE helper -/

/-- A semver package for the examples: versions are triples
(major, minor, patch), and the parser knows the strings used below. -/
def sampleSemver : Semver (Nat × Nat × Nat) where
  NewVersion := fun version =>
    match version with
    | "v1.32" => Except.ok (1, 32, 0)
    | "v1.31" => Except.ok (1, 31, 0)
    | "v1.30" => Except.ok (1, 30, 0)
    | "v1.29" => Except.ok (1, 29, 0)
    | "v1.28" => Except.ok (1, 28, 0)
    | "v1.30.4-r0" => Except.ok (1, 30, 4)
    | _ => Except.error "Invalid Semantic Version"
  Major := fun v => v.1
  Minor := fun v => v.2.1 % 2 ^ 64
  Compare := fun v o =>
    if v.1 < o.1 then -1 else if o.1 < v.1 then 1
    else if v.2.1 % 2 ^ 64 < o.2.1 % 2 ^ 64 then -1
    else if o.2.1 % 2 ^ 64 < v.2.1 % 2 ^ 64 then 1
    else if v.2.2 < o.2.2 then -1 else if o.2.2 < v.2.2 then 1 else 0
  Minor_lt := fun v => Nat.mod_lt _ (by norm_num)
  Compare_range := by
    intro v o
    dsimp only
    split_ifs <;> simp

/-- A name generator for the examples: the state is the list of suffixes still
to hand out. -/
def sampleAppendRandomString (base : String) (suffixes : List String) : String × List String :=
  match suffixes with
  | [] => (base, [])
  | suffix :: rest => (base ++ suffix, rest)

/-- A template node pool named `name`. -/
def sampleNodePool (name : String) : NodePool :=
  { Name := name, Type_ := "vm", InitialNodeCount := 1, NodeTemplate := "c6.large.2" }

/-- A cluster template with the given node pools. -/
def sampleClusterConfig (nodePools : List NodePool) : ClusterConfig :=
  { Name := "cce-1", Version := "v1.30", RegionID := "cn-north-4", Tags := [("owner", "e2e")],
    ContainerNetworkCIDR := "10.7.0.0/16", NodePools := nodePools }

/-- A CCE cluster at version `version`, upstream equal to desired. -/
def sampleCluster (version : String) : Cluster :=
  { ID := "c-2"
    Version := { GitVersion := "v1.30.4-r0" }
    CCEConfig := { HuaweiCredentialSecret := "cattle-global-data:cc-1", Name := "cce-1",
                   Imported := false, RegionID := "cn-north-4", Version := version,
                   NodePools := [] }
    CCEStatus := { UpstreamSpec :=
      { HuaweiCredentialSecret := "cattle-global-data:cc-1", Name := "cce-1", Imported := false,
        RegionID := "cn-north-4", Version := version, NodePools := [] } } }

/-- A CCE backend that accepts every update on the desired side and never
reconciles; its state is the cluster it stores. -/
def staleClient : Client Cluster Cluster where
  Update := fun _ updates _ => (Except.ok updates, updates)
  ByID := fun _ s => (Except.ok s, s)
  WaitClusterToBeUpgraded := fun _ s => (none, s)

/-- A CCE backend that accepts every update and answers every re-fetch with
the same cluster `frozen`. -/
def frozenClient (frozen : Cluster) : Client Cluster Cluster where
  Update := fun _ updates _ => (Except.ok updates, updates)
  ByID := fun _ s => (Except.ok frozen, s)
  WaitClusterToBeUpgraded := fun _ s => (none, s)

/-- An environment around a CCE sample backend, timeouts not scaled. -/
def sampleEnv (client : Client Cluster Cluster) : Env Cluster where
  client := client
  AppendRandomString := fun base s => (base, s)
  SetTimeout := fun timeout => timeout

/-- A world with nothing called yet, storing `cluster`. -/
def sampleWorld (cluster : Cluster) : World Cluster Cluster :=
  { state := cluster, calls := [] }

end CCE

namespace ACK

/-- A backend that answers every update by deleting the last node pool of the
cluster it stores, whatever list was submitted. -/
def trimmingClient : Client Backend Cluster where
  Update := fun _ _ s =>
    (Except.ok (reconciled (setNodePoolList s.stored s.stored.ACKConfig.NodePoolList.dropLast)),
      { s with stored :=
          reconciled (setNodePoolList s.stored s.stored.ACKConfig.NodePoolList.dropLast) })
  ByID := fun _ s => (Except.ok s.stored, s)
  WaitClusterToBeUpgraded := fun _ s => (none, s)

/-- A backend that accepts every update and answers every re-fetch with the
same cluster `frozen`. -/
def frozenClient (frozen : Cluster) : Client Backend Cluster where
  Update := fun _ updates s => (Except.ok updates, { s with stored := updates })
  ByID := fun _ s => (Except.ok frozen, s)
  WaitClusterToBeUpgraded := fun _ s => (none, s)

end ACK
end HostedProviders

/-! # Theorems -/

namespace HostedProviders

/-! ## Basic facts about `Run` -/

theorem Run.bind_apply {σ C α β : Type} (m : Run σ C α) (k : α → Run σ C β) (w : World σ C) :
    (m >>= k) w = match m w with
      | (Outcome.ok a, w1) => k a w1
      | (Outcome.failed f, w1) => (Outcome.failed f, w1) := rfl

theorem Run.pure_apply {σ C α : Type} (a : α) (w : World σ C) :
    (pure a : Run σ C α) w = (Outcome.ok a, w) := rfl

theorem Run.bind_ok {σ C α β : Type} {m : Run σ C α} {k : α → Run σ C β} {w w1 : World σ C}
    {a : α} (h : m w = (Outcome.ok a, w1)) : (m >>= k) w = k a w1 := by
  rw [Run.bind_apply, h]

theorem Run.bind_failed {σ C α β : Type} {m : Run σ C α} {k : α → Run σ C β}
    {w w1 : World σ C} {f : Failure} (h : m w = (Outcome.failed f, w1)) :
    (m >>= k) w = (Outcome.failed f, w1) := by
  rw [Run.bind_apply, h]

/-- A bind that returns: both parts returned. -/
theorem Run.bind_eq_ok {σ C α β : Type} {m : Run σ C α} {k : α → Run σ C β}
    {w w2 : World σ C} {b : β} (h : (m >>= k) w = (Outcome.ok b, w2)) :
    ∃ a w1, m w = (Outcome.ok a, w1) ∧ k a w1 = (Outcome.ok b, w2) := by
  rw [Run.bind_apply] at h
  rcases hm : m w with ⟨r, w1⟩
  cases r with
  | ok a => rw [hm] at h; exact ⟨a, w1, rfl, h⟩
  | failed f => rw [hm] at h; simp at h

/-! ## What a computation adds to the call list -/

theorem Appends.ret {σ C α : Type} (p : Call C → Prop) (a : α) :
    Appends p (pure a : Run σ C α) :=
  fun w => ⟨[], by simp [Run.pure_apply], by simp⟩

theorem Appends.fail {σ C α : Type} (p : Call C → Prop) (f : Failure) :
    Appends p (Run.fail f : Run σ C α) :=
  fun w => ⟨[], by simp [Run.fail], by simp⟩

theorem Appends.bind {σ C α β : Type} {p : Call C → Prop} {m : Run σ C α}
    {k : α → Run σ C β} (hm : Appends p m) (hk : ∀ a, Appends p (k a)) :
    Appends p (m >>= k) := by
  intro w
  obtain ⟨l1, h1, hp1⟩ := hm w
  rw [Run.bind_apply]
  rcases hmw : m w with ⟨r, w1⟩
  rw [hmw] at h1
  cases r with
  | failed f => exact ⟨l1, h1, hp1⟩
  | ok a =>
    obtain ⟨l2, h2, hp2⟩ := hk a w1
    refine ⟨l1 ++ l2, ?_, ?_⟩
    · show (k a w1).2.calls = w.calls ++ (l1 ++ l2)
      rw [h2]
      simp only [] at h1
      rw [h1, List.append_assoc]
    · intro c hc
      rcases List.mem_append.mp hc with h | h
      · exact hp1 c h
      · exact hp2 c h

theorem Appends.ite {σ C α : Type} {p : Call C → Prop} (b : Bool) {m1 m2 : Run σ C α}
    (h1 : Appends p m1) (h2 : Appends p m2) : Appends p (if b = true then m1 else m2) := by
  cases b
  · simpa using h2
  · simpa using h1

theorem Appends.ByID {σ C : Type} {p : Call C → Prop} (client : Client σ C) (id : String)
    (hp : p (Call.ByID id)) : Appends p (HostedProviders.ByID client id) := by
  intro w
  refine ⟨[Call.ByID id], ?_, by simpa using hp⟩
  unfold HostedProviders.ByID
  rcases client.ByID id w.state with ⟨r, s⟩
  cases r <;> rfl

theorem Appends.WaitClusterToBeUpgraded {σ C : Type} {p : Call C → Prop} (client : Client σ C)
    (id : String) (hp : p (Call.WaitClusterToBeUpgraded id)) :
    Appends p (HostedProviders.WaitClusterToBeUpgraded client id) := by
  intro w
  refine ⟨[Call.WaitClusterToBeUpgraded id], ?_, by simpa using hp⟩
  unfold HostedProviders.WaitClusterToBeUpgraded
  rcases client.WaitClusterToBeUpgraded id w.state with ⟨r, s⟩
  cases r <;> rfl

theorem Appends.ExpectEqual {σ C : Type} (p : Call C → Prop) (actual expected : String) :
    Appends p (ExpectEqual actual expected : Run σ C Unit) := by
  unfold HostedProviders.ExpectEqual
  split
  · exact Appends.ret p ()
  · exact Appends.fail p _

theorem Appends.ExpectNumerically {σ C : Type} (p : Call C → Prop) (actual expected : Int) :
    Appends p (ExpectNumerically actual expected : Run σ C Unit) := by
  unfold HostedProviders.ExpectNumerically
  split
  · exact Appends.ret p ()
  · exact Appends.fail p _

theorem Appends.ExpectNames {σ C P : Type} (p : Call C → Prop) (name : P → String)
    (updateNodeGroupsList : List P) (actual : List P) :
    ∀ i, Appends p (ExpectNames name updateNodeGroupsList i actual : Run σ C Unit) := by
  induction actual with
  | nil => intro i; exact Appends.ret p ()
  | cons ng rest ih =>
    intro i
    unfold HostedProviders.ExpectNames
    split
    · exact Appends.fail p _
    · exact Appends.bind (Appends.ExpectEqual p _ _) (fun _ => ih (i + 1))

theorem Appends.pollLoop {σ C β : Type} {p : Call C → Prop} {poll : C → Run σ C (C × β)}
    (should : β → Bool) (hpoll : ∀ c, Appends p (poll c)) :
    ∀ retries cluster, Appends p (pollLoop poll should retries cluster) := by
  intro retries
  induction retries with
  | zero =>
    intro cluster
    unfold HostedProviders.pollLoop
    exact Appends.bind (hpoll cluster)
      (fun r => Appends.ite (should r.2) (Appends.ret p _) (Appends.fail p _))
  | succ n ih =>
    intro cluster
    unfold HostedProviders.pollLoop
    exact Appends.bind (hpoll cluster)
      (fun r => Appends.ite (should r.2) (Appends.ret p _) (ih r.1))

theorem Appends.Eventually {σ C β : Type} {p : Call C → Prop} {poll : C → Run σ C (C × β)}
    (timeout interval : Nat) (should : β → Bool) (cluster : C)
    (hpoll : ∀ c, Appends p (poll c)) :
    Appends p (Eventually poll timeout interval should cluster) :=
  Appends.pollLoop should hpoll _ _

theorem submitted_append {C : Type} (l1 l2 : List (Call C)) :
    submitted (l1 ++ l2) = submitted l1 ++ submitted l2 := by
  induction l1 with
  | nil => rfl
  | cons c rest ih => cases c <;> simp [submitted, ih]

theorem refetched_append {C : Type} (l1 l2 : List (Call C)) :
    refetched (l1 ++ l2) = refetched l1 ++ refetched l2 := by
  induction l1 with
  | nil => rfl
  | cons c rest ih => cases c <;> simp [refetched, ih]

theorem submitted_of_notUpdate {C : Type} (l : List (Call C)) (h : ∀ c ∈ l, Call.notUpdate c) :
    submitted l = [] := by
  induction l with
  | nil => rfl
  | cons c rest ih =>
    have hc := h c (List.mem_cons_self _ _)
    have hr := ih (fun c hc => h c (List.mem_cons_of_mem _ hc))
    cases c <;> simp_all [submitted, Call.notUpdate]

theorem refetched_of_notByID {C : Type} (l : List (Call C)) (h : ∀ c ∈ l, Call.notByID c) :
    refetched l = [] := by
  induction l with
  | nil => rfl
  | cons c rest ih =>
    have hc := h c (List.mem_cons_self _ _)
    have hr := ih (fun c hc => h c (List.mem_cons_of_mem _ hc))
    cases c <;> simp_all [refetched, Call.notByID]

theorem Appends.Update {σ C : Type} {p : Call C → Prop} (client : Client σ C)
    (existing updates : C) (hp : p (Call.Update existing updates)) :
    Appends p (HostedProviders.Update client existing updates) := by
  intro w
  refine ⟨[Call.Update existing updates], ?_, by simpa using hp⟩
  unfold HostedProviders.Update
  rcases client.Update existing updates w.state with ⟨r, s⟩
  cases r <;> rfl

/-- A computation that appends no `ByID` call leaves the re-fetched ids alone. -/
theorem refetched_of_appends {σ C α : Type} {m : Run σ C α} (h : Appends Call.notByID m)
    (w : World σ C) : refetched (m w).2.calls = refetched w.calls := by
  obtain ⟨l, hl, hp⟩ := h w
  rw [hl, refetched_append, refetched_of_notByID l hp, List.append_nil]

/-- An `Update` that fails aborts the computation on the spot: the failure
carries the error, and the `Update` is the last call made. -/
theorem Update_bind_error {σ C α : Type} (client : Client σ C) (existing updates : C)
    (k : C → Run σ C α) (w : World σ C) (err : String) (s : σ)
    (h : client.Update existing updates w.state = (Except.error err, s)) :
    (HostedProviders.Update client existing updates >>= k) w
      = (Outcome.failed (Failure.errNotNil err),
          { state := s, calls := w.calls ++ [Call.Update existing updates] }) := by
  rw [Run.bind_apply]
  unfold HostedProviders.Update
  rw [h]

/-- An `Update` followed by a part that makes no `Update` submits exactly the
one cluster. -/
theorem submitted_Update_bind {σ C α : Type} (client : Client σ C) (existing updates : C)
    (k : C → Run σ C α) (hk : ∀ c, Appends Call.notUpdate (k c)) (w : World σ C) :
    submitted ((Update client existing updates >>= k) w).2.calls
      = submitted w.calls ++ [updates] := by
  rw [Run.bind_apply]
  unfold Update
  rcases client.Update existing updates w.state with ⟨r, s⟩
  cases r with
  | error e => simp [submitted_append, submitted]
  | ok c =>
    obtain ⟨l, hl, hp⟩ := hk c { state := s, calls := w.calls ++ [Call.Update existing updates] }
    simp only []
    rw [hl, submitted_append, submitted_append, submitted_of_notUpdate l hp]
    simp [submitted]

/-! ## When the primitives return -/

theorem Update_eq_ok {σ C : Type} {client : Client σ C} {existing updates cluster : C}
    {w w1 : World σ C} (h : Update client existing updates w = (Outcome.ok cluster, w1)) :
    ∃ s, client.Update existing updates w.state = (Except.ok cluster, s) ∧
      w1 = { state := s, calls := w.calls ++ [Call.Update existing updates] } := by
  unfold Update at h
  rcases hc : client.Update existing updates w.state with ⟨r, s⟩
  rw [hc] at h
  cases r with
  | error e => simp at h
  | ok c =>
    simp only [Prod.mk.injEq, Outcome.ok.injEq] at h
    exact ⟨s, by rw [h.1], h.2.symm⟩

theorem ByID_eq_ok {σ C : Type} {client : Client σ C} {id : String} {cluster : C}
    {w w1 : World σ C} (h : ByID client id w = (Outcome.ok cluster, w1)) :
    ∃ s, client.ByID id w.state = (Except.ok cluster, s) ∧
      w1 = { state := s, calls := w.calls ++ [Call.ByID id] } := by
  unfold ByID at h
  rcases hc : client.ByID id w.state with ⟨r, s⟩
  rw [hc] at h
  cases r with
  | error e => simp at h
  | ok c =>
    simp only [Prod.mk.injEq, Outcome.ok.injEq] at h
    exact ⟨s, by rw [h.1], h.2.symm⟩

theorem ExpectEqual_eq_ok {σ C : Type} {actual expected : String} {u : Unit}
    {w w1 : World σ C} (h : ExpectEqual actual expected w = (Outcome.ok u, w1)) :
    actual = expected ∧ w1 = w := by
  unfold ExpectEqual at h
  split at h
  · rename_i heq
    simp only [Run.ret, Prod.mk.injEq] at h
    exact ⟨heq, h.2.symm⟩
  · simp [Run.fail] at h

theorem ExpectNumerically_eq_ok {σ C : Type} {actual expected : Int} {u : Unit}
    {w w1 : World σ C} (h : ExpectNumerically actual expected w = (Outcome.ok u, w1)) :
    actual = expected ∧ w1 = w := by
  unfold ExpectNumerically at h
  split at h
  · rename_i heq
    simp only [Run.ret, Prod.mk.injEq] at h
    exact ⟨heq, h.2.symm⟩
  · simp [Run.fail] at h

/-- A name comparison that passes: every compared index was in range and the
names agree with those of the submitted list from index `i` on. -/
theorem ExpectNames_eq_ok {σ C P : Type} (name : P → String) (updateNodeGroupsList : List P) :
    ∀ (actual : List P) (i : Nat) (u : Unit) (w w1 : World σ C),
      ExpectNames name updateNodeGroupsList i actual w = (Outcome.ok u, w1) →
      w1 = w ∧ actual.length ≤ (updateNodeGroupsList.drop i).length ∧
        actual.map name = ((updateNodeGroupsList.drop i).take actual.length).map name := by
  intro actual
  induction actual with
  | nil =>
    intro i u w w1 h
    simp only [ExpectNames, Run.ret, Prod.mk.injEq] at h
    exact ⟨h.2.symm, by simp, by simp⟩
  | cons ng rest ih =>
    intro i u w w1 h
    unfold ExpectNames at h
    cases hget : updateNodeGroupsList[i]? with
    | none => simp [hget, Run.fail] at h
    | some v =>
      simp only [hget] at h
      obtain ⟨a, w2, h1, h2⟩ := Run.bind_eq_ok h
      obtain ⟨hname, hw⟩ := ExpectEqual_eq_ok h1
      obtain ⟨hw1, hlen, hmap⟩ := ih (i + 1) u w2 w1 h2
      have hdrop : updateNodeGroupsList.drop i = v :: updateNodeGroupsList.drop (i + 1) := by
        obtain ⟨hi, hv⟩ := List.getElem?_eq_some_iff.mp hget
        rw [← hv]
        exact List.drop_eq_getElem_cons hi
      refine ⟨by rw [hw1, hw], ?_, ?_⟩
      · rw [hdrop]
        simpa using hlen
      · rw [hdrop]
        simp [hname, hmap]

/-- A poll loop that returns: its last poll returned the cluster that is
handed back and a value the matcher accepts. -/
theorem pollLoop_eq_ok {σ C β : Type} (poll : C → Run σ C (C × β)) (should : β → Bool) :
    ∀ (retries : Nat) (cluster result : C) (w w1 : World σ C),
      pollLoop poll should retries cluster w = (Outcome.ok result, w1) →
      ∃ c0 w0 v, poll c0 w0 = (Outcome.ok (result, v), w1) ∧ should v = true := by
  intro retries
  induction retries with
  | zero =>
    intro cluster result w w1 h
    unfold pollLoop at h
    obtain ⟨r, w2, h1, h2⟩ := Run.bind_eq_ok h
    cases hs : should r.2 with
    | false => simp [hs, Run.fail] at h2
    | true =>
      simp only [hs, reduceIte, Run.pure_apply, Prod.mk.injEq, Outcome.ok.injEq] at h2
      refine ⟨cluster, w, r.2, ?_, hs⟩
      rw [h1, ← h2.1, ← h2.2]
  | succ n ih =>
    intro cluster result w w1 h
    unfold pollLoop at h
    obtain ⟨r, w2, h1, h2⟩ := Run.bind_eq_ok h
    cases hs : should r.2 with
    | false =>
      simp only [hs, Bool.false_eq_true, reduceIte] at h2
      exact ih r.1 result w2 w1 h2
    | true =>
      simp only [hs, reduceIte, Run.pure_apply, Prod.mk.injEq, Outcome.ok.injEq] at h2
      refine ⟨cluster, w, r.2, ?_, hs⟩
      rw [h1, ← h2.1, ← h2.2]

theorem WaitClusterToBeUpgraded_eq_ok {σ C : Type} {client : Client σ C} {id : String}
    {u : Unit} {w w1 : World σ C}
    (h : WaitClusterToBeUpgraded client id w = (Outcome.ok u, w1)) :
    refetched w1.calls = refetched w.calls := by
  unfold WaitClusterToBeUpgraded at h
  rcases hc : client.WaitClusterToBeUpgraded id w.state with ⟨r, s⟩
  rw [hc] at h
  cases r with
  | some e => simp at h
  | none =>
    simp only [Prod.mk.injEq] at h
    rw [← h.2, refetched_append]
    simp [refetched]

/-- A poll loop that returns has re-fetched at least once, when every poll
that returns has. -/
theorem pollLoop_refetched {σ C β : Type} (poll : C → Run σ C (C × β)) (should : β → Bool)
    (hpoll : ∀ c r (w w1 : World σ C), poll c w = (Outcome.ok r, w1) →
      ∃ ids, ids ≠ [] ∧ refetched w1.calls = refetched w.calls ++ ids) :
    ∀ (retries : Nat) (cluster result : C) (w w1 : World σ C),
      pollLoop poll should retries cluster w = (Outcome.ok result, w1) →
      ∃ ids, ids ≠ [] ∧ refetched w1.calls = refetched w.calls ++ ids := by
  intro retries
  induction retries with
  | zero =>
    intro cluster result w w1 h
    unfold pollLoop at h
    obtain ⟨r, w2, h1, h2⟩ := Run.bind_eq_ok h
    cases hs : should r.2 with
    | false => simp [hs, Run.fail] at h2
    | true =>
      simp only [hs, reduceIte, Run.pure_apply, Prod.mk.injEq, Outcome.ok.injEq] at h2
      rw [← h2.2]
      exact hpoll _ _ _ _ h1
  | succ n ih =>
    intro cluster result w w1 h
    unfold pollLoop at h
    obtain ⟨r, w2, h1, h2⟩ := Run.bind_eq_ok h
    obtain ⟨ids1, hne, hids1⟩ := hpoll _ _ _ _ h1
    cases hs : should r.2 with
    | false =>
      simp only [hs, Bool.false_eq_true, reduceIte] at h2
      obtain ⟨ids2, _, hids2⟩ := ih r.1 result w2 w1 h2
      refine ⟨ids1 ++ ids2, by simp [hne], ?_⟩
      rw [hids2, hids1, List.append_assoc]
    | true =>
      simp only [hs, reduceIte, Run.pure_apply, Prod.mk.injEq, Outcome.ok.injEq] at h2
      rw [← h2.2]
      exact ⟨ids1, hne, hids1⟩

namespace ACK

/-! ## The ACK helper: what is submitted -/

theorem appends_expectInstancesNum {σ : Type} (p : Call Cluster → Prop) (nodeCount : Int)
    (l : List NodePoolInfo) :
    Appends p (ScaleNodeGroup.expectInstancesNum nodeCount l : Run σ Cluster Unit) := by
  induction l with
  | nil => exact Appends.ret p ()
  | cons ng rest ih =>
    unfold ScaleNodeGroup.expectInstancesNum
    exact Appends.bind (Appends.ExpectNumerically p _ _) (fun _ => ih)

theorem appends_ScaleNodeGroup_poll {σ : Type} {p : Call Cluster → Prop} (env : Env σ)
    (nodeCount : Int) (hp : ∀ id, p (Call.ByID id)) (c : Cluster) :
    Appends p (ScaleNodeGroup.poll env nodeCount c) := by
  unfold ScaleNodeGroup.poll
  exact Appends.bind (Appends.ByID _ _ (hp _)) (fun _ => Appends.ret _ _)

theorem appends_pollNodePoolCount {σ : Type} {p : Call Cluster → Prop} (env : Env σ)
    (hp : ∀ id, p (Call.ByID id)) (c : Cluster) :
    Appends p (pollNodePoolCount env c) := by
  unfold pollNodePoolCount
  exact Appends.bind (Appends.ByID _ _ (hp _)) (fun _ => Appends.ret _ _)

theorem appends_UpgradeClusterKubernetesVersion_poll {σ : Type} {p : Call Cluster → Prop}
    (env : Env σ) (upgradeToVersion : String) (hp : ∀ id, p (Call.ByID id)) (c : Cluster) :
    Appends p (UpgradeClusterKubernetesVersion.poll env upgradeToVersion c) := by
  unfold UpgradeClusterKubernetesVersion.poll
  exact Appends.bind (Appends.ByID _ _ (hp _)) (fun _ => Appends.ret _ _)

/-- The part of `AddNodePool` and `DeleteNodePool` that follows the update
call appends only `WaitClusterToBeUpgraded` calls and, with
`checkClusterConfig = true`, `ByID` calls. -/
theorem appends_nodePoolChecks {σ : Type} (p : Call Cluster → Prop) (env : Env σ)
    (updateNodeGroupsList : List NodePoolInfo) (expected : Int) (wait checkClusterConfig : Bool)
    (cluster : Cluster) (hW : ∀ id, p (Call.WaitClusterToBeUpgraded id))
    (hB : checkClusterConfig = true → ∀ id, p (Call.ByID id)) :
    Appends p (do
      if checkClusterConfig then do
        ExpectNumerically cluster.ACKConfig.NodePoolList.length expected
        ExpectNames NodePoolInfo.Name updateNodeGroupsList 0 cluster.ACKConfig.NodePoolList
      if wait then
        WaitClusterToBeUpgraded env.client cluster.ID
      if checkClusterConfig then do
        let cluster ← Eventually (pollNodePoolCount env) (env.SetTimeout (15 * 60)) 10
          (fun n => decide (n = expected)) cluster
        ExpectNames NodePoolInfo.Name updateNodeGroupsList 0
          cluster.ACKStatus.UpstreamSpec.NodePoolList
        pure cluster
      else
        pure cluster : Run σ Cluster Cluster) := by
  cases checkClusterConfig <;> cases wait <;> simp only [Bool.false_eq_true, reduceIte] <;>
    repeat' first
      | exact Appends.ret _ _
      | exact Appends.WaitClusterToBeUpgraded _ _ (hW _)
      | exact Appends.ExpectNumerically _ _ _
      | exact Appends.ExpectNames _ _ _ _ _
      | exact Appends.Eventually _ _ _ _ (appends_pollNodePoolCount env (hB rfl))
      | apply Appends.bind
      | intro _

/-- The part of `ScaleNodeGroup` that follows the update call appends only
`WaitClusterToBeUpgraded` calls and, with `checkClusterConfig = true`, `ByID`
calls. -/
theorem appends_scaleChecks {σ : Type} (p : Call Cluster → Prop) (env : Env σ)
    (nodeCount : Int) (wait checkClusterConfig : Bool) (cluster : Cluster)
    (hW : ∀ id, p (Call.WaitClusterToBeUpgraded id))
    (hB : checkClusterConfig = true → ∀ id, p (Call.ByID id)) :
    Appends p (do
      if checkClusterConfig then
        ScaleNodeGroup.expectInstancesNum nodeCount cluster.ACKConfig.NodePoolList
      if wait then
        WaitClusterToBeUpgraded env.client cluster.ID
      if checkClusterConfig then
        Eventually (ScaleNodeGroup.poll env nodeCount) (env.SetTimeout (15 * 60)) 10
          (fun b => b) cluster
      else
        pure cluster : Run σ Cluster Cluster) := by
  cases checkClusterConfig <;> cases wait <;> simp only [Bool.false_eq_true, reduceIte] <;>
    repeat' first
      | exact Appends.ret _ _
      | exact Appends.WaitClusterToBeUpgraded _ _ (hW _)
      | exact appends_expectInstancesNum _ _ _
      | exact Appends.Eventually _ _ _ _ (appends_ScaleNodeGroup_poll env _ (hB rfl))
      | apply Appends.bind
      | intro _

/-- The loop of `AddNodePool` appends one copy of the template per generated
name and leaves the call list alone. -/
theorem AddNodePool_loop_eq {σ : Type} (env : Env σ) (ngTemplate : NodePoolInfo) :
    ∀ (rounds : Nat) (l : List NodePoolInfo) (w : World σ Cluster),
      AddNodePool.loop env ngTemplate rounds l w =
        (Outcome.ok (l ++ (generatedNames env.AppendRandomString "ng" rounds w.state).map
            (AddNodePool.newNodeGroup ngTemplate)),
          { w with state := stateAfterNames env.AppendRandomString "ng" rounds w.state }) := by
  intro rounds
  induction rounds with
  | zero =>
    intro l w
    simp [AddNodePool.loop, generatedNames, stateAfterNames, Run.pure_apply]
  | succ n ih =>
    intro l w
    unfold AddNodePool.loop
    rw [Run.bind_apply]
    simp only [AppendRandomString]
    rw [ih]
    simp [generatedNames, stateAfterNames]

/-- With a non-empty template list, `AddNodePool` is the update call on the
extended list followed by the checks. -/
theorem AddNodePool_eq {σ : Type} (env : Env σ) (cluster : Cluster) (increaseBy : Int)
    (wait checkClusterConfig : Bool) (w : World σ Cluster) (ngTemplate : NodePoolInfo)
    (others : List NodePoolInfo)
    (hT : (env.LoadConfig w.state).NodePoolList = ngTemplate :: others) :
    AddNodePool env cluster increaseBy wait checkClusterConfig w =
      (do
        let updateNodeGroupsList := cluster.ACKConfig.NodePoolList ++
          (generatedNames env.AppendRandomString "ng" increaseBy.toNat w.state).map
            (AddNodePool.newNodeGroup ngTemplate)
        let currentNodeGroupNumber : Int := cluster.ACKConfig.NodePoolList.length
        let upgradedCluster := setNodePoolList cluster updateNodeGroupsList
        let cluster ← Update env.client upgradedCluster upgradedCluster
        if checkClusterConfig then do
          ExpectNumerically cluster.ACKConfig.NodePoolList.length (currentNodeGroupNumber + increaseBy)
          ExpectNames NodePoolInfo.Name updateNodeGroupsList 0 cluster.ACKConfig.NodePoolList
        if wait then
          WaitClusterToBeUpgraded env.client cluster.ID
        if checkClusterConfig then do
          let cluster ← Eventually (pollNodePoolCount env) (env.SetTimeout (15 * 60)) 10
            (fun n => decide (n = currentNodeGroupNumber + increaseBy)) cluster
          ExpectNames NodePoolInfo.Name updateNodeGroupsList 0
            cluster.ACKStatus.UpstreamSpec.NodePoolList
          pure cluster
        else
          pure cluster : Run σ Cluster Cluster)
        { w with state := stateAfterNames env.AppendRandomString "ng" increaseBy.toNat w.state } := by
  unfold AddNodePool
  rw [Run.bind_apply]
  simp only [LoadConfig, hT]
  rw [Run.bind_apply, AddNodePool_loop_eq]

/-- With a non-empty node-pool list, `DeleteNodePool` is the update call on
the one-entry list followed by the checks. -/
theorem DeleteNodePool_eq {σ : Type} (env : Env σ) (cluster : Cluster)
    (wait checkClusterConfig : Bool) (first : NodePoolInfo) (rest : List NodePoolInfo)
    (hL : cluster.ACKConfig.NodePoolList = first :: rest) :
    DeleteNodePool env cluster wait checkClusterConfig =
      (do
        let currentNodeGroupNumber : Int := cluster.ACKConfig.NodePoolList.length
        let upgradedCluster := setNodePoolList cluster [first]
        let cluster ← Update env.client upgradedCluster upgradedCluster
        if checkClusterConfig then do
          ExpectNumerically cluster.ACKConfig.NodePoolList.length (currentNodeGroupNumber - 1)
          ExpectNames NodePoolInfo.Name [first] 0 cluster.ACKConfig.NodePoolList
        if wait then
          WaitClusterToBeUpgraded env.client cluster.ID
        if checkClusterConfig then do
          let cluster ← Eventually (pollNodePoolCount env) (env.SetTimeout (15 * 60)) 10
            (fun n => decide (n = currentNodeGroupNumber - 1)) cluster
          ExpectNames NodePoolInfo.Name [first] 0 cluster.ACKStatus.UpstreamSpec.NodePoolList
          pure cluster
        else
          pure cluster : Run σ Cluster Cluster) := by
  unfold DeleteNodePool
  simp only [hL, List.take_succ_cons, List.take_zero]

theorem setInstancesNum_eq_map (nodeCount : Int) (l : List NodePoolInfo) :
    ScaleNodeGroup.setInstancesNum nodeCount l
      = l.map (fun ng => { ng with InstancesNum := nodeCount }) := by
  induction l with
  | nil => rfl
  | cons ng rest ih => simp [ScaleNodeGroup.setInstancesNum, ih]

/-- The helper `ScaleNodeGroup` makes one update call, on the cluster with every count set. -/
theorem ScaleNodeGroup_submitted {σ : Type} (env : Env σ) (cluster : Cluster) (nodeCount : Int)
    (wait checkClusterConfig : Bool) (w : World σ Cluster) :
    submitted (ScaleNodeGroup env cluster nodeCount wait checkClusterConfig w).2.calls
      = submitted w.calls ++ [ScaleNodeGroup.upgradedCluster cluster nodeCount] :=
  submitted_Update_bind _ _ _ _
    (fun c => appends_scaleChecks Call.notUpdate env nodeCount wait checkClusterConfig c
      (fun _ => trivial) (fun _ _ => trivial)) w

theorem pollNodePoolCount_eq_ok {σ : Type} {env : Env σ} {c0 result : Cluster} {v : Int}
    {w0 w1 : World σ Cluster}
    (h : pollNodePoolCount env c0 w0 = (Outcome.ok (result, v), w1)) :
    v = (result.ACKStatus.UpstreamSpec.NodePoolList.length : Int) ∧
      refetched w1.calls = refetched w0.calls ++ [c0.ID] := by
  unfold pollNodePoolCount at h
  obtain ⟨c, w2, h1, h2⟩ := Run.bind_eq_ok h
  obtain ⟨s, _, hw⟩ := ByID_eq_ok h1
  simp only [Run.pure_apply, Prod.mk.injEq, Outcome.ok.injEq] at h2
  obtain ⟨⟨hc, hv⟩, hw2⟩ := h2
  subst hc hv hw2
  refine ⟨rfl, ?_⟩
  rw [hw, refetched_append]
  rfl

/-- A poll of the node-pool count that returns has re-fetched once. -/
theorem pollNodePoolCount_refetched {σ : Type} (env : Env σ) (c : Cluster) (r : Cluster × Int)
    (w w1 : World σ Cluster) (h : pollNodePoolCount env c w = (Outcome.ok r, w1)) :
    ∃ ids, ids ≠ [] ∧ refetched w1.calls = refetched w.calls ++ ids :=
  ⟨[c.ID], by simp, (pollNodePoolCount_eq_ok (show pollNodePoolCount env c w = (Outcome.ok (r.1, r.2), w1) from h)).2⟩

/-- The checks of `AddNodePool` and `DeleteNodePool` with
`checkClusterConfig = true`, when they return: both counts equal the expected
count, every compared index was in range, the names agree with the leading
names of the submitted list, and the cluster was re-fetched. -/
theorem nodePoolChecks_eq_ok {σ : Type} (env : Env σ) (updateNodeGroupsList : List NodePoolInfo)
    (expected : Int) (wait : Bool) (cluster result : Cluster) (w w1 : World σ Cluster)
    (h : (do
      if true then do
        ExpectNumerically cluster.ACKConfig.NodePoolList.length expected
        ExpectNames NodePoolInfo.Name updateNodeGroupsList 0 cluster.ACKConfig.NodePoolList
      if wait then
        WaitClusterToBeUpgraded env.client cluster.ID
      if true then do
        let cluster ← Eventually (pollNodePoolCount env) (env.SetTimeout (15 * 60)) 10
          (fun n => decide (n = expected)) cluster
        ExpectNames NodePoolInfo.Name updateNodeGroupsList 0
          cluster.ACKStatus.UpstreamSpec.NodePoolList
        pure cluster
      else
        pure cluster : Run σ Cluster Cluster) w = (Outcome.ok result, w1)) :
    (cluster.ACKConfig.NodePoolList.length : Int) = expected ∧
    cluster.ACKConfig.NodePoolList.length ≤ updateNodeGroupsList.length ∧
    cluster.ACKConfig.NodePoolList.map NodePoolInfo.Name
      = (updateNodeGroupsList.take cluster.ACKConfig.NodePoolList.length).map NodePoolInfo.Name ∧
    (result.ACKStatus.UpstreamSpec.NodePoolList.length : Int) = expected ∧
    result.ACKStatus.UpstreamSpec.NodePoolList.length ≤ updateNodeGroupsList.length ∧
    result.ACKStatus.UpstreamSpec.NodePoolList.map NodePoolInfo.Name
      = (updateNodeGroupsList.take result.ACKStatus.UpstreamSpec.NodePoolList.length).map
          NodePoolInfo.Name ∧
    ∃ ids, ids ≠ [] ∧ refetched w1.calls = refetched w.calls ++ ids := by
  simp only [reduceIte] at h
  obtain ⟨u1, w2, h1, ha⟩ := Run.bind_eq_ok h
  obtain ⟨hcount, hw2⟩ := ExpectNumerically_eq_ok h1
  obtain ⟨u2, w3, h2, hb⟩ := Run.bind_eq_ok ha
  obtain ⟨hw3, hlen, hnames⟩ := ExpectNames_eq_ok _ _ _ _ _ _ _ h2
  have key : ∀ w4 : World σ Cluster,
      (do
        let cluster ← Eventually (pollNodePoolCount env) (env.SetTimeout (15 * 60)) 10
          (fun n => decide (n = expected)) cluster
        ExpectNames NodePoolInfo.Name updateNodeGroupsList 0
          cluster.ACKStatus.UpstreamSpec.NodePoolList
        pure cluster : Run σ Cluster Cluster) w4 = (Outcome.ok result, w1) →
      (result.ACKStatus.UpstreamSpec.NodePoolList.length : Int) = expected ∧
      result.ACKStatus.UpstreamSpec.NodePoolList.length ≤ updateNodeGroupsList.length ∧
      result.ACKStatus.UpstreamSpec.NodePoolList.map NodePoolInfo.Name
        = (updateNodeGroupsList.take result.ACKStatus.UpstreamSpec.NodePoolList.length).map
            NodePoolInfo.Name ∧
      ∃ ids, ids ≠ [] ∧ refetched w1.calls = refetched w4.calls ++ ids := by
    intro w4 h4
    obtain ⟨c, w5, h5, h4a⟩ := Run.bind_eq_ok h4
    obtain ⟨u3, w6, h6, h4b⟩ := Run.bind_eq_ok h4a
    simp only [Run.pure_apply, Prod.mk.injEq, Outcome.ok.injEq] at h4b
    obtain ⟨hc, hw61⟩ := h4b
    subst hc
    obtain ⟨c0, w0, v, hpoll, hv⟩ := pollLoop_eq_ok _ _ _ _ _ _ _ h5
    obtain ⟨hveq, _⟩ := pollNodePoolCount_eq_ok hpoll
    subst hveq
    obtain ⟨hw65, hlen2, hnames2⟩ := ExpectNames_eq_ok _ _ _ _ _ _ _ h6
    have hre := pollLoop_refetched _ _ (pollNodePoolCount_refetched env) _ _ _ _ _ h5
    rw [← hw61, hw65]
    exact ⟨by simpa using hv, by simpa using hlen2, by simpa using hnames2, hre⟩
  refine ⟨hcount, by simpa using hlen, by simpa using hnames, ?_⟩
  cases wait with
  | false =>
    simp only [Bool.false_eq_true, reduceIte] at hb
    obtain ⟨u3, w4, h3, hc⟩ := Run.bind_eq_ok hb
    simp only [Run.pure_apply, Prod.mk.injEq] at h3
    have := key w4 hc
    rw [← h3.2, hw3, hw2] at this
    exact this
  | true =>
    simp only [reduceIte] at hb
    obtain ⟨u3, w4, h3, hc⟩ := Run.bind_eq_ok hb
    have hwait := WaitClusterToBeUpgraded_eq_ok h3
    have := key w4 hc
    rw [hwait, hw3, hw2] at this
    exact this

theorem expectInstancesNum_eq_ok {σ : Type} (nodeCount : Int) :
    ∀ (l : List NodePoolInfo) (u : Unit) (w w1 : World σ Cluster),
      ScaleNodeGroup.expectInstancesNum nodeCount l w = (Outcome.ok u, w1) →
      w1 = w ∧ ∀ ng ∈ l, ng.InstancesNum = nodeCount := by
  intro l
  induction l with
  | nil =>
    intro u w w1 h
    simp only [ScaleNodeGroup.expectInstancesNum, Run.ret, Prod.mk.injEq] at h
    exact ⟨h.2.symm, by simp⟩
  | cons ng rest ih =>
    intro u w w1 h
    unfold ScaleNodeGroup.expectInstancesNum at h
    obtain ⟨a, w2, h1, h2⟩ := Run.bind_eq_ok h
    obtain ⟨hcount, hw2⟩ := ExpectNumerically_eq_ok h1
    obtain ⟨hw1, hrest⟩ := ih u w2 w1 h2
    refine ⟨by rw [hw1, hw2], ?_⟩
    intro x hx
    rcases List.mem_cons.mp hx with rfl | hx
    · exact hcount
    · exact hrest x hx

/-- The loop of the polled function of `ScaleNodeGroup` answers true exactly
when every pool has the count. -/
theorem converged_iff (nodeCount : Int) (l : List NodePoolInfo) :
    ScaleNodeGroup.converged nodeCount l = true ↔ ∀ ng ∈ l, ng.InstancesNum = nodeCount := by
  induction l with
  | nil => simp [ScaleNodeGroup.converged]
  | cons ng rest ih =>
    unfold ScaleNodeGroup.converged
    by_cases hc : ng.InstancesNum = nodeCount
    · simp [hc, ih]
    · simp [hc]

theorem ScaleNodeGroup_poll_eq_ok {σ : Type} {env : Env σ} {nodeCount : Int}
    {c0 result : Cluster} {v : Bool} {w0 w1 : World σ Cluster}
    (h : ScaleNodeGroup.poll env nodeCount c0 w0 = (Outcome.ok (result, v), w1)) :
    v = ScaleNodeGroup.converged nodeCount result.ACKStatus.UpstreamSpec.NodePoolList ∧
      refetched w1.calls = refetched w0.calls ++ [c0.ID] := by
  unfold ScaleNodeGroup.poll at h
  obtain ⟨c, w2, h1, h2⟩ := Run.bind_eq_ok h
  obtain ⟨s, _, hw⟩ := ByID_eq_ok h1
  simp only [Run.pure_apply, Prod.mk.injEq, Outcome.ok.injEq] at h2
  obtain ⟨⟨hc, hv⟩, hw2⟩ := h2
  subst hc hv hw2
  refine ⟨rfl, ?_⟩
  rw [hw, refetched_append]
  rfl

theorem UpgradeClusterKubernetesVersion_poll_eq_ok {σ : Type} {env : Env σ}
    {upgradeToVersion : String} {c0 result : Cluster} {v : Bool} {w0 w1 : World σ Cluster}
    (h : UpgradeClusterKubernetesVersion.poll env upgradeToVersion c0 w0
      = (Outcome.ok (result, v), w1)) :
    v = (decide (result.ACKStatus.UpstreamSpec.KubernetesVersion = upgradeToVersion)
      && decide (result.ACKConfig.KubernetesVersion = upgradeToVersion)) := by
  unfold UpgradeClusterKubernetesVersion.poll at h
  obtain ⟨c, w2, h1, h2⟩ := Run.bind_eq_ok h
  simp only [Run.pure_apply, Prod.mk.injEq, Outcome.ok.injEq] at h2
  obtain ⟨⟨hc, hv⟩, hw2⟩ := h2
  subst hc hv hw2
  rfl

theorem generatedNames_length {σ : Type} (gen : String → σ → String × σ) (base : String) :
    ∀ (k : Nat) (s : σ), (generatedNames gen base k s).length = k := by
  intro k
  induction k with
  | zero => intro s; rfl
  | succ n ih => intro s; simp [generatedNames, ih]

/-- With a non-empty template list, `AddNodePool` makes exactly one update
call, on the cluster with the extended list. -/
theorem AddNodePool_submitted {σ : Type} (env : Env σ) (cluster : Cluster) (increaseBy : Int)
    (wait checkClusterConfig : Bool) (w : World σ Cluster) (ngTemplate : NodePoolInfo)
    (others : List NodePoolInfo)
    (hT : (env.LoadConfig w.state).NodePoolList = ngTemplate :: others) :
    submitted (AddNodePool env cluster increaseBy wait checkClusterConfig w).2.calls
      = submitted w.calls ++ [setNodePoolList cluster (cluster.ACKConfig.NodePoolList ++
          (generatedNames env.AppendRandomString "ng" increaseBy.toNat w.state).map
            (AddNodePool.newNodeGroup ngTemplate))] := by
  rw [AddNodePool_eq env cluster increaseBy wait checkClusterConfig w ngTemplate others hT]
  exact submitted_Update_bind _ _ _ _
    (fun c => appends_nodePoolChecks Call.notUpdate env _ _ _ _ c (fun _ => trivial)
      (fun _ _ => trivial)) _

theorem refetched_after_Update {σ : Type} {client : Client σ Cluster}
    {existing updates cluster : Cluster} {w w1 : World σ Cluster}
    (h : Update client existing updates w = (Outcome.ok cluster, w1)) :
    refetched w1.calls = refetched w.calls := by
  obtain ⟨s, _, hw⟩ := Update_eq_ok h
  rw [hw, refetched_append]
  simp [refetched]

theorem ScaleNodeGroup_poll_refetched {σ : Type} (env : Env σ) (nodeCount : Int) (c : Cluster)
    (r : Cluster × Bool) (w w1 : World σ Cluster)
    (h : ScaleNodeGroup.poll env nodeCount c w = (Outcome.ok r, w1)) :
    ∃ ids, ids ≠ [] ∧ refetched w1.calls = refetched w.calls ++ ids :=
  ⟨[c.ID], by simp, (ScaleNodeGroup_poll_eq_ok
    (show ScaleNodeGroup.poll env nodeCount c w = (Outcome.ok (r.1, r.2), w1) from h)).2⟩

/-- The helper `ScaleNodeGroup` with `checkClusterConfig = true`, when it returns: the
update call succeeded, every desired pool of its response and every upstream
pool of the returned cluster has the count, and the cluster was re-fetched. -/
theorem ScaleNodeGroup_eq_ok {σ : Type} (env : Env σ) (cluster : Cluster)
    (nodeCount : Int) (wait : Bool) (w w1 : World σ Cluster) (result : Cluster)
    (h : ScaleNodeGroup env cluster nodeCount wait true w = (Outcome.ok result, w1)) :
    ∃ (response : Cluster) (s : σ),
      env.client.Update (ScaleNodeGroup.upgradedCluster cluster nodeCount)
        (ScaleNodeGroup.upgradedCluster cluster nodeCount) w.state = (Except.ok response, s) ∧
      (∀ ng ∈ response.ACKConfig.NodePoolList, ng.InstancesNum = nodeCount) ∧
      (∀ ng ∈ result.ACKStatus.UpstreamSpec.NodePoolList, ng.InstancesNum = nodeCount) ∧
      ∃ ids, ids ≠ [] ∧ refetched w1.calls = refetched w.calls ++ ids := by
  unfold ScaleNodeGroup at h
  obtain ⟨response, w2, hU, hk⟩ := Run.bind_eq_ok h
  obtain ⟨s, hUs, hw2⟩ := Update_eq_ok hU
  have hre2 := refetched_after_Update hU
  simp only [reduceIte] at hk
  obtain ⟨u1, w3, h1, hk1⟩ := Run.bind_eq_ok hk
  obtain ⟨hw3, hdesired⟩ := expectInstancesNum_eq_ok _ _ _ _ _ h1
  refine ⟨response, s, hUs, hdesired, ?_⟩
  have key : ∀ w4 : World σ Cluster,
      Eventually (ScaleNodeGroup.poll env nodeCount) (env.SetTimeout (15 * 60)) 10 (fun b => b)
        response w4 = (Outcome.ok result, w1) →
      (∀ ng ∈ result.ACKStatus.UpstreamSpec.NodePoolList, ng.InstancesNum = nodeCount) ∧
      ∃ ids, ids ≠ [] ∧ refetched w1.calls = refetched w4.calls ++ ids := by
    intro w4 h4
    obtain ⟨c0, w0, v, hpoll, hv⟩ := pollLoop_eq_ok _ _ _ _ _ _ _ h4
    obtain ⟨hveq, _⟩ := ScaleNodeGroup_poll_eq_ok hpoll
    subst hveq
    exact ⟨(converged_iff _ _).mp hv,
      pollLoop_refetched _ _ (ScaleNodeGroup_poll_refetched env nodeCount) _ _ _ _ _ h4⟩
  cases wait with
  | false =>
    simp only [Bool.false_eq_true, reduceIte] at hk1
    obtain ⟨u3, w4, h3, hc⟩ := Run.bind_eq_ok hk1
    simp only [Run.pure_apply, Prod.mk.injEq] at h3
    have := key w4 hc
    rw [← h3.2, hw3, hre2] at this
    exact this
  | true =>
    simp only [reduceIte] at hk1
    obtain ⟨u3, w4, h3, hc⟩ := Run.bind_eq_ok hk1
    have hwait := WaitClusterToBeUpgraded_eq_ok h3
    have := key w4 hc
    rw [hwait, hw3, hre2] at this
    exact this

/-- The helper `AddNodePool` with `checkClusterConfig = true`, when it returns: the
template list was not empty, the update call on the extended list succeeded,
both counts are `n + increaseBy`, the names are the leading names of the
submitted list, and the cluster was re-fetched. -/
theorem AddNodePool_eq_ok {σ : Type} (env : Env σ) (cluster : Cluster)
    (increaseBy : Int) (wait : Bool) (w w1 : World σ Cluster) (result : Cluster)
    (h : AddNodePool env cluster increaseBy wait true w = (Outcome.ok result, w1)) :
    ∃ (ngTemplate : NodePoolInfo) (others updateNodeGroupsList : List NodePoolInfo)
      (response : Cluster) (s : σ),
      (env.LoadConfig w.state).NodePoolList = ngTemplate :: others ∧
      updateNodeGroupsList = cluster.ACKConfig.NodePoolList ++
        (generatedNames env.AppendRandomString "ng" increaseBy.toNat w.state).map
          (AddNodePool.newNodeGroup ngTemplate) ∧
      env.client.Update (setNodePoolList cluster updateNodeGroupsList)
        (setNodePoolList cluster updateNodeGroupsList)
        (stateAfterNames env.AppendRandomString "ng" increaseBy.toNat w.state)
        = (Except.ok response, s) ∧
      (response.ACKConfig.NodePoolList.length : Int)
        = cluster.ACKConfig.NodePoolList.length + increaseBy ∧
      response.ACKConfig.NodePoolList.length ≤ updateNodeGroupsList.length ∧
      response.ACKConfig.NodePoolList.map NodePoolInfo.Name
        = (updateNodeGroupsList.take response.ACKConfig.NodePoolList.length).map
            NodePoolInfo.Name ∧
      (result.ACKStatus.UpstreamSpec.NodePoolList.length : Int)
        = cluster.ACKConfig.NodePoolList.length + increaseBy ∧
      result.ACKStatus.UpstreamSpec.NodePoolList.length ≤ updateNodeGroupsList.length ∧
      result.ACKStatus.UpstreamSpec.NodePoolList.map NodePoolInfo.Name
        = (updateNodeGroupsList.take result.ACKStatus.UpstreamSpec.NodePoolList.length).map
            NodePoolInfo.Name ∧
      ∃ ids, ids ≠ [] ∧ refetched w1.calls = refetched w.calls ++ ids := by
  cases hT : (env.LoadConfig w.state).NodePoolList with
  | nil =>
    unfold AddNodePool at h
    rw [Run.bind_apply] at h
    simp [LoadConfig, hT, Run.fail] at h
  | cons ngTemplate others =>
    rw [AddNodePool_eq env cluster increaseBy wait true w ngTemplate others hT] at h
    obtain ⟨response, w2, hU, hk⟩ := Run.bind_eq_ok h
    obtain ⟨s, hUs, hw2⟩ := Update_eq_ok hU
    have hre2 := refetched_after_Update hU
    obtain ⟨hc, hl, hn, hc2, hl2, hn2, hre⟩ :=
      nodePoolChecks_eq_ok env _ _ wait response result w2 w1 hk
    rw [hre2] at hre
    exact ⟨ngTemplate, others, _, response, s, rfl, rfl, hUs, hc, hl, hn, hc2, hl2, hn2, hre⟩

/-- The helper `DeleteNodePool` with `checkClusterConfig = true`, when it returns: the
update call on the one-entry list succeeded, both counts are `n - 1`, the
names are the leading names of the submitted list, and the cluster was
re-fetched. -/
theorem DeleteNodePool_eq_ok {σ : Type} (env : Env σ) (cluster : Cluster)
    (wait : Bool) (w w1 : World σ Cluster) (result : Cluster)
    (h : DeleteNodePool env cluster wait true w = (Outcome.ok result, w1)) :
    ∃ (first : NodePoolInfo) (rest : List NodePoolInfo) (response : Cluster) (s : σ),
      cluster.ACKConfig.NodePoolList = first :: rest ∧
      env.client.Update (setNodePoolList cluster [first]) (setNodePoolList cluster [first]) w.state
        = (Except.ok response, s) ∧
      (response.ACKConfig.NodePoolList.length : Int) = cluster.ACKConfig.NodePoolList.length - 1 ∧
      response.ACKConfig.NodePoolList.length ≤ 1 ∧
      response.ACKConfig.NodePoolList.map NodePoolInfo.Name
        = ([first].take response.ACKConfig.NodePoolList.length).map NodePoolInfo.Name ∧
      (result.ACKStatus.UpstreamSpec.NodePoolList.length : Int)
        = cluster.ACKConfig.NodePoolList.length - 1 ∧
      result.ACKStatus.UpstreamSpec.NodePoolList.length ≤ 1 ∧
      result.ACKStatus.UpstreamSpec.NodePoolList.map NodePoolInfo.Name
        = ([first].take result.ACKStatus.UpstreamSpec.NodePoolList.length).map
            NodePoolInfo.Name ∧
      ∃ ids, ids ≠ [] ∧ refetched w1.calls = refetched w.calls ++ ids := by
  cases hL : cluster.ACKConfig.NodePoolList with
  | nil =>
    unfold DeleteNodePool at h
    simp [hL, Run.fail] at h
  | cons first rest =>
    rw [DeleteNodePool_eq env cluster wait true first rest hL] at h
    obtain ⟨response, w2, hU, hk⟩ := Run.bind_eq_ok h
    obtain ⟨s, hUs, hw2⟩ := Update_eq_ok hU
    have hre2 := refetched_after_Update hU
    obtain ⟨hc, hl, hn, hc2, hl2, hn2, hre⟩ :=
      nodePoolChecks_eq_ok env _ _ wait response result w2 w1 hk
    rw [hre2] at hre
    rw [hL] at hc hc2
    exact ⟨first, rest, response, s, rfl, hUs, hc, hl, hn, hc2, hl2, hn2, hre⟩

/-- With a non-empty node-pool list, `DeleteNodePool` makes exactly one update
call, on the cluster with the one-entry list. -/
theorem DeleteNodePool_submitted {σ : Type} (env : Env σ) (cluster : Cluster)
    (wait checkClusterConfig : Bool) (w : World σ Cluster) (first : NodePoolInfo)
    (rest : List NodePoolInfo) (hL : cluster.ACKConfig.NodePoolList = first :: rest) :
    submitted (DeleteNodePool env cluster wait checkClusterConfig w).2.calls
      = submitted w.calls ++ [setNodePoolList cluster [first]] := by
  rw [DeleteNodePool_eq env cluster wait checkClusterConfig first rest hL]
  exact submitted_Update_bind _ _ _ _
    (fun c => appends_nodePoolChecks Call.notUpdate env _ _ _ _ c (fun _ => trivial)
      (fun _ _ => trivial)) _

/-- Without `checkClusterConfig`, `ScaleNodeGroup` never re-fetches. -/
theorem ScaleNodeGroup_unchecked_refetched {σ : Type} (env : Env σ) (cluster : Cluster)
    (nodeCount : Int) (wait : Bool) (w : World σ Cluster) :
    refetched (ScaleNodeGroup env cluster nodeCount wait false w).2.calls = refetched w.calls :=
  refetched_of_appends
    (Appends.bind (Appends.Update _ _ _ trivial)
      (fun c => appends_scaleChecks Call.notByID env nodeCount wait false c
        (fun _ => trivial) (fun h => by simp at h))) w

/-- Without `checkClusterConfig`, `AddNodePool` never re-fetches. -/
theorem AddNodePool_unchecked_refetched {σ : Type} (env : Env σ) (cluster : Cluster)
    (increaseBy : Int) (wait : Bool) (w : World σ Cluster) :
    refetched (AddNodePool env cluster increaseBy wait false w).2.calls = refetched w.calls := by
  cases hT : (env.LoadConfig w.state).NodePoolList with
  | nil =>
    unfold AddNodePool
    rw [Run.bind_apply]
    simp [LoadConfig, hT, Run.fail]
  | cons ngTemplate others =>
    rw [AddNodePool_eq env cluster increaseBy wait false w ngTemplate others hT]
    exact refetched_of_appends
      (Appends.bind (Appends.Update _ _ _ trivial)
        (fun c => appends_nodePoolChecks Call.notByID env _ _ wait false c
          (fun _ => trivial) (fun h => by simp at h)))
      { w with state := stateAfterNames env.AppendRandomString "ng" increaseBy.toNat w.state }

/-- Without `checkClusterConfig`, `DeleteNodePool` never re-fetches. -/
theorem DeleteNodePool_unchecked_refetched {σ : Type} (env : Env σ) (cluster : Cluster)
    (wait : Bool) (w : World σ Cluster) :
    refetched (DeleteNodePool env cluster wait false w).2.calls = refetched w.calls := by
  cases hL : cluster.ACKConfig.NodePoolList with
  | nil =>
    unfold DeleteNodePool
    simp [hL, Run.fail]
  | cons first rest =>
    rw [DeleteNodePool_eq env cluster wait false first rest hL]
    exact refetched_of_appends
      (Appends.bind (Appends.Update _ _ _ trivial)
        (fun c => appends_nodePoolChecks Call.notByID env _ _ wait false c
          (fun _ => trivial) (fun h => by simp at h))) w

/-- Setting every count twice is setting it to the second value. -/
theorem setInstancesNum_twice (n m : Int) (l : List NodePoolInfo) :
    ScaleNodeGroup.setInstancesNum m (ScaleNodeGroup.setInstancesNum n l)
      = ScaleNodeGroup.setInstancesNum m l := by
  induction l with
  | nil => rfl
  | cons ng rest ih => simp [ScaleNodeGroup.setInstancesNum, ih]

/-- Setting every count to `m` changes nothing exactly when every count is `m`. -/
theorem setInstancesNum_eq_self_iff (m : Int) (l : List NodePoolInfo) :
    ScaleNodeGroup.setInstancesNum m l = l ↔ ∀ ng ∈ l, ng.InstancesNum = m := by
  induction l with
  | nil => simp [ScaleNodeGroup.setInstancesNum]
  | cons ng rest ih =>
    simp only [ScaleNodeGroup.setInstancesNum, List.cons.injEq, ih, List.mem_cons,
      forall_eq_or_imp]
    constructor
    · rintro ⟨h1, h2⟩
      refine ⟨?_, h2⟩
      rw [← h1]
    · rintro ⟨h1, h2⟩
      refine ⟨?_, h2⟩
      cases ng
      simp_all

/-! ## Claims -/

/-- C1: with a non-empty configured template list and `increaseBy = K ≥ 0`,
`AddNodePool` makes exactly one update call, and the node-pool list of the
cluster it submits has `n + K` entries: the `n` pools of the cluster, unchanged
and in order, followed by `K` copies of the first template pool, the `j`-th
carrying the `j`-th name the generator yields for the base "ng". -/
theorem AddNodePool_submits_appended {σ : Type} (env : Env σ) (cluster : Cluster) (K : Nat)
    (wait checkClusterConfig : Bool) (w : World σ Cluster) (ngTemplate : NodePoolInfo)
    (others : List NodePoolInfo)
    (hT : (env.LoadConfig w.state).NodePoolList = ngTemplate :: others) :
    ∃ upgradedCluster : Cluster,
      submitted (AddNodePool env cluster (K : Int) wait checkClusterConfig w).2.calls
        = submitted w.calls ++ [upgradedCluster] ∧
      upgradedCluster.ACKConfig.NodePoolList.length = cluster.ACKConfig.NodePoolList.length + K ∧
      upgradedCluster.ACKConfig.NodePoolList.take cluster.ACKConfig.NodePoolList.length
        = cluster.ACKConfig.NodePoolList ∧
      upgradedCluster.ACKConfig.NodePoolList.drop cluster.ACKConfig.NodePoolList.length
        = (generatedNames env.AppendRandomString "ng" K w.state).map
            (fun name => { ngTemplate with Name := name }) ∧
      (generatedNames env.AppendRandomString "ng" K w.state).length = K := by
  refine ⟨setNodePoolList cluster (cluster.ACKConfig.NodePoolList ++
    (generatedNames env.AppendRandomString "ng" K w.state).map
      (AddNodePool.newNodeGroup ngTemplate)), ?_, ?_, ?_, ?_, generatedNames_length _ _ K w.state⟩
  · have h := AddNodePool_submitted env cluster K wait checkClusterConfig w ngTemplate others hT
    rw [Int.toNat_ofNat] at h
    exact h
  · simp [setNodePoolList, generatedNames_length]
  · simp [setNodePoolList]
  · simp only [setNodePoolList, List.drop_left]
    rfl

/-- C1 at a concrete input: one pool `a`, template `tpl`, two pools added. -/
theorem AddNodePool_submits_appended_witness :
    ((sampleEnv syncClient).LoadConfig
        (sampleWorld (sampleCluster [samplePool "a" 3])).state).NodePoolList
      = samplePool "tpl" 2 :: [] ∧
    submitted (AddNodePool (sampleEnv syncClient) (sampleCluster [samplePool "a" 3]) 2 true true
        (sampleWorld (sampleCluster [samplePool "a" 3]))).2.calls
      = [setNodePoolList (sampleCluster [samplePool "a" 3])
          [samplePool "a" 3, samplePool "ng-a" 2, samplePool "ng-b" 2]] ∧
    ∃ upgradedCluster : Cluster,
      submitted (AddNodePool (sampleEnv syncClient) (sampleCluster [samplePool "a" 3])
          ((2 : Nat) : Int) true true (sampleWorld (sampleCluster [samplePool "a" 3]))).2.calls
        = submitted (sampleWorld (sampleCluster [samplePool "a" 3])).calls ++ [upgradedCluster] ∧
      upgradedCluster.ACKConfig.NodePoolList.length
        = (sampleCluster [samplePool "a" 3]).ACKConfig.NodePoolList.length + 2 ∧
      upgradedCluster.ACKConfig.NodePoolList.take
          (sampleCluster [samplePool "a" 3]).ACKConfig.NodePoolList.length
        = (sampleCluster [samplePool "a" 3]).ACKConfig.NodePoolList ∧
      upgradedCluster.ACKConfig.NodePoolList.drop
          (sampleCluster [samplePool "a" 3]).ACKConfig.NodePoolList.length
        = (generatedNames (sampleEnv syncClient).AppendRandomString "ng" 2
            (sampleWorld (sampleCluster [samplePool "a" 3])).state).map
            (fun name => { samplePool "tpl" 2 with Name := name }) ∧
      (generatedNames (sampleEnv syncClient).AppendRandomString "ng" 2
          (sampleWorld (sampleCluster [samplePool "a" 3])).state).length = 2 :=
  ⟨rfl, rfl, AddNodePool_submits_appended (sampleEnv syncClient)
    (sampleCluster [samplePool "a" 3]) 2 true true
    (sampleWorld (sampleCluster [samplePool "a" 3])) (samplePool "tpl" 2) [] rfl⟩

/-- C2: whenever `AddNodePool` with `increaseBy = K ≥ 0` on a cluster with `n`
desired node pools returns with `checkClusterConfig = true`, the response of
its one update call has `n + K` desired node pools, the returned cluster has
`n + K` upstream node pools, and on both sides the names are, position by
position, the names of the submitted list. -/
theorem AddNodePool_checked_counts_and_names {σ : Type} (env : Env σ) (cluster : Cluster)
    (K : Nat) (wait : Bool) (w w1 : World σ Cluster) (result : Cluster)
    (h : AddNodePool env cluster (K : Int) wait true w = (Outcome.ok result, w1)) :
    ∃ (upgradedCluster response : Cluster) (s : σ),
      submitted w1.calls = submitted w.calls ++ [upgradedCluster] ∧
      env.client.Update upgradedCluster upgradedCluster
        (stateAfterNames env.AppendRandomString "ng" K w.state) = (Except.ok response, s) ∧
      response.ACKConfig.NodePoolList.length = cluster.ACKConfig.NodePoolList.length + K ∧
      result.ACKStatus.UpstreamSpec.NodePoolList.length
        = cluster.ACKConfig.NodePoolList.length + K ∧
      response.ACKConfig.NodePoolList.map NodePoolInfo.Name
        = upgradedCluster.ACKConfig.NodePoolList.map NodePoolInfo.Name ∧
      result.ACKStatus.UpstreamSpec.NodePoolList.map NodePoolInfo.Name
        = upgradedCluster.ACKConfig.NodePoolList.map NodePoolInfo.Name := by
  obtain ⟨ngTemplate, others, l, response, s, hT, hl, hU, hc, -, hn, hc2, -, hn2, -⟩ :=
    AddNodePool_eq_ok env cluster K wait w w1 result h
  have hsub := AddNodePool_submitted env cluster K wait true w ngTemplate others hT
  rw [h, ← hl] at hsub
  rw [Int.toNat_ofNat] at hl hU
  have hlen : l.length = cluster.ACKConfig.NodePoolList.length + K := by
    rw [hl]
    simp [generatedNames_length]
  have e1 : response.ACKConfig.NodePoolList.length
      = cluster.ACKConfig.NodePoolList.length + K := by exact_mod_cast hc
  have e2 : result.ACKStatus.UpstreamSpec.NodePoolList.length
      = cluster.ACKConfig.NodePoolList.length + K := by exact_mod_cast hc2
  refine ⟨setNodePoolList cluster l, response, s, hsub, hU, e1, e2, ?_, ?_⟩
  · rw [hn, e1, ← hlen, List.take_length]
    rfl
  · rw [hn2, e2, ← hlen, List.take_length]
    rfl

/-- C2 at a concrete input: one pool, two added, on the backend that
reconciles at once. -/
theorem AddNodePool_checked_counts_and_names_witness :
    AddNodePool (sampleEnv syncClient) (sampleCluster [samplePool "a" 3]) ((2 : Nat) : Int) true true
        (sampleWorld (sampleCluster [samplePool "a" 3]))
      = (Outcome.ok (sampleCluster [samplePool "a" 3, samplePool "ng-a" 2, samplePool "ng-b" 2]),
          (AddNodePool (sampleEnv syncClient) (sampleCluster [samplePool "a" 3]) ((2 : Nat) : Int)
            true true (sampleWorld (sampleCluster [samplePool "a" 3]))).2) ∧
    ∃ (upgradedCluster response : Cluster) (s : Backend),
      submitted (AddNodePool (sampleEnv syncClient) (sampleCluster [samplePool "a" 3])
          ((2 : Nat) : Int) true true (sampleWorld (sampleCluster [samplePool "a" 3]))).2.calls
        = submitted (sampleWorld (sampleCluster [samplePool "a" 3])).calls ++ [upgradedCluster] ∧
      (sampleEnv syncClient).client.Update upgradedCluster upgradedCluster
        (stateAfterNames (sampleEnv syncClient).AppendRandomString "ng" 2
          (sampleWorld (sampleCluster [samplePool "a" 3])).state) = (Except.ok response, s) ∧
      response.ACKConfig.NodePoolList.length
        = (sampleCluster [samplePool "a" 3]).ACKConfig.NodePoolList.length + 2 ∧
      (sampleCluster [samplePool "a" 3, samplePool "ng-a" 2,
          samplePool "ng-b" 2]).ACKStatus.UpstreamSpec.NodePoolList.length
        = (sampleCluster [samplePool "a" 3]).ACKConfig.NodePoolList.length + 2 ∧
      response.ACKConfig.NodePoolList.map NodePoolInfo.Name
        = upgradedCluster.ACKConfig.NodePoolList.map NodePoolInfo.Name ∧
      (sampleCluster [samplePool "a" 3, samplePool "ng-a" 2,
          samplePool "ng-b" 2]).ACKStatus.UpstreamSpec.NodePoolList.map NodePoolInfo.Name
        = upgradedCluster.ACKConfig.NodePoolList.map NodePoolInfo.Name :=
  ⟨rfl, AddNodePool_checked_counts_and_names (sampleEnv syncClient)
    (sampleCluster [samplePool "a" 3]) 2 true (sampleWorld (sampleCluster [samplePool "a" 3])) _
    _ rfl⟩

/-- C3: for a cluster whose desired node-pool list is `first :: rest`,
`DeleteNodePool` makes exactly one update call, and the node-pool list of the
cluster it submits is `[first]`, whatever `rest` is. -/
theorem DeleteNodePool_submits_first {σ : Type} (env : Env σ) (cluster : Cluster)
    (wait checkClusterConfig : Bool) (w : World σ Cluster) (first : NodePoolInfo)
    (rest : List NodePoolInfo) (hL : cluster.ACKConfig.NodePoolList = first :: rest) :
    ∃ upgradedCluster : Cluster,
      submitted (DeleteNodePool env cluster wait checkClusterConfig w).2.calls
        = submitted w.calls ++ [upgradedCluster] ∧
      upgradedCluster.ACKConfig.NodePoolList = [first] :=
  ⟨setNodePoolList cluster [first],
    DeleteNodePool_submitted env cluster wait checkClusterConfig w first rest hL, rfl⟩

/-- C3 at a concrete input: three pools, the last one added last. -/
theorem DeleteNodePool_submits_first_witness :
    (sampleCluster [samplePool "a" 3, samplePool "b" 5, samplePool "ng-a" 2]).ACKConfig.NodePoolList
      = samplePool "a" 3 :: [samplePool "b" 5, samplePool "ng-a" 2] ∧
    ∃ upgradedCluster : Cluster,
      submitted (DeleteNodePool (sampleEnv syncClient)
          (sampleCluster [samplePool "a" 3, samplePool "b" 5, samplePool "ng-a" 2]) true true
          (sampleWorld (sampleCluster [samplePool "a" 3, samplePool "b" 5,
            samplePool "ng-a" 2]))).2.calls
        = submitted (sampleWorld (sampleCluster [samplePool "a" 3, samplePool "b" 5,
            samplePool "ng-a" 2])).calls ++ [upgradedCluster] ∧
      upgradedCluster.ACKConfig.NodePoolList = [samplePool "a" 3] :=
  ⟨rfl, DeleteNodePool_submits_first (sampleEnv syncClient)
    (sampleCluster [samplePool "a" 3, samplePool "b" 5, samplePool "ng-a" 2]) true true
    (sampleWorld (sampleCluster [samplePool "a" 3, samplePool "b" 5, samplePool "ng-a" 2]))
    (samplePool "a" 3) [samplePool "b" 5, samplePool "ng-a" 2] rfl⟩

/-- C4 (as stated, refuted): a cluster with one desired node pool, on a backend
that answers the update with no node pool at all: `DeleteNodePool` returns
with `checkClusterConfig = true`, and the update response and the returned
cluster both have 0 node pools, not 1. -/
theorem DeleteNodePool_single_pool_returns_empty :
    (droppingClient.Update (setNodePoolList (sampleCluster [samplePool "a" 3]) [samplePool "a" 3])
        (setNodePoolList (sampleCluster [samplePool "a" 3]) [samplePool "a" 3])
        (sampleWorld (sampleCluster [samplePool "a" 3])).state).1
      = Except.ok (sampleCluster []) ∧
    (DeleteNodePool (sampleEnv droppingClient) (sampleCluster [samplePool "a" 3]) true true
        (sampleWorld (sampleCluster [samplePool "a" 3]))).1
      = Outcome.ok (sampleCluster []) ∧
    (sampleCluster []).ACKConfig.NodePoolList.length = 0 ∧
    (sampleCluster []).ACKStatus.UpstreamSpec.NodePoolList.length = 0 :=
  ⟨rfl, rfl, rfl, rfl⟩

/-- C4 (amended): whenever `DeleteNodePool` on a cluster with `n ≥ 1` desired
node pools returns with `checkClusterConfig = true`, the response of its one
update call has `n - 1` desired node pools and the returned cluster has `n - 1`
upstream node pools (1 on each side when `n = 2`), and every pool on either
side has the name of the first pool of the original list. -/
theorem DeleteNodePool_checked_counts_and_names {σ : Type} (env : Env σ) (cluster : Cluster)
    (wait : Bool) (w w1 : World σ Cluster) (result : Cluster) (first : NodePoolInfo)
    (rest : List NodePoolInfo) (hL : cluster.ACKConfig.NodePoolList = first :: rest)
    (h : DeleteNodePool env cluster wait true w = (Outcome.ok result, w1)) :
    ∃ (response : Cluster) (s : σ),
      env.client.Update (setNodePoolList cluster [first]) (setNodePoolList cluster [first]) w.state
        = (Except.ok response, s) ∧
      response.ACKConfig.NodePoolList.length + 1 = cluster.ACKConfig.NodePoolList.length ∧
      result.ACKStatus.UpstreamSpec.NodePoolList.length + 1
        = cluster.ACKConfig.NodePoolList.length ∧
      (∀ ng ∈ response.ACKConfig.NodePoolList, ng.Name = first.Name) ∧
      (∀ ng ∈ result.ACKStatus.UpstreamSpec.NodePoolList, ng.Name = first.Name) := by
  obtain ⟨first1, rest1, response, s, hL1, hU, hc, hl, hn, hc2, hl2, hn2, -⟩ :=
    DeleteNodePool_eq_ok env cluster wait w w1 result h
  rw [hL] at hL1
  obtain ⟨hf, -⟩ := List.cons.inj hL1
  subst hf
  have names : ∀ l : List NodePoolInfo, l.length ≤ 1 →
      l.map NodePoolInfo.Name = ([first].take l.length).map NodePoolInfo.Name →
      ∀ ng ∈ l, ng.Name = first.Name := by
    intro l hlen hmap ng hng
    match l, hlen, hmap, hng with
    | [x], _, hmap, hng =>
      simp only [List.mem_singleton] at hng
      subst hng
      simpa using hmap
    | _ :: _ :: _, hlen, _, _ => simp at hlen
  exact ⟨response, s, hU, by omega, by omega, names _ hl hn, names _ hl2 hn2⟩

/-- C4 (amended) at a concrete input: two pools, on the backend that reconciles
at once. -/
theorem DeleteNodePool_checked_counts_and_names_witness :
    (sampleCluster [samplePool "a" 3, samplePool "ng-a" 2]).ACKConfig.NodePoolList
      = samplePool "a" 3 :: [samplePool "ng-a" 2] ∧
    DeleteNodePool (sampleEnv syncClient) (sampleCluster [samplePool "a" 3, samplePool "ng-a" 2])
        true true (sampleWorld (sampleCluster [samplePool "a" 3, samplePool "ng-a" 2]))
      = (Outcome.ok (sampleCluster [samplePool "a" 3]),
          (DeleteNodePool (sampleEnv syncClient)
            (sampleCluster [samplePool "a" 3, samplePool "ng-a" 2]) true true
            (sampleWorld (sampleCluster [samplePool "a" 3, samplePool "ng-a" 2]))).2) ∧
    ∃ (response : Cluster) (s : Backend),
      (sampleEnv syncClient).client.Update
        (setNodePoolList (sampleCluster [samplePool "a" 3, samplePool "ng-a" 2]) [samplePool "a" 3])
        (setNodePoolList (sampleCluster [samplePool "a" 3, samplePool "ng-a" 2]) [samplePool "a" 3])
        (sampleWorld (sampleCluster [samplePool "a" 3, samplePool "ng-a" 2])).state
        = (Except.ok response, s) ∧
      response.ACKConfig.NodePoolList.length + 1
        = (sampleCluster [samplePool "a" 3, samplePool "ng-a" 2]).ACKConfig.NodePoolList.length ∧
      (sampleCluster [samplePool "a" 3]).ACKStatus.UpstreamSpec.NodePoolList.length + 1
        = (sampleCluster [samplePool "a" 3, samplePool "ng-a" 2]).ACKConfig.NodePoolList.length ∧
      (∀ ng ∈ response.ACKConfig.NodePoolList, ng.Name = (samplePool "a" 3).Name) ∧
      (∀ ng ∈ (sampleCluster [samplePool "a" 3]).ACKStatus.UpstreamSpec.NodePoolList,
        ng.Name = (samplePool "a" 3).Name) :=
  ⟨rfl, rfl, DeleteNodePool_checked_counts_and_names (sampleEnv syncClient)
    (sampleCluster [samplePool "a" 3, samplePool "ng-a" 2]) true
    (sampleWorld (sampleCluster [samplePool "a" 3, samplePool "ng-a" 2])) _ _
    (samplePool "a" 3) [samplePool "ng-a" 2] rfl rfl⟩

/-- C5: `ScaleNodeGroup` makes exactly one update call; the cluster it submits
has the same pools in the same order, each with `InstancesNum` set to
`nodeCount` and every other field as before, and nothing else of the cluster is
changed. -/
theorem ScaleNodeGroup_submits_scaled {σ : Type} (env : Env σ) (cluster : Cluster)
    (nodeCount : Int) (wait checkClusterConfig : Bool) (w : World σ Cluster) :
    ∃ upgradedCluster : Cluster,
      submitted (ScaleNodeGroup env cluster nodeCount wait checkClusterConfig w).2.calls
        = submitted w.calls ++ [upgradedCluster] ∧
      upgradedCluster.ACKConfig.NodePoolList
        = cluster.ACKConfig.NodePoolList.map (fun ng => { ng with InstancesNum := nodeCount }) ∧
      upgradedCluster.ACKConfig.NodePoolList.length = cluster.ACKConfig.NodePoolList.length ∧
      (∀ ng ∈ upgradedCluster.ACKConfig.NodePoolList, ng.InstancesNum = nodeCount) ∧
      upgradedCluster.ACKConfig.KubernetesVersion = cluster.ACKConfig.KubernetesVersion ∧
      upgradedCluster.ID = cluster.ID ∧ upgradedCluster.ACKStatus = cluster.ACKStatus := by
  refine ⟨ScaleNodeGroup.upgradedCluster cluster nodeCount,
    ScaleNodeGroup_submitted env cluster nodeCount wait checkClusterConfig w, ?_, ?_, ?_,
    rfl, rfl, rfl⟩
  · exact setInstancesNum_eq_map nodeCount _
  · simp [ScaleNodeGroup.upgradedCluster, setInstancesNum_eq_map]
  · intro ng hng
    simp only [ScaleNodeGroup.upgradedCluster, setInstancesNum_eq_map, List.mem_map] at hng
    obtain ⟨a, _, rfl⟩ := hng
    rfl

/-- C6 (as stated, refuted): pools `a` with 3 and `b` with 5 instances, on the
backend that reconciles at once.  Scaling to 4 and then back to 3, the count of
the first pool, as the suite does, both calls return, and afterwards the
desired counts are 3 and 3: pool `b` is not back at 5. -/
theorem ScaleNodeGroup_there_and_back_loses_counts :
    (sampleCluster [samplePool "a" 3, samplePool "b" 5]).ACKConfig.NodePoolList.map
        NodePoolInfo.InstancesNum = [3, 5] ∧
    (ScaleNodeGroup (sampleEnv syncClient) (sampleCluster [samplePool "a" 3, samplePool "b" 5])
        (3 + 1) true true (sampleWorld (sampleCluster [samplePool "a" 3, samplePool "b" 5]))).1
      = Outcome.ok (sampleCluster [samplePool "a" 4, samplePool "b" 4]) ∧
    (ScaleNodeGroup (sampleEnv syncClient) (sampleCluster [samplePool "a" 4, samplePool "b" 4])
        3 true true
        (ScaleNodeGroup (sampleEnv syncClient) (sampleCluster [samplePool "a" 3, samplePool "b" 5])
          (3 + 1) true true
          (sampleWorld (sampleCluster [samplePool "a" 3, samplePool "b" 5]))).2).1
      = Outcome.ok (sampleCluster [samplePool "a" 3, samplePool "b" 3]) ∧
    (sampleCluster [samplePool "a" 3, samplePool "b" 3]).ACKConfig.NodePoolList.map
        NodePoolInfo.InstancesNum = [3, 3] :=
  ⟨rfl, rfl, rfl, rfl⟩

/-- C6 (amended): for a cluster whose desired node-pool list is `first :: rest`
and every `N`, when the call scaling to `N` returns the cluster `c1`, the suite
scales `c1` back to `M = first.InstancesNum` in the world the first call left.
The two calls submit two updates, the second being `c1` with every desired
count set to `M`.  When `c1` still holds the original pools in the original
order, whatever their counts, the second update holds the original pools with
every count `M`: the first pool, and every pool whose count was `M`, is back as
it was, and the list is back at its original counts exactly when every pool had
the count `M` to begin with. -/
theorem ScaleNodeGroup_there_and_back {σ : Type} (env : Env σ) (cluster : Cluster) (N : Int)
    (wait checkClusterConfig : Bool) (w : World σ Cluster) (first : NodePoolInfo)
    (rest : List NodePoolInfo) (c1 : Cluster) (w1 : World σ Cluster)
    (hL : cluster.ACKConfig.NodePoolList = first :: rest)
    (h1 : ScaleNodeGroup env cluster N wait checkClusterConfig w = (Outcome.ok c1, w1)) :
    ∃ back : Cluster,
      (ScaleNodeGroup env cluster N wait checkClusterConfig >>= fun returned =>
          ScaleNodeGroup env returned first.InstancesNum wait checkClusterConfig) w
        = ScaleNodeGroup env c1 first.InstancesNum wait checkClusterConfig w1 ∧
      submitted (ScaleNodeGroup env c1 first.InstancesNum wait checkClusterConfig w1).2.calls
        = submitted w.calls ++ [ScaleNodeGroup.upgradedCluster cluster N, back] ∧
      back = ScaleNodeGroup.upgradedCluster c1 first.InstancesNum ∧
      (∀ ng ∈ back.ACKConfig.NodePoolList, ng.InstancesNum = first.InstancesNum) ∧
      (c1.ACKConfig.NodePoolList.map (fun ng => { ng with InstancesNum := first.InstancesNum })
          = cluster.ACKConfig.NodePoolList.map
            (fun ng => { ng with InstancesNum := first.InstancesNum }) →
        back.ACKConfig.NodePoolList = cluster.ACKConfig.NodePoolList.map
          (fun ng => { ng with InstancesNum := first.InstancesNum }) ∧
        back.ACKConfig.NodePoolList.head? = some first ∧
        (∀ ng ∈ cluster.ACKConfig.NodePoolList, ng.InstancesNum = first.InstancesNum →
          ng ∈ back.ACKConfig.NodePoolList) ∧
        (back.ACKConfig.NodePoolList.map NodePoolInfo.InstancesNum
            = cluster.ACKConfig.NodePoolList.map NodePoolInfo.InstancesNum ↔
          ∀ ng ∈ cluster.ACKConfig.NodePoolList, ng.InstancesNum = first.InstancesNum)) := by
  have hw1 : submitted w1.calls
      = submitted w.calls ++ [ScaleNodeGroup.upgradedCluster cluster N] := by
    have h := ScaleNodeGroup_submitted env cluster N wait checkClusterConfig w
    rw [h1] at h
    exact h
  refine ⟨ScaleNodeGroup.upgradedCluster c1 first.InstancesNum, ?_, ?_, rfl, ?_, ?_⟩
  · rw [Run.bind_apply, h1]
  · rw [ScaleNodeGroup_submitted, hw1, List.append_assoc]
    rfl
  · intro ng hng
    simp only [ScaleNodeGroup.upgradedCluster, setInstancesNum_eq_map, List.mem_map] at hng
    obtain ⟨a, _, rfl⟩ := hng
    rfl
  · intro hsame
    have hback : (ScaleNodeGroup.upgradedCluster c1 first.InstancesNum).ACKConfig.NodePoolList
        = cluster.ACKConfig.NodePoolList.map
          (fun ng => { ng with InstancesNum := first.InstancesNum }) := by
      simp only [ScaleNodeGroup.upgradedCluster, setInstancesNum_eq_map]
      exact hsame
    refine ⟨hback, ?_, ?_, ?_⟩
    · rw [hback, hL]
      rfl
    · intro ng hng hM
      rw [hback]
      refine List.mem_map.mpr ⟨ng, hng, ?_⟩
      rw [← hM]
    · rw [hback, List.map_map]
      constructor
      · intro h ng hng
        have h2 := List.map_inj_left.mp h ng hng
        exact h2.symm
      · intro h
        exact List.map_congr_left (fun ng hng => (h ng hng).symm)

/-- C6 (amended) at a concrete input: pools with 3 and 5 instances, scaled to 4
and back to 3 on the backend that reconciles at once; the first call returns
the cluster with the pools at 4 and 4. -/
theorem ScaleNodeGroup_there_and_back_witness :
    (ScaleNodeGroup (sampleEnv syncClient) (sampleCluster [samplePool "a" 3, samplePool "b" 5])
        4 true true (sampleWorld (sampleCluster [samplePool "a" 3, samplePool "b" 5]))).1
      = Outcome.ok (sampleCluster [samplePool "a" 4, samplePool "b" 4]) ∧
    ∃ back : Cluster,
      (ScaleNodeGroup (sampleEnv syncClient) (sampleCluster [samplePool "a" 3, samplePool "b" 5])
          4 true true >>= fun returned =>
          ScaleNodeGroup (sampleEnv syncClient) returned (samplePool "a" 3).InstancesNum true true)
          (sampleWorld (sampleCluster [samplePool "a" 3, samplePool "b" 5]))
        = ScaleNodeGroup (sampleEnv syncClient) (sampleCluster [samplePool "a" 4, samplePool "b" 4])
            (samplePool "a" 3).InstancesNum true true
            (ScaleNodeGroup (sampleEnv syncClient)
              (sampleCluster [samplePool "a" 3, samplePool "b" 5]) 4 true true
              (sampleWorld (sampleCluster [samplePool "a" 3, samplePool "b" 5]))).2 ∧
      submitted (ScaleNodeGroup (sampleEnv syncClient)
          (sampleCluster [samplePool "a" 4, samplePool "b" 4])
          (samplePool "a" 3).InstancesNum true true
          (ScaleNodeGroup (sampleEnv syncClient)
            (sampleCluster [samplePool "a" 3, samplePool "b" 5]) 4 true true
            (sampleWorld (sampleCluster [samplePool "a" 3, samplePool "b" 5]))).2).2.calls
        = submitted (sampleWorld (sampleCluster [samplePool "a" 3, samplePool "b" 5])).calls ++
          [ScaleNodeGroup.upgradedCluster (sampleCluster [samplePool "a" 3, samplePool "b" 5]) 4,
            back] ∧
      back = ScaleNodeGroup.upgradedCluster (sampleCluster [samplePool "a" 4, samplePool "b" 4])
        (samplePool "a" 3).InstancesNum ∧
      (∀ ng ∈ back.ACKConfig.NodePoolList, ng.InstancesNum = (samplePool "a" 3).InstancesNum) ∧
      back.ACKConfig.NodePoolList
        = (sampleCluster [samplePool "a" 3, samplePool "b" 5]).ACKConfig.NodePoolList.map
          (fun ng => { ng with InstancesNum := (samplePool "a" 3).InstancesNum }) ∧
      back.ACKConfig.NodePoolList.head? = some (samplePool "a" 3) ∧
      (∀ ng ∈ (sampleCluster [samplePool "a" 3, samplePool "b" 5]).ACKConfig.NodePoolList,
        ng.InstancesNum = (samplePool "a" 3).InstancesNum → ng ∈ back.ACKConfig.NodePoolList) ∧
      (back.ACKConfig.NodePoolList.map NodePoolInfo.InstancesNum
          = (sampleCluster [samplePool "a" 3, samplePool "b" 5]).ACKConfig.NodePoolList.map
            NodePoolInfo.InstancesNum ↔
        ∀ ng ∈ (sampleCluster [samplePool "a" 3, samplePool "b" 5]).ACKConfig.NodePoolList,
          ng.InstancesNum = (samplePool "a" 3).InstancesNum) :=
  ⟨rfl,
    match ScaleNodeGroup_there_and_back (sampleEnv syncClient)
      (sampleCluster [samplePool "a" 3, samplePool "b" 5]) 4 true true
      (sampleWorld (sampleCluster [samplePool "a" 3, samplePool "b" 5])) (samplePool "a" 3)
      [samplePool "b" 5] (sampleCluster [samplePool "a" 4, samplePool "b" 4]) _ rfl rfl with
    | ⟨back, hrun, hsub, hback, hall, hsame⟩ =>
      ⟨back, hrun, hsub, hback, hall, hsame rfl⟩⟩

/-- C7: whenever `ScaleNodeGroup` returns with `checkClusterConfig = true`,
every desired node pool of the response of its one update call and every
upstream node pool of the returned cluster has `InstancesNum` equal to
`nodeCount`, as integers. -/
theorem ScaleNodeGroup_checked_counts {σ : Type} (env : Env σ) (cluster : Cluster)
    (nodeCount : Int) (wait : Bool) (w w1 : World σ Cluster) (result : Cluster)
    (h : ScaleNodeGroup env cluster nodeCount wait true w = (Outcome.ok result, w1)) :
    ∃ (response : Cluster) (s : σ),
      env.client.Update (ScaleNodeGroup.upgradedCluster cluster nodeCount)
        (ScaleNodeGroup.upgradedCluster cluster nodeCount) w.state = (Except.ok response, s) ∧
      (∀ ng ∈ response.ACKConfig.NodePoolList, ng.InstancesNum = nodeCount) ∧
      (∀ ng ∈ result.ACKStatus.UpstreamSpec.NodePoolList, ng.InstancesNum = nodeCount) := by
  obtain ⟨response, s, hU, hd, hu, -⟩ := ScaleNodeGroup_eq_ok env cluster nodeCount wait w w1 result h
  exact ⟨response, s, hU, hd, hu⟩

/-- C7 at a concrete input: pools with 3 and 5 instances scaled to 4. -/
theorem ScaleNodeGroup_checked_counts_witness :
    ScaleNodeGroup (sampleEnv syncClient) (sampleCluster [samplePool "a" 3, samplePool "b" 5]) 4
        true true (sampleWorld (sampleCluster [samplePool "a" 3, samplePool "b" 5]))
      = (Outcome.ok (sampleCluster [samplePool "a" 4, samplePool "b" 4]),
          (ScaleNodeGroup (sampleEnv syncClient)
            (sampleCluster [samplePool "a" 3, samplePool "b" 5]) 4 true true
            (sampleWorld (sampleCluster [samplePool "a" 3, samplePool "b" 5]))).2) ∧
    ∃ (response : Cluster) (s : Backend),
      (sampleEnv syncClient).client.Update
        (ScaleNodeGroup.upgradedCluster (sampleCluster [samplePool "a" 3, samplePool "b" 5]) 4)
        (ScaleNodeGroup.upgradedCluster (sampleCluster [samplePool "a" 3, samplePool "b" 5]) 4)
        (sampleWorld (sampleCluster [samplePool "a" 3, samplePool "b" 5])).state
        = (Except.ok response, s) ∧
      (∀ ng ∈ response.ACKConfig.NodePoolList, ng.InstancesNum = 4) ∧
      (∀ ng ∈ (sampleCluster [samplePool "a" 4,
          samplePool "b" 4]).ACKStatus.UpstreamSpec.NodePoolList, ng.InstancesNum = 4) :=
  ⟨rfl, ScaleNodeGroup_checked_counts (sampleEnv syncClient)
    (sampleCluster [samplePool "a" 3, samplePool "b" 5]) 4 true
    (sampleWorld (sampleCluster [samplePool "a" 3, samplePool "b" 5])) _ _ rfl⟩

/-- C8: whenever `UpgradeClusterKubernetesVersion` returns with
`checkClusterConfig = true`, the desired version and the upstream version of
the returned cluster are both the string `upgradeToVersion`. -/
theorem UpgradeClusterKubernetesVersion_checked_versions {σ : Type} (env : Env σ)
    (cluster : Cluster) (upgradeToVersion : String) (w w1 : World σ Cluster) (result : Cluster)
    (h : UpgradeClusterKubernetesVersion env cluster upgradeToVersion true w
      = (Outcome.ok result, w1)) :
    result.ACKConfig.KubernetesVersion = upgradeToVersion ∧
      result.ACKStatus.UpstreamSpec.KubernetesVersion = upgradeToVersion := by
  unfold UpgradeClusterKubernetesVersion at h
  obtain ⟨response, w2, hU, hk⟩ := Run.bind_eq_ok h
  simp only [reduceIte] at hk
  obtain ⟨u1, w3, h1, hk1⟩ := Run.bind_eq_ok hk
  obtain ⟨c0, w0, v, hpoll, hv⟩ := pollLoop_eq_ok _ _ _ _ _ _ _ hk1
  have hveq := UpgradeClusterKubernetesVersion_poll_eq_ok hpoll
  subst hveq
  simp only [Bool.and_eq_true, decide_eq_true_eq] at hv
  exact ⟨hv.2, hv.1⟩

/-- C8 at a concrete input: the scenario of the specification, from
"1.31.9-aliyun.1" to "1.32.7-aliyun.1". -/
theorem UpgradeClusterKubernetesVersion_checked_versions_witness :
    (sampleCluster [samplePool "a" 3]).ACKConfig.KubernetesVersion = "1.31.9-aliyun.1" ∧
    UpgradeClusterKubernetesVersion (sampleEnv syncClient) (sampleCluster [samplePool "a" 3])
        "1.32.7-aliyun.1" true (sampleWorld (sampleCluster [samplePool "a" 3]))
      = (Outcome.ok (reconciled (UpgradeClusterKubernetesVersion.upgradedCluster
            (sampleCluster [samplePool "a" 3]) "1.32.7-aliyun.1")),
          (UpgradeClusterKubernetesVersion (sampleEnv syncClient)
            (sampleCluster [samplePool "a" 3]) "1.32.7-aliyun.1" true
            (sampleWorld (sampleCluster [samplePool "a" 3]))).2) ∧
    (reconciled (UpgradeClusterKubernetesVersion.upgradedCluster
        (sampleCluster [samplePool "a" 3]) "1.32.7-aliyun.1")).ACKConfig.KubernetesVersion
      = "1.32.7-aliyun.1" ∧
    (reconciled (UpgradeClusterKubernetesVersion.upgradedCluster (sampleCluster [samplePool "a" 3])
        "1.32.7-aliyun.1")).ACKStatus.UpstreamSpec.KubernetesVersion = "1.32.7-aliyun.1" :=
  ⟨rfl, rfl, UpgradeClusterKubernetesVersion_checked_versions (sampleEnv syncClient)
    (sampleCluster [samplePool "a" 3]) "1.32.7-aliyun.1"
    (sampleWorld (sampleCluster [samplePool "a" 3])) _ _ rfl⟩

/-- C9 (as stated, refuted): the loop is not tied to `wait`.  On the backend
that never reconciles, `ScaleNodeGroup` to 4 with `wait = true` and
`checkClusterConfig = false` returns a cluster whose upstream count is still 3,
having re-fetched nothing; on the backend that reconciles at once, with
`wait = false` and `checkClusterConfig = true` it re-fetches the cluster. -/
theorem ScaleNodeGroup_loop_not_tied_to_wait :
    (ScaleNodeGroup (sampleEnv staleClient) (sampleCluster [samplePool "a" 3]) 4 true false
        (sampleWorld (sampleCluster [samplePool "a" 3]))).1
      = Outcome.ok (ScaleNodeGroup.upgradedCluster (sampleCluster [samplePool "a" 3]) 4) ∧
    (ScaleNodeGroup.upgradedCluster (sampleCluster [samplePool "a" 3])
        4).ACKStatus.UpstreamSpec.NodePoolList.map NodePoolInfo.InstancesNum = [3] ∧
    refetched (ScaleNodeGroup (sampleEnv staleClient) (sampleCluster [samplePool "a" 3]) 4 true
        false (sampleWorld (sampleCluster [samplePool "a" 3]))).2.calls = [] ∧
    refetched (ScaleNodeGroup (sampleEnv syncClient) (sampleCluster [samplePool "a" 3]) 4 false
        true (sampleWorld (sampleCluster [samplePool "a" 3]))).2.calls = ["c-1"] :=
  ⟨rfl, rfl, rfl, rfl⟩

/-- C9 (amended): in `ScaleNodeGroup`, `AddNodePool` and `DeleteNodePool` the
re-fetch loop runs exactly when `checkClusterConfig` is true, whatever `wait`
is: with `checkClusterConfig = false` no `ByID` call is made, and with
`checkClusterConfig = true` a call that returns has re-fetched the cluster at
least once and its returned cluster has the observed field at the target (all
upstream counts `nodeCount`; `n + increaseBy` upstream pools; `n - 1` upstream
pools). -/
theorem refetch_loop_runs_iff_checkClusterConfig {σ : Type} (env : Env σ) (cluster : Cluster)
    (nodeCount increaseBy : Int) (wait : Bool) (w : World σ Cluster) :
    refetched (ScaleNodeGroup env cluster nodeCount wait false w).2.calls = refetched w.calls ∧
    refetched (AddNodePool env cluster increaseBy wait false w).2.calls = refetched w.calls ∧
    refetched (DeleteNodePool env cluster wait false w).2.calls = refetched w.calls ∧
    (∀ result w1, ScaleNodeGroup env cluster nodeCount wait true w = (Outcome.ok result, w1) →
      (∃ ids, ids ≠ [] ∧ refetched w1.calls = refetched w.calls ++ ids) ∧
      ∀ ng ∈ result.ACKStatus.UpstreamSpec.NodePoolList, ng.InstancesNum = nodeCount) ∧
    (∀ result w1, AddNodePool env cluster increaseBy wait true w = (Outcome.ok result, w1) →
      (∃ ids, ids ≠ [] ∧ refetched w1.calls = refetched w.calls ++ ids) ∧
      (result.ACKStatus.UpstreamSpec.NodePoolList.length : Int)
        = cluster.ACKConfig.NodePoolList.length + increaseBy) ∧
    (∀ result w1, DeleteNodePool env cluster wait true w = (Outcome.ok result, w1) →
      (∃ ids, ids ≠ [] ∧ refetched w1.calls = refetched w.calls ++ ids) ∧
      (result.ACKStatus.UpstreamSpec.NodePoolList.length : Int)
        = cluster.ACKConfig.NodePoolList.length - 1) := by
  refine ⟨ScaleNodeGroup_unchecked_refetched env cluster nodeCount wait w,
    AddNodePool_unchecked_refetched env cluster increaseBy wait w,
    DeleteNodePool_unchecked_refetched env cluster wait w, ?_, ?_, ?_⟩
  · intro result w1 h
    obtain ⟨response, s, -, -, hu, hre⟩ := ScaleNodeGroup_eq_ok env cluster nodeCount wait w w1 result h
    exact ⟨hre, hu⟩
  · intro result w1 h
    obtain ⟨-, -, -, -, -, -, -, -, -, -, -, hc2, -, -, hre⟩ :=
      AddNodePool_eq_ok env cluster increaseBy wait w w1 result h
    exact ⟨hre, hc2⟩
  · intro result w1 h
    obtain ⟨first, rest, -, -, hL, -, -, -, -, hc2, -, -, hre⟩ :=
      DeleteNodePool_eq_ok env cluster wait w w1 result h
    exact ⟨hre, hc2⟩

/-- C9 (amended) at a concrete input: `wait = false` throughout; the three
checked calls return on the backend that reconciles at once. -/
theorem refetch_loop_runs_iff_checkClusterConfig_witness :
    ScaleNodeGroup (sampleEnv syncClient) (sampleCluster [samplePool "a" 3, samplePool "b" 5]) 4
        false true (sampleWorld (sampleCluster [samplePool "a" 3, samplePool "b" 5]))
      = (Outcome.ok (sampleCluster [samplePool "a" 4, samplePool "b" 4]),
          (ScaleNodeGroup (sampleEnv syncClient)
            (sampleCluster [samplePool "a" 3, samplePool "b" 5]) 4 false true
            (sampleWorld (sampleCluster [samplePool "a" 3, samplePool "b" 5]))).2) ∧
    ((∃ ids, ids ≠ [] ∧
        refetched (ScaleNodeGroup (sampleEnv syncClient)
          (sampleCluster [samplePool "a" 3, samplePool "b" 5]) 4 false true
          (sampleWorld (sampleCluster [samplePool "a" 3, samplePool "b" 5]))).2.calls
        = refetched (sampleWorld (sampleCluster [samplePool "a" 3, samplePool "b" 5])).calls
          ++ ids) ∧
      ∀ ng ∈ (sampleCluster [samplePool "a" 4,
          samplePool "b" 4]).ACKStatus.UpstreamSpec.NodePoolList, ng.InstancesNum = 4) ∧
    refetched (ScaleNodeGroup (sampleEnv syncClient)
        (sampleCluster [samplePool "a" 3, samplePool "b" 5]) 4 false false
        (sampleWorld (sampleCluster [samplePool "a" 3, samplePool "b" 5]))).2.calls
      = refetched (sampleWorld (sampleCluster [samplePool "a" 3, samplePool "b" 5])).calls :=
  ⟨rfl,
    (refetch_loop_runs_iff_checkClusterConfig (sampleEnv syncClient)
      (sampleCluster [samplePool "a" 3, samplePool "b" 5]) 4 1 false
      (sampleWorld (sampleCluster [samplePool "a" 3, samplePool "b" 5]))).2.2.2.1 _ _ rfl,
    (refetch_loop_runs_iff_checkClusterConfig (sampleEnv syncClient)
      (sampleCluster [samplePool "a" 3, samplePool "b" 5]) 4 1 false
      (sampleWorld (sampleCluster [samplePool "a" 3, samplePool "b" 5]))).1⟩

/-- C10: in each of the four helpers, for every `wait` and
`checkClusterConfig`, an update call that returns the error `err` aborts the
helper with the failed assertion on `err`; the update is the one call the helper
has added to the call list, so nothing is read, waited for or polled
afterwards, and the helper does not return. -/
theorem update_error_aborts {σ : Type} (env : Env σ) (cluster : Cluster)
    (upgradeToVersion : String) (nodeCount increaseBy : Int) (wait checkClusterConfig : Bool)
    (w : World σ Cluster) (err : String) (s : σ) :
    (env.client.Update (UpgradeClusterKubernetesVersion.upgradedCluster cluster upgradeToVersion)
        (UpgradeClusterKubernetesVersion.upgradedCluster cluster upgradeToVersion) w.state
        = (Except.error err, s) →
      UpgradeClusterKubernetesVersion env cluster upgradeToVersion checkClusterConfig w
        = (Outcome.failed (Failure.errNotNil err),
            { state := s, calls := w.calls ++
              [Call.Update (UpgradeClusterKubernetesVersion.upgradedCluster cluster upgradeToVersion)
                (UpgradeClusterKubernetesVersion.upgradedCluster cluster upgradeToVersion)] })) ∧
    (env.client.Update (ScaleNodeGroup.upgradedCluster cluster nodeCount)
        (ScaleNodeGroup.upgradedCluster cluster nodeCount) w.state = (Except.error err, s) →
      ScaleNodeGroup env cluster nodeCount wait checkClusterConfig w
        = (Outcome.failed (Failure.errNotNil err),
            { state := s, calls := w.calls ++
              [Call.Update (ScaleNodeGroup.upgradedCluster cluster nodeCount)
                (ScaleNodeGroup.upgradedCluster cluster nodeCount)] })) ∧
    (∀ (ngTemplate : NodePoolInfo) (others updateNodeGroupsList : List NodePoolInfo),
      (env.LoadConfig w.state).NodePoolList = ngTemplate :: others →
      updateNodeGroupsList = cluster.ACKConfig.NodePoolList ++
        (generatedNames env.AppendRandomString "ng" increaseBy.toNat w.state).map
          (AddNodePool.newNodeGroup ngTemplate) →
      env.client.Update (setNodePoolList cluster updateNodeGroupsList)
        (setNodePoolList cluster updateNodeGroupsList)
        (stateAfterNames env.AppendRandomString "ng" increaseBy.toNat w.state)
        = (Except.error err, s) →
      AddNodePool env cluster increaseBy wait checkClusterConfig w
        = (Outcome.failed (Failure.errNotNil err),
            { state := s, calls := w.calls ++
              [Call.Update (setNodePoolList cluster updateNodeGroupsList)
                (setNodePoolList cluster updateNodeGroupsList)] })) ∧
    (∀ (first : NodePoolInfo) (rest : List NodePoolInfo),
      cluster.ACKConfig.NodePoolList = first :: rest →
      env.client.Update (setNodePoolList cluster [first]) (setNodePoolList cluster [first]) w.state
        = (Except.error err, s) →
      DeleteNodePool env cluster wait checkClusterConfig w
        = (Outcome.failed (Failure.errNotNil err),
            { state := s, calls := w.calls ++
              [Call.Update (setNodePoolList cluster [first]) (setNodePoolList cluster [first])] }))
    := by
  refine ⟨?_, ?_, ?_, ?_⟩
  · intro h
    unfold UpgradeClusterKubernetesVersion
    exact Update_bind_error _ _ _ _ w err s h
  · intro h
    unfold ScaleNodeGroup
    exact Update_bind_error _ _ _ _ w err s h
  · intro ngTemplate others l hT hl h
    subst hl
    rw [AddNodePool_eq env cluster increaseBy wait checkClusterConfig w ngTemplate others hT]
    exact Update_bind_error _ _ _ _ _ err s h
  · intro first rest hL h
    rw [DeleteNodePool_eq env cluster wait checkClusterConfig first rest hL]
    exact Update_bind_error _ _ _ _ w err s h

/-- C10 at a concrete input: the backend that refuses every update. -/
theorem update_error_aborts_witness :
    UpgradeClusterKubernetesVersion (sampleEnv rejectClient) (sampleCluster [samplePool "a" 3])
        "1.32.7-aliyun.1" true (sampleWorld (sampleCluster [samplePool "a" 3]))
      = (Outcome.failed (Failure.errNotNil "update refused"),
          { state := (sampleWorld (sampleCluster [samplePool "a" 3])).state,
            calls := (sampleWorld (sampleCluster [samplePool "a" 3])).calls ++
              [Call.Update
                (UpgradeClusterKubernetesVersion.upgradedCluster (sampleCluster [samplePool "a" 3])
                  "1.32.7-aliyun.1")
                (UpgradeClusterKubernetesVersion.upgradedCluster (sampleCluster [samplePool "a" 3])
                  "1.32.7-aliyun.1")] }) ∧
    ScaleNodeGroup (sampleEnv rejectClient) (sampleCluster [samplePool "a" 3]) 4 true true
        (sampleWorld (sampleCluster [samplePool "a" 3]))
      = (Outcome.failed (Failure.errNotNil "update refused"),
          { state := (sampleWorld (sampleCluster [samplePool "a" 3])).state,
            calls := (sampleWorld (sampleCluster [samplePool "a" 3])).calls ++
              [Call.Update (ScaleNodeGroup.upgradedCluster (sampleCluster [samplePool "a" 3]) 4)
                (ScaleNodeGroup.upgradedCluster (sampleCluster [samplePool "a" 3]) 4)] }) ∧
    DeleteNodePool (sampleEnv rejectClient) (sampleCluster [samplePool "a" 3]) true true
        (sampleWorld (sampleCluster [samplePool "a" 3]))
      = (Outcome.failed (Failure.errNotNil "update refused"),
          { state := (sampleWorld (sampleCluster [samplePool "a" 3])).state,
            calls := (sampleWorld (sampleCluster [samplePool "a" 3])).calls ++
              [Call.Update (setNodePoolList (sampleCluster [samplePool "a" 3]) [samplePool "a" 3])
                (setNodePoolList (sampleCluster [samplePool "a" 3]) [samplePool "a" 3])] }) :=
  ⟨(update_error_aborts (sampleEnv rejectClient) (sampleCluster [samplePool "a" 3])
      "1.32.7-aliyun.1" 4 1 true true (sampleWorld (sampleCluster [samplePool "a" 3]))
      "update refused" (sampleWorld (sampleCluster [samplePool "a" 3])).state).1 rfl,
    (update_error_aborts (sampleEnv rejectClient) (sampleCluster [samplePool "a" 3])
      "1.32.7-aliyun.1" 4 1 true true (sampleWorld (sampleCluster [samplePool "a" 3]))
      "update refused" (sampleWorld (sampleCluster [samplePool "a" 3])).state).2.1 rfl,
    (update_error_aborts (sampleEnv rejectClient) (sampleCluster [samplePool "a" 3])
      "1.32.7-aliyun.1" 4 1 true true (sampleWorld (sampleCluster [samplePool "a" 3]))
      "update refused" (sampleWorld (sampleCluster [samplePool "a" 3])).state).2.2.2
      (samplePool "a" 3) [] rfl rfl⟩

end ACK

/-! ## The version helpers -/

/-- The substring test finds exactly the contiguous blocks. -/
theorem containsChars_iff (substr : List Char) :
    ∀ l : List Char, containsChars substr l = true ↔ substr <:+: l := by
  intro l
  induction l with
  | nil =>
    cases substr with
    | nil => simp [containsChars]
    | cons a t => simp [containsChars]
  | cons c cs ih =>
    unfold containsChars
    rw [Bool.or_eq_true, ih, List.isPrefixOf_iff_prefix]
    exact List.infix_cons_iff.symm

theorem Contains_iff (s substr : String) :
    Contains s substr = true ↔ substr.data <:+: s.data :=
  containsChars_iff substr.data s.data

/-! ## Bounded waits -/

theorem RefetchesAtMost.of_appends {σ C α : Type} {m : Run σ C α}
    (h : Appends Call.notByID m) : RefetchesAtMost 0 m := by
  intro w
  rw [refetched_of_appends h w]
  exact Nat.le_refl _

theorem RefetchesAtMost.mono {σ C α : Type} {m : Run σ C α} {a b : Nat}
    (h : RefetchesAtMost a m) (hab : a ≤ b) : RefetchesAtMost b m := by
  intro w
  have := h w
  omega

theorem RefetchesAtMost.sequence {σ C α β : Type} {m : Run σ C α} {k : α → Run σ C β} {a b : Nat}
    (hm : RefetchesAtMost a m) (hk : ∀ x, RefetchesAtMost b (k x)) :
    RefetchesAtMost (a + b) (m >>= k) := by
  intro w
  have h1 := hm w
  rw [Run.bind_apply]
  rcases hmw : m w with ⟨r, w1⟩
  rw [hmw] at h1
  cases r with
  | failed f =>
    simp only [] at h1 ⊢
    omega
  | ok x =>
    have h2 := hk x w1
    simp only [] at h1 ⊢
    omega

/-- A `ByID` adds one re-fetch. -/
theorem RefetchesAtMost.one_ByID {σ C : Type} (client : Client σ C) (id : String) :
    RefetchesAtMost 1 (HostedProviders.ByID client id) := by
  intro w
  unfold HostedProviders.ByID
  rcases client.ByID id w.state with ⟨r, s⟩
  cases r <;> simp [refetched_append, refetched]

/-- A poll loop with `retries` retries re-fetches at most `retries + 1` times,
when each poll re-fetches at most once. -/
theorem RefetchesAtMost.polls {σ C β : Type} {poll : C → Run σ C (C × β)}
    (should : β → Bool) (hpoll : ∀ c, RefetchesAtMost 1 (poll c)) :
    ∀ retries cluster, RefetchesAtMost (retries + 1) (pollLoop poll should retries cluster) := by
  intro retries
  induction retries with
  | zero =>
    intro cluster
    unfold HostedProviders.pollLoop
    refine RefetchesAtMost.mono (RefetchesAtMost.sequence (hpoll cluster) (fun r => ?_))
      (Nat.le_refl (1 + 0))
    cases should r.2
    · exact RefetchesAtMost.of_appends (by simpa using Appends.fail _ _)
    · exact RefetchesAtMost.of_appends (by simpa using Appends.ret _ _)
  | succ n ih =>
    intro cluster
    unfold HostedProviders.pollLoop
    refine RefetchesAtMost.mono (RefetchesAtMost.sequence (hpoll cluster) (fun r => ?_))
      (show 1 + (n + 1) ≤ n + 1 + 1 by omega)
    cases should r.2
    · simpa using ih r.1
    · exact RefetchesAtMost.mono
        (RefetchesAtMost.of_appends (by simpa using Appends.ret _ _)) (Nat.zero_le _)

theorem Fails.bind_left {σ C α β : Type} {m : Run σ C α} (k : α → Run σ C β) (hm : Fails m) :
    Fails (m >>= k) := by
  intro w
  obtain ⟨f, w1, h⟩ := hm w
  exact ⟨f, w1, Run.bind_failed h⟩

theorem Fails.bind_right {σ C α β : Type} (m : Run σ C α) {k : α → Run σ C β}
    (hk : ∀ x, Fails (k x)) : Fails (m >>= k) := by
  intro w
  rw [Run.bind_apply]
  rcases m w with ⟨r, w1⟩
  cases r with
  | failed f => exact ⟨f, w1, rfl⟩
  | ok x => exact hk x w1

/-- A poll loop whose polled value is never accepted is aborted: by a failing
poll or by the timeout. -/
theorem Fails.polls_never {σ C β : Type} {poll : C → Run σ C (C × β)} (should : β → Bool)
    (hpoll : ∀ c r (w w1 : World σ C), poll c w = (Outcome.ok r, w1) → should r.2 = false) :
    ∀ retries cluster, Fails (pollLoop poll should retries cluster) := by
  intro retries
  induction retries with
  | zero =>
    intro cluster w
    unfold HostedProviders.pollLoop
    rw [Run.bind_apply]
    rcases hp : poll cluster w with ⟨r, w1⟩
    cases r with
    | failed f => exact ⟨f, w1, rfl⟩
    | ok x =>
      have := hpoll _ _ _ _ hp
      simp only [this, Bool.false_eq_true, reduceIte]
      exact ⟨Failure.timedOut, w1, rfl⟩
  | succ n ih =>
    intro cluster w
    unfold HostedProviders.pollLoop
    rw [Run.bind_apply]
    rcases hp : poll cluster w with ⟨r, w1⟩
    cases r with
    | failed f => exact ⟨f, w1, rfl⟩
    | ok x =>
      have := hpoll _ _ _ _ hp
      simp only [this, Bool.false_eq_true, reduceIte]
      exact ih x.1 w1

namespace ACK

theorem refetches_pollNodePoolCount {σ : Type} (env : Env σ) (c : Cluster) :
    RefetchesAtMost 1 (pollNodePoolCount env c) := by
  unfold pollNodePoolCount
  exact RefetchesAtMost.sequence (RefetchesAtMost.one_ByID _ _)
    (fun _ => RefetchesAtMost.of_appends (Appends.ret _ _))

theorem refetches_ScaleNodeGroup_poll {σ : Type} (env : Env σ) (nodeCount : Int) (c : Cluster) :
    RefetchesAtMost 1 (ScaleNodeGroup.poll env nodeCount c) := by
  unfold ScaleNodeGroup.poll
  exact RefetchesAtMost.sequence (RefetchesAtMost.one_ByID _ _)
    (fun _ => RefetchesAtMost.of_appends (Appends.ret _ _))

theorem refetches_UpgradeClusterKubernetesVersion_poll {σ : Type} (env : Env σ)
    (upgradeToVersion : String) (c : Cluster) :
    RefetchesAtMost 1 (UpgradeClusterKubernetesVersion.poll env upgradeToVersion c) := by
  unfold UpgradeClusterKubernetesVersion.poll
  exact RefetchesAtMost.sequence (RefetchesAtMost.one_ByID _ _)
    (fun _ => RefetchesAtMost.of_appends (Appends.ret _ _))

/-- The checks of `AddNodePool` and `DeleteNodePool` re-fetch at most once per
poll of their one `Eventually`. -/
theorem refetches_nodePoolChecks {σ : Type} (env : Env σ)
    (updateNodeGroupsList : List NodePoolInfo) (expected : Int) (wait : Bool) (cluster : Cluster) :
    RefetchesAtMost (env.SetTimeout (15 * 60) / 10 + 1) (do
      if true then do
        ExpectNumerically cluster.ACKConfig.NodePoolList.length expected
        ExpectNames NodePoolInfo.Name updateNodeGroupsList 0 cluster.ACKConfig.NodePoolList
      if wait then
        WaitClusterToBeUpgraded env.client cluster.ID
      if true then do
        let cluster ← Eventually (pollNodePoolCount env) (env.SetTimeout (15 * 60)) 10
          (fun n => decide (n = expected)) cluster
        ExpectNames NodePoolInfo.Name updateNodeGroupsList 0
          cluster.ACKStatus.UpstreamSpec.NodePoolList
        pure cluster
      else
        pure cluster : Run σ Cluster Cluster) := by
  cases wait <;> simp only [Bool.false_eq_true, reduceIte] <;>
  · refine RefetchesAtMost.mono ?_ (show 0 + (0 + (0 + (env.SetTimeout (15 * 60) / 10 + 1
        + (0 + 0)))) ≤ env.SetTimeout (15 * 60) / 10 + 1 by omega)
    repeat' first
      | exact RefetchesAtMost.of_appends (Appends.ret _ _)
      | exact RefetchesAtMost.of_appends (Appends.WaitClusterToBeUpgraded _ _ trivial)
      | exact RefetchesAtMost.of_appends (Appends.ExpectNumerically _ _ _)
      | exact RefetchesAtMost.of_appends (Appends.ExpectNames _ _ _ _ _)
      | exact RefetchesAtMost.polls _ (refetches_pollNodePoolCount env) _ _
      | apply RefetchesAtMost.sequence
      | intro _

theorem ScaleNodeGroup_refetches {σ : Type} (env : Env σ) (cluster : Cluster)
    (nodeCount : Int) (wait : Bool) :
    RefetchesAtMost (env.SetTimeout (15 * 60) / 10 + 1)
      (ScaleNodeGroup env cluster nodeCount wait true) := by
  unfold ScaleNodeGroup
  cases wait <;> simp only [Bool.false_eq_true, reduceIte] <;>
  · refine RefetchesAtMost.mono ?_ (show 0 + (0 + (0 + (env.SetTimeout (15 * 60) / 10 + 1)))
        ≤ env.SetTimeout (15 * 60) / 10 + 1 by omega)
    repeat' first
      | exact RefetchesAtMost.of_appends (Appends.ret _ _)
      | exact RefetchesAtMost.of_appends (Appends.Update _ _ _ trivial)
      | exact RefetchesAtMost.of_appends (Appends.WaitClusterToBeUpgraded _ _ trivial)
      | exact RefetchesAtMost.of_appends (appends_expectInstancesNum _ _ _)
      | exact RefetchesAtMost.polls _ (refetches_ScaleNodeGroup_poll env nodeCount) _ _
      | apply RefetchesAtMost.sequence
      | intro _

theorem UpgradeClusterKubernetesVersion_refetches {σ : Type} (env : Env σ) (cluster : Cluster)
    (upgradeToVersion : String) :
    RefetchesAtMost (env.SetTimeout (30 * 60) / 30 + 1)
      (UpgradeClusterKubernetesVersion env cluster upgradeToVersion true) := by
  unfold UpgradeClusterKubernetesVersion
  simp only [reduceIte]
  refine RefetchesAtMost.mono ?_ (show 0 + (0 + (env.SetTimeout (30 * 60) / 30 + 1))
      ≤ env.SetTimeout (30 * 60) / 30 + 1 by omega)
  repeat' first
    | exact RefetchesAtMost.of_appends (Appends.Update _ _ _ trivial)
    | exact RefetchesAtMost.of_appends (Appends.ExpectEqual _ _ _)
    | exact RefetchesAtMost.polls _
        (refetches_UpgradeClusterKubernetesVersion_poll env upgradeToVersion) _ _
    | apply RefetchesAtMost.sequence
    | intro _

theorem AddNodePool_refetches {σ : Type} (env : Env σ) (cluster : Cluster)
    (increaseBy : Int) (wait : Bool) :
    RefetchesAtMost (env.SetTimeout (15 * 60) / 10 + 1)
      (AddNodePool env cluster increaseBy wait true) := by
  intro w
  cases hT : (env.LoadConfig w.state).NodePoolList with
  | nil =>
    unfold AddNodePool
    rw [Run.bind_apply]
    simp [LoadConfig, hT, Run.fail]
  | cons ngTemplate others =>
    rw [AddNodePool_eq env cluster increaseBy wait true w ngTemplate others hT]
    exact RefetchesAtMost.mono
      (RefetchesAtMost.sequence (RefetchesAtMost.of_appends (Appends.Update env.client _ _ trivial))
        (fun c => refetches_nodePoolChecks env _ _ wait c))
      (Nat.le_of_eq (Nat.zero_add _))
      { w with state := stateAfterNames env.AppendRandomString "ng" increaseBy.toNat w.state }

theorem DeleteNodePool_refetches {σ : Type} (env : Env σ) (cluster : Cluster) (wait : Bool) :
    RefetchesAtMost (env.SetTimeout (15 * 60) / 10 + 1)
      (DeleteNodePool env cluster wait true) := by
  intro w
  cases hL : cluster.ACKConfig.NodePoolList with
  | nil =>
    unfold DeleteNodePool
    simp [hL, Run.fail]
  | cons first rest =>
    rw [DeleteNodePool_eq env cluster wait true first rest hL]
    exact RefetchesAtMost.mono
      (RefetchesAtMost.sequence (RefetchesAtMost.of_appends (Appends.Update env.client _ _ trivial))
        (fun c => refetches_nodePoolChecks env _ _ wait c))
      (Nat.le_of_eq (Nat.zero_add _)) w

/-- The checks of `AddNodePool` and `DeleteNodePool` are aborted when no
re-fetched cluster has the expected number of upstream node pools. -/
theorem fails_nodePoolChecks {σ : Type} (env : Env σ)
    (updateNodeGroupsList : List NodePoolInfo) (expected : Int) (wait : Bool) (cluster : Cluster)
    (hNever : ∀ id s c s1, env.client.ByID id s = (Except.ok c, s1) →
      (c.ACKStatus.UpstreamSpec.NodePoolList.length : Int) ≠ expected) :
    Fails (do
      if true then do
        ExpectNumerically cluster.ACKConfig.NodePoolList.length expected
        ExpectNames NodePoolInfo.Name updateNodeGroupsList 0 cluster.ACKConfig.NodePoolList
      if wait then
        WaitClusterToBeUpgraded env.client cluster.ID
      if true then do
        let cluster ← Eventually (pollNodePoolCount env) (env.SetTimeout (15 * 60)) 10
          (fun n => decide (n = expected)) cluster
        ExpectNames NodePoolInfo.Name updateNodeGroupsList 0
          cluster.ACKStatus.UpstreamSpec.NodePoolList
        pure cluster
      else
        pure cluster : Run σ Cluster Cluster) := by
  have hE : ∀ c, Fails (Eventually (pollNodePoolCount env) (env.SetTimeout (15 * 60)) 10
      (fun n => decide (n = expected)) c) := by
    intro c
    refine Fails.polls_never _ ?_ _ _
    intro c0 r w0 w1 hp
    unfold pollNodePoolCount at hp
    obtain ⟨fetched, w2, h1, h2⟩ := Run.bind_eq_ok hp
    obtain ⟨s, hB, -⟩ := ByID_eq_ok h1
    simp only [Run.pure_apply, Prod.mk.injEq, Outcome.ok.injEq] at h2
    rw [← h2.1]
    simpa using hNever _ _ _ _ hB
  cases wait <;> simp only [Bool.false_eq_true, reduceIte] <;>
    repeat' first
      | exact Fails.bind_left _ (hE _)
      | apply Fails.bind_right
      | intro _

theorem ScaleNodeGroup_fails {σ : Type} (env : Env σ) (cluster : Cluster)
    (nodeCount : Int) (wait : Bool)
    (hNever : ∀ id s c s1, env.client.ByID id s = (Except.ok c, s1) →
      ∃ ng ∈ c.ACKStatus.UpstreamSpec.NodePoolList, ng.InstancesNum ≠ nodeCount) :
    Fails (ScaleNodeGroup env cluster nodeCount wait true) := by
  have hE : ∀ c, Fails (Eventually (ScaleNodeGroup.poll env nodeCount)
      (env.SetTimeout (15 * 60)) 10 (fun b => b) c) := by
    intro c
    refine Fails.polls_never _ ?_ _ _
    intro c0 r w0 w1 hp
    unfold ScaleNodeGroup.poll at hp
    obtain ⟨fetched, w2, h1, h2⟩ := Run.bind_eq_ok hp
    obtain ⟨s, hB, -⟩ := ByID_eq_ok h1
    simp only [Run.pure_apply, Prod.mk.injEq, Outcome.ok.injEq] at h2
    rw [← h2.1]
    obtain ⟨ng, hng, hne⟩ := hNever _ _ _ _ hB
    rw [← Bool.not_eq_true, converged_iff]
    exact fun hall => hne (hall ng hng)
  unfold ScaleNodeGroup
  cases wait <;> simp only [Bool.false_eq_true, reduceIte] <;>
    repeat' first
      | exact hE _
      | apply Fails.bind_right
      | intro _

theorem UpgradeClusterKubernetesVersion_fails {σ : Type} (env : Env σ) (cluster : Cluster)
    (upgradeToVersion : String)
    (hNever : ∀ id s c s1, env.client.ByID id s = (Except.ok c, s1) →
      c.ACKStatus.UpstreamSpec.KubernetesVersion ≠ upgradeToVersion) :
    Fails (UpgradeClusterKubernetesVersion env cluster upgradeToVersion true) := by
  have hE : ∀ c, Fails (Eventually (UpgradeClusterKubernetesVersion.poll env upgradeToVersion)
      (env.SetTimeout (30 * 60)) 30 (fun b => b) c) := by
    intro c
    refine Fails.polls_never _ ?_ _ _
    intro c0 r w0 w1 hp
    unfold UpgradeClusterKubernetesVersion.poll at hp
    obtain ⟨fetched, w2, h1, h2⟩ := Run.bind_eq_ok hp
    obtain ⟨s, hB, -⟩ := ByID_eq_ok h1
    simp only [Run.pure_apply, Prod.mk.injEq, Outcome.ok.injEq] at h2
    rw [← h2.1]
    simp [hNever _ _ _ _ hB]
  unfold UpgradeClusterKubernetesVersion
  simp only [reduceIte]
  repeat' first
    | exact hE _
    | apply Fails.bind_right
    | intro _

theorem AddNodePool_fails {σ : Type} (env : Env σ) (cluster : Cluster)
    (increaseBy : Int) (wait : Bool)
    (hNever : ∀ id s c s1, env.client.ByID id s = (Except.ok c, s1) →
      (c.ACKStatus.UpstreamSpec.NodePoolList.length : Int)
        ≠ cluster.ACKConfig.NodePoolList.length + increaseBy) :
    Fails (AddNodePool env cluster increaseBy wait true) := by
  intro w
  cases hT : (env.LoadConfig w.state).NodePoolList with
  | nil =>
    unfold AddNodePool
    rw [Run.bind_apply]
    simp [LoadConfig, hT, Run.fail]
  | cons ngTemplate others =>
    rw [AddNodePool_eq env cluster increaseBy wait true w ngTemplate others hT]
    exact Fails.bind_right _ (fun c => fails_nodePoolChecks env _ _ wait c hNever) _

theorem DeleteNodePool_fails {σ : Type} (env : Env σ) (cluster : Cluster) (wait : Bool)
    (hNever : ∀ id s c s1, env.client.ByID id s = (Except.ok c, s1) →
      (c.ACKStatus.UpstreamSpec.NodePoolList.length : Int)
        ≠ cluster.ACKConfig.NodePoolList.length - 1) :
    Fails (DeleteNodePool env cluster wait true) := by
  intro w
  cases hL : cluster.ACKConfig.NodePoolList with
  | nil =>
    unfold DeleteNodePool
    simp [hL, Run.fail]
  | cons first rest =>
    rw [DeleteNodePool_eq env cluster wait true first rest hL]
    exact Fails.bind_right _ (fun c => fails_nodePoolChecks env _ _ wait c hNever) _

end ACK

namespace CCE

theorem refetches_upgrade_poll {σ : Type} (env : Env σ)
    (upgradeToVersion : String) (c : Cluster) :
    RefetchesAtMost 1 (UpgradeClusterKubernetesVersion.poll env upgradeToVersion c) := by
  unfold UpgradeClusterKubernetesVersion.poll
  exact RefetchesAtMost.sequence (RefetchesAtMost.one_ByID _ _)
    (fun _ => RefetchesAtMost.of_appends (Appends.ret _ _))

theorem upgrade_refetches {σ : Type} (env : Env σ) (cluster : Cluster)
    (upgradeToVersion : String) :
    RefetchesAtMost (env.SetTimeout (15 * 60) / 30 + 1)
      (UpgradeClusterKubernetesVersion env cluster upgradeToVersion true) := by
  unfold UpgradeClusterKubernetesVersion
  simp only [reduceIte]
  refine RefetchesAtMost.mono ?_ (show 0 + (0 + (env.SetTimeout (15 * 60) / 30 + 1))
      ≤ env.SetTimeout (15 * 60) / 30 + 1 by omega)
  repeat' first
    | exact RefetchesAtMost.of_appends (Appends.Update _ _ _ trivial)
    | exact RefetchesAtMost.of_appends (Appends.ExpectEqual _ _ _)
    | exact RefetchesAtMost.polls _
        (refetches_upgrade_poll env upgradeToVersion) _ _
    | apply RefetchesAtMost.sequence
    | intro _

theorem upgrade_fails {σ : Type} (env : Env σ) (cluster : Cluster)
    (upgradeToVersion : String)
    (hNever : ∀ id s c s1, env.client.ByID id s = (Except.ok c, s1) →
      c.CCEStatus.UpstreamSpec.Version ≠ upgradeToVersion) :
    Fails (UpgradeClusterKubernetesVersion env cluster upgradeToVersion true) := by
  have hE : ∀ c, Fails (Eventually (UpgradeClusterKubernetesVersion.poll env upgradeToVersion)
      (env.SetTimeout (15 * 60)) 30 (fun b => b) c) := by
    intro c
    refine Fails.polls_never _ ?_ _ _
    intro c0 r w0 w1 hp
    unfold UpgradeClusterKubernetesVersion.poll at hp
    obtain ⟨fetched, w2, h1, h2⟩ := Run.bind_eq_ok hp
    obtain ⟨s, hB, -⟩ := ByID_eq_ok h1
    simp only [Run.pure_apply, Prod.mk.injEq, Outcome.ok.injEq] at h2
    rw [← h2.1]
    simp [hNever _ _ _ _ hB]
  unfold UpgradeClusterKubernetesVersion
  simp only [reduceIte]
  repeat' first
    | exact hE _
    | apply Fails.bind_right
    | intro _

end CCE

/-! ## Claims on the version helpers and the CCE helper -/

/-- C11: with a non-empty DOWNSTREAM_K8S_MINOR_VERSION override `v`, the
`GetK8sVersion` of the ACK, of the CCE and of the TKE helper returns `v` with a
nil error for both values of `forUpgrade`, and leaves the server as it was: no
query for the server version or for the supported versions is made. -/
theorem GetK8sVersion_returns_override {σ : Type} (h : Helpers σ) (forUpgrade : Bool)
    (srv : Server σ) (hv : h.DownstreamK8sMinorVersion ≠ "") :
    ACK.GetK8sVersion h forUpgrade srv = (Except.ok h.DownstreamK8sMinorVersion, srv) ∧
    CCE.GetK8sVersion h forUpgrade srv = (Except.ok h.DownstreamK8sMinorVersion, srv) ∧
    TKE.GetK8sVersion h forUpgrade srv = (Except.ok h.DownstreamK8sMinorVersion, srv) := by
  refine ⟨?_, ?_, ?_⟩
  · unfold ACK.GetK8sVersion
    rw [if_pos hv]
  · unfold CCE.GetK8sVersion
    rw [if_pos hv]
  · unfold TKE.GetK8sVersion
    rw [if_pos hv]

/-- C11 at a concrete input: the override "1.32.7-aliyun.1", for an upgrade. -/
theorem GetK8sVersion_returns_override_witness :
    (sampleHelpers "1.32.7-aliyun.1" "v2.12.1").DownstreamK8sMinorVersion ≠ "" ∧
    ACK.GetK8sVersion (sampleHelpers "1.32.7-aliyun.1" "v2.12.1") true sampleServer
      = (Except.ok (sampleHelpers "1.32.7-aliyun.1" "v2.12.1").DownstreamK8sMinorVersion,
          sampleServer) ∧
    CCE.GetK8sVersion (sampleHelpers "1.32.7-aliyun.1" "v2.12.1") true sampleServer
      = (Except.ok (sampleHelpers "1.32.7-aliyun.1" "v2.12.1").DownstreamK8sMinorVersion,
          sampleServer) ∧
    TKE.GetK8sVersion (sampleHelpers "1.32.7-aliyun.1" "v2.12.1") true sampleServer
      = (Except.ok (sampleHelpers "1.32.7-aliyun.1" "v2.12.1").DownstreamK8sMinorVersion,
          sampleServer) :=
  ⟨by decide, GetK8sVersion_returns_override (sampleHelpers "1.32.7-aliyun.1" "v2.12.1") true
    sampleServer (by decide)⟩


/-! ## The sort of `ListCCEAvailableVersions` -/

theorem swapWithPrevious_perm {α : Type} : ∀ (j : Nat) (l : List α),
    (swapWithPrevious j l).Perm l := by
  intro j l
  induction l generalizing j with
  | nil => cases j <;> simp [swapWithPrevious]
  | cons a t ih =>
    match j, t with
    | 0, _ => simp [swapWithPrevious]
    | 1, [] => simp [swapWithPrevious]
    | 1, b :: rest =>
      simp only [swapWithPrevious]
      exact List.Perm.swap a b rest
    | j + 2, t =>
      simp only [swapWithPrevious]
      exact List.Perm.cons a (ih (j + 1))

theorem insertionSort_sink_perm {α : Type} (less : Nat → Nat → Bool) : ∀ (j : Nat) (l : List α),
    (insertionSort.sink less j l).Perm l := by
  intro j
  induction j with
  | zero => intro l; simp [insertionSort.sink]
  | succ n ih =>
    intro l
    unfold insertionSort.sink
    split
    · exact (ih _).trans (swapWithPrevious_perm _ _)
    · exact List.Perm.refl _

theorem insertionSort_rounds_perm {α : Type} (less : Nat → Nat → Bool) :
    ∀ (left i : Nat) (l : List α), (insertionSort.rounds less left i l).Perm l := by
  intro left
  induction left with
  | zero => intro i l; simp [insertionSort.rounds]
  | succ n ih =>
    intro i l
    unfold insertionSort.rounds
    exact (ih _ _).trans (insertionSort_sink_perm less i l)

/-- The sort only rearranges the list, whatever `less` is. -/
theorem SliceStable_perm {α : Type} (l : List α) (less : Nat → Nat → Bool) :
    (SliceStable l less).Perm l :=
  insertionSort_rounds_perm less _ _ l

namespace CCE

/-! ## The CCE helper: upgrade targets -/

/-- Every list of `ListCCEAllVersions` is made of the five versions it names. -/
theorem allVersions_subset (serverVersion : String) :
    ∀ c ∈ ListCCEAllVersions.allVersions serverVersion,
      c ∈ ["v1.32", "v1.31", "v1.30", "v1.29", "v1.28"] := by
  intro c hc
  unfold ListCCEAllVersions.allVersions at hc
  split_ifs at hc <;> simp at hc ⊢ <;> tauto

/-- The test of the second loop, on a candidate with a positive minor number:
the candidate is kept exactly when it is strictly newer and at most one minor
ahead. -/
theorem skip_iff {V : Type} (semver : Semver V) (currentVersion v : V)
    (hpos : 1 ≤ semver.Minor v) :
    ((semver.Minor v + 2 ^ 64 - 1) % 2 ^ 64 > semver.Minor currentVersion
        ∨ semver.Compare v currentVersion = 0 ∨ semver.Compare v currentVersion = -1)
      ↔ ¬ (semver.Compare v currentVersion = 1
            ∧ semver.Minor v ≤ semver.Minor currentVersion + 1) := by
  have hlt := semver.Minor_lt v
  have hmod : (semver.Minor v + 2 ^ 64 - 1) % 2 ^ 64 = semver.Minor v - 1 := by
    have e : semver.Minor v + 2 ^ 64 - 1 = (semver.Minor v - 1) + 2 ^ 64 := by omega
    rw [e, Nat.add_mod_right, Nat.mod_eq_of_lt (by omega)]
  rw [hmod]
  rcases semver.Compare_range v currentVersion with hc | hc | hc <;> rw [hc] <;>
    constructor <;> intro h <;> omega

theorem availableVersions_cons {V : Type} (semver : Semver V) (currentVersion v : V)
    (rest : List V) :
    ListCCEAvailableVersions.availableVersions semver currentVersion (v :: rest)
      = if (semver.Minor v + 2 ^ 64 - 1) % 2 ^ 64 > semver.Minor currentVersion
            ∨ semver.Compare v currentVersion = 0 ∨ semver.Compare v currentVersion = -1 then
          ListCCEAvailableVersions.availableVersions semver currentVersion rest
        else
          ("v" ++ toString (semver.Major v) ++ "." ++ toString (semver.Minor v)) ::
            ListCCEAvailableVersions.availableVersions semver currentVersion rest := rfl

/-- The two loops of the helper compute the upgrade targets of the
specification, on candidates whose minor number is positive. -/
theorem availableVersions_eq_upgradeTargets {V : Type} (semver : Semver V)
    (currentVersion : V) :
    ∀ candidates : List String,
      (∀ c ∈ candidates, ∀ v, semver.NewVersion c = Except.ok v → 1 ≤ semver.Minor v) →
      ListCCEAvailableVersions.availableVersions semver currentVersion
          (ListCCEAvailableVersions.validMasterVersions semver candidates)
        = upgradeTargets semver currentVersion candidates := by
  intro candidates
  induction candidates with
  | nil => intro _; rfl
  | cons c rest ih =>
    intro hpos
    have ihr := ih (fun c hc => hpos c (List.mem_cons_of_mem _ hc))
    unfold ListCCEAvailableVersions.validMasterVersions upgradeTargets
    cases hv : semver.NewVersion c with
    | error e => simpa using ihr
    | ok v =>
      have h1 := hpos c (List.mem_cons_self _ _) v hv
      show ListCCEAvailableVersions.availableVersions semver currentVersion
          (v :: ListCCEAvailableVersions.validMasterVersions semver rest)
        = if semver.Compare v currentVersion = 1
              ∧ semver.Minor v ≤ semver.Minor currentVersion + 1 then
            ("v" ++ toString (semver.Major v) ++ "." ++ toString (semver.Minor v)) ::
              upgradeTargets semver currentVersion rest
          else upgradeTargets semver currentVersion rest
      rw [availableVersions_cons]
      by_cases hk : semver.Compare v currentVersion = 1
          ∧ semver.Minor v ≤ semver.Minor currentVersion + 1
      · rw [if_neg (fun hs => (skip_iff semver currentVersion v h1).mp hs hk), if_pos hk, ihr]
      · rw [if_pos ((skip_iff semver currentVersion v h1).mpr hk), if_neg hk, ihr]

/-- What is in the list of upgrade targets. -/
theorem mem_upgradeTargets {V : Type} (semver : Semver V) (currentVersion : V) (s : String) :
    ∀ candidates : List String,
      s ∈ upgradeTargets semver currentVersion candidates ↔
        ∃ c ∈ candidates, ∃ v, semver.NewVersion c = Except.ok v ∧
          semver.Compare v currentVersion = 1 ∧
          semver.Minor v ≤ semver.Minor currentVersion + 1 ∧
          s = "v" ++ toString (semver.Major v) ++ "." ++ toString (semver.Minor v) := by
  intro candidates
  induction candidates with
  | nil => simp [upgradeTargets]
  | cons c rest ih =>
    unfold upgradeTargets
    cases hv : semver.NewVersion c with
    | error e =>
      simp only [ih, List.mem_cons, exists_eq_or_imp, hv]
      simp
    | ok v =>
      simp only []
      by_cases hk : semver.Compare v currentVersion = 1
          ∧ semver.Minor v ≤ semver.Minor currentVersion + 1
      · rw [if_pos hk]
        simp only [List.mem_cons, ih, exists_eq_or_imp, hv, Except.ok.injEq, exists_eq_left']
        constructor
        · rintro (h | h)
          · exact Or.inl ⟨hk.1, hk.2, h⟩
          · exact Or.inr h
        · rintro (h | h)
          · exact Or.inl h.2.2
          · exact Or.inr h
      · rw [if_neg hk]
        simp only [List.mem_cons, ih, exists_eq_or_imp, hv, Except.ok.injEq, exists_eq_left']
        constructor
        · intro h
          exact Or.inr h
        · rintro (h | h)
          · exact absurd ⟨h.1, h.2.1⟩ hk
          · exact h

/-- C12: for a cluster whose current version parses, with a readable server
version and a semver parser that reads a positive minor number from the five
versions `ListCCEAllVersions` names: the list that `ListCCEAvailableVersions`
hands to the UI-support filter is a rearrangement of the upgrade targets of the
candidates returned by `ListCCEAllVersions`, so it holds "vMAJOR.MINOR" exactly
for the candidates that parse, are strictly newer than the current version and
have a minor number of at most the current minor plus one. -/
theorem ListCCEAvailableVersions_lists_upgrade_targets {σ V : Type} (semver : Semver V)
    (h : Helpers σ) (cluster : Cluster) (srv : Server σ) (currentVersion : V)
    (serverVersion : String) (s1 : σ)
    (hcur : semver.NewVersion cluster.Version.GitVersion = Except.ok currentVersion)
    (hsrv : h.GetRancherServerVersion srv.state = (Except.ok serverVersion, s1))
    (hminor : ∀ c ∈ ["v1.32", "v1.31", "v1.30", "v1.29", "v1.28"], ∀ v,
      semver.NewVersion c = Except.ok v → 1 ≤ semver.Minor v) :
    ∃ candidates passed : List String,
      (ListCCEAllVersions h srv).1 = Except.ok candidates ∧
      (ListCCEAvailableVersions semver h cluster srv).2.queries = srv.queries ++
        [Query.GetRancherServerVersion,
          Query.FilterUIUnsupportedVersions (ListCCEAllVersions.allVersions serverVersion),
          Query.FilterUIUnsupportedVersions passed] ∧
      (ListCCEAvailableVersions semver h cluster srv).1
        = Except.ok (FilterUIUnsupportedVersions h passed (ListCCEAllVersions h srv).2).1 ∧
      passed.Perm (upgradeTargets semver currentVersion candidates) ∧
      ∀ s, s ∈ passed ↔
        ∃ c ∈ candidates, ∃ v, semver.NewVersion c = Except.ok v ∧
          semver.Compare v currentVersion = 1 ∧
          semver.Minor v ≤ semver.Minor currentVersion + 1 ∧
          s = "v" ++ toString (semver.Major v) ++ "." ++ toString (semver.Minor v) := by
  have hall : ListCCEAllVersions h srv
      = (Except.ok ((ListCCEAllVersions.allVersions serverVersion).filter (h.UISupported s1).1),
          { state := (h.UISupported s1).2,
            queries := srv.queries ++ [Query.GetRancherServerVersion,
              Query.FilterUIUnsupportedVersions (ListCCEAllVersions.allVersions serverVersion)] }) := by
    simp only [ListCCEAllVersions, GetRancherServerVersion, hsrv, FilterUIUnsupportedVersions,
      List.append_assoc, List.singleton_append]
  have hpos : ∀ c ∈ (ListCCEAllVersions.allVersions serverVersion).filter (h.UISupported s1).1,
      ∀ v, semver.NewVersion c = Except.ok v → 1 ≤ semver.Minor v := by
    intro c hc v hv
    exact hminor c (allVersions_subset serverVersion c (List.mem_filter.mp hc).1) v hv
  have heq := availableVersions_eq_upgradeTargets semver currentVersion _ hpos
  refine ⟨(ListCCEAllVersions.allVersions serverVersion).filter (h.UISupported s1).1,
    SliceStable (upgradeTargets semver currentVersion
      ((ListCCEAllVersions.allVersions serverVersion).filter (h.UISupported s1).1))
      (fun i j => decide (i > j)), ?_, ?_, ?_, SliceStable_perm _ _, ?_⟩
  · rw [hall]
  · simp only [ListCCEAvailableVersions, hcur, hall, heq, FilterUIUnsupportedVersions,
      List.append_assoc, List.singleton_append, List.cons_append, List.nil_append]
  · simp only [ListCCEAvailableVersions, hcur, hall, heq]
  · intro s
    rw [(SliceStable_perm _ _).mem_iff]
    exact mem_upgradeTargets semver currentVersion s _

/-- C12 at a concrete input: a cluster at "v1.30.4-r0" on a server "v2.10.3":
of the candidates "v1.31", "v1.30", "v1.29", "v1.28" only "v1.31" is handed to
the filter. -/
theorem ListCCEAvailableVersions_lists_upgrade_targets_witness :
    sampleSemver.NewVersion (sampleCluster "v1.30").Version.GitVersion = Except.ok (1, 30, 4) ∧
    (sampleHelpers "" "v2.10.3").GetRancherServerVersion sampleServer.state
      = (Except.ok "v2.10.3", ()) ∧
    (ListCCEAvailableVersions sampleSemver (sampleHelpers "" "v2.10.3") (sampleCluster "v1.30")
        sampleServer).2.queries
      = [Query.GetRancherServerVersion,
          Query.FilterUIUnsupportedVersions ["v1.31", "v1.30", "v1.29", "v1.28"],
          Query.FilterUIUnsupportedVersions ["v1.31"]] ∧
    ∃ candidates passed : List String,
      (ListCCEAllVersions (sampleHelpers "" "v2.10.3") sampleServer).1 = Except.ok candidates ∧
      (ListCCEAvailableVersions sampleSemver (sampleHelpers "" "v2.10.3") (sampleCluster "v1.30")
          sampleServer).2.queries = sampleServer.queries ++
        [Query.GetRancherServerVersion,
          Query.FilterUIUnsupportedVersions (ListCCEAllVersions.allVersions "v2.10.3"),
          Query.FilterUIUnsupportedVersions passed] ∧
      (ListCCEAvailableVersions sampleSemver (sampleHelpers "" "v2.10.3") (sampleCluster "v1.30")
          sampleServer).1
        = Except.ok (FilterUIUnsupportedVersions (sampleHelpers "" "v2.10.3") passed
            (ListCCEAllVersions (sampleHelpers "" "v2.10.3") sampleServer).2).1 ∧
      passed.Perm (upgradeTargets sampleSemver (1, 30, 4) candidates) ∧
      ∀ s, s ∈ passed ↔
        ∃ c ∈ candidates, ∃ v, sampleSemver.NewVersion c = Except.ok v ∧
          sampleSemver.Compare v (1, 30, 4) = 1 ∧
          sampleSemver.Minor v ≤ sampleSemver.Minor (1, 30, 4) + 1 ∧
          s = "v" ++ toString (sampleSemver.Major v) ++ "." ++ toString (sampleSemver.Minor v) :=
  ⟨rfl, rfl, rfl,
    ListCCEAvailableVersions_lists_upgrade_targets sampleSemver (sampleHelpers "" "v2.10.3")
      (sampleCluster "v1.30") sampleServer (1, 30, 4) "v2.10.3" () rfl rfl
      (by
        intro c hc v hv
        simp only [List.mem_cons, List.mem_singleton, List.not_mem_nil, or_false] at hc
        rcases hc with rfl | rfl | rfl | rfl | rfl <;>
          · simp only [sampleSemver, Except.ok.injEq] at hv
            subst hv
            decide)⟩

end CCE

namespace ACK

/-- C16: `ListACKAllVersions` returns the server-version error and no list when
the server version cannot be read, having asked nothing else.  When the server
version is `serverVersion`, it returns with a nil error what the UI-support
filter makes of the candidate list, and the candidate list is decided by the
first substring of "2.12", "2.11", "2.10" (in this order) that occurs in
`serverVersion`: three, two or one version, and the three-version list when
none occurs. -/
theorem ListACKAllVersions_candidates {σ : Type} (h : Helpers σ) (srv : Server σ) :
    (∀ err s1, h.GetRancherServerVersion srv.state = (Except.error err, s1) →
      ListACKAllVersions h srv = (Except.error err,
        { state := s1, queries := srv.queries ++ [Query.GetRancherServerVersion] })) ∧
    (∀ serverVersion s1, h.GetRancherServerVersion srv.state = (Except.ok serverVersion, s1) →
      ∃ candidates : List String,
        ListACKAllVersions h srv
          = (Except.ok (FilterUIUnsupportedVersions h candidates
                { state := s1, queries := srv.queries ++ [Query.GetRancherServerVersion] }).1,
              (FilterUIUnsupportedVersions h candidates
                { state := s1, queries := srv.queries ++ [Query.GetRancherServerVersion] }).2) ∧
        (ListACKAllVersions h srv).2.queries = srv.queries ++
          [Query.GetRancherServerVersion, Query.FilterUIUnsupportedVersions candidates] ∧
        ("2.12".data <:+: serverVersion.data →
          candidates = ["1.31.9-aliyun.1", "1.32.7-aliyun.1", "1.33.3-aliyun.1"]) ∧
        (¬ "2.12".data <:+: serverVersion.data → "2.11".data <:+: serverVersion.data →
          candidates = ["1.31.9-aliyun.1", "1.32.7-aliyun.1"]) ∧
        (¬ "2.12".data <:+: serverVersion.data → ¬ "2.11".data <:+: serverVersion.data →
          "2.10".data <:+: serverVersion.data → candidates = ["1.31.9-aliyun.1"]) ∧
        (¬ "2.12".data <:+: serverVersion.data → ¬ "2.11".data <:+: serverVersion.data →
          ¬ "2.10".data <:+: serverVersion.data →
          candidates = ["1.31.9-aliyun.1", "1.32.7-aliyun.1", "1.33.3-aliyun.1"])) := by
  constructor
  · intro err s1 hs
    simp only [ListACKAllVersions, GetRancherServerVersion, hs]
  · intro serverVersion s1 hs
    refine ⟨ListACKAllVersions.allVersions serverVersion, ?_, ?_, ?_, ?_, ?_, ?_⟩
    · simp only [ListACKAllVersions, GetRancherServerVersion, hs]
    · simp only [ListACKAllVersions, GetRancherServerVersion, hs, FilterUIUnsupportedVersions,
        List.append_assoc, List.singleton_append]
    · intro h12
      simp only [ListACKAllVersions.allVersions, (Contains_iff _ _).mpr h12, if_true]
    · intro h12 h11
      have n12 : Contains serverVersion "2.12" = false := by
        rw [← Bool.not_eq_true, Contains_iff]; exact h12
      simp [ListACKAllVersions.allVersions, n12, (Contains_iff _ _).mpr h11]
    · intro h12 h11 h10
      have n12 : Contains serverVersion "2.12" = false := by
        rw [← Bool.not_eq_true, Contains_iff]; exact h12
      have n11 : Contains serverVersion "2.11" = false := by
        rw [← Bool.not_eq_true, Contains_iff]; exact h11
      simp [ListACKAllVersions.allVersions, n12, n11, (Contains_iff _ _).mpr h10]
    · intro h12 h11 h10
      have n12 : Contains serverVersion "2.12" = false := by
        rw [← Bool.not_eq_true, Contains_iff]; exact h12
      have n11 : Contains serverVersion "2.11" = false := by
        rw [← Bool.not_eq_true, Contains_iff]; exact h11
      have n10 : Contains serverVersion "2.10" = false := by
        rw [← Bool.not_eq_true, Contains_iff]; exact h10
      simp [ListACKAllVersions.allVersions, n12, n11, n10]

/-- C16 at concrete inputs: a server "v2.11.2-2.12" holds both "2.12" and
"2.11" and gets the three-version list; an unreadable server version gives the
error. -/
theorem ListACKAllVersions_candidates_witness :
    (sampleHelpers "" "v2.11.2-2.12").GetRancherServerVersion sampleServer.state
      = (Except.ok "v2.11.2-2.12", ()) ∧
    unreadableHelpers.GetRancherServerVersion sampleServer.state
      = (Except.error "server version unavailable", ()) ∧
    ListACKAllVersions unreadableHelpers sampleServer
      = (Except.error "server version unavailable",
          { state := (), queries := sampleServer.queries ++ [Query.GetRancherServerVersion] }) ∧
    (ListACKAllVersions (sampleHelpers "" "v2.11.2-2.12") sampleServer).2.queries
      = [Query.GetRancherServerVersion, Query.FilterUIUnsupportedVersions
          ["1.31.9-aliyun.1", "1.32.7-aliyun.1", "1.33.3-aliyun.1"]] ∧
    ∃ candidates : List String,
      ListACKAllVersions (sampleHelpers "" "v2.11.2-2.12") sampleServer
        = (Except.ok (FilterUIUnsupportedVersions (sampleHelpers "" "v2.11.2-2.12") candidates
              { state := (), queries := sampleServer.queries ++ [Query.GetRancherServerVersion] }).1,
            (FilterUIUnsupportedVersions (sampleHelpers "" "v2.11.2-2.12") candidates
              { state := (),
                queries := sampleServer.queries ++ [Query.GetRancherServerVersion] }).2) ∧
      (ListACKAllVersions (sampleHelpers "" "v2.11.2-2.12") sampleServer).2.queries
        = sampleServer.queries ++
          [Query.GetRancherServerVersion, Query.FilterUIUnsupportedVersions candidates] ∧
      ("2.12".data <:+: "v2.11.2-2.12".data →
        candidates = ["1.31.9-aliyun.1", "1.32.7-aliyun.1", "1.33.3-aliyun.1"]) ∧
      (¬ "2.12".data <:+: "v2.11.2-2.12".data → "2.11".data <:+: "v2.11.2-2.12".data →
        candidates = ["1.31.9-aliyun.1", "1.32.7-aliyun.1"]) ∧
      (¬ "2.12".data <:+: "v2.11.2-2.12".data → ¬ "2.11".data <:+: "v2.11.2-2.12".data →
        "2.10".data <:+: "v2.11.2-2.12".data → candidates = ["1.31.9-aliyun.1"]) ∧
      (¬ "2.12".data <:+: "v2.11.2-2.12".data → ¬ "2.11".data <:+: "v2.11.2-2.12".data →
        ¬ "2.10".data <:+: "v2.11.2-2.12".data →
        candidates = ["1.31.9-aliyun.1", "1.32.7-aliyun.1", "1.33.3-aliyun.1"]) :=
  ⟨rfl, rfl,
    (ListACKAllVersions_candidates unreadableHelpers sampleServer).1 _ _ rfl, rfl,
    (ListACKAllVersions_candidates (sampleHelpers "" "v2.11.2-2.12") sampleServer).2 _ _ rfl⟩

end ACK

/-- An `Update` is the first call its computation adds, with the two arguments
it was given. -/
theorem calls_Update_bind {σ C α : Type} (client : Client σ C) (existing updates : C)
    (k : C → Run σ C α) (hk : ∀ c, Appends (fun _ => True) (k c)) (w : World σ C) :
    ∃ later, ((Update client existing updates >>= k) w).2.calls
      = w.calls ++ Call.Update existing updates :: later := by
  rw [Run.bind_apply]
  unfold Update
  rcases client.Update existing updates w.state with ⟨r, s⟩
  cases r with
  | error e => exact ⟨[], rfl⟩
  | ok c =>
    obtain ⟨l, hl, -⟩ := hk c { state := s, calls := w.calls ++ [Call.Update existing updates] }
    refine ⟨l, ?_⟩
    simp only []
    rw [hl, List.append_assoc, List.singleton_append]

namespace CCE

/-- C13 (code as it is): a template with the node pools `np` and `np2` and
`ngCount = 1`.  `AddNodePoolToConfig` returns, with a nil error, a config whose
node-pool list is the one new pool `np-a`, a copy of the first pool under a
generated name; the two original pools are not in the list, which should hold
them followed by the new pool.  Every other field is unchanged. -/
theorem AddNodePoolToConfig_drops_original_pools :
    AddNodePoolToConfig sampleAppendRandomString
        (sampleClusterConfig [sampleNodePool "np", sampleNodePool "np2"]) 1 ["-a", "-b"]
      = (Outcome.ok (sampleClusterConfig [sampleNodePool "np-a"]), ["-b"]) ∧
    (sampleClusterConfig [sampleNodePool "np-a"]).NodePools.length = 1 ∧
    sampleNodePool "np" ∉ (sampleClusterConfig [sampleNodePool "np-a"]).NodePools ∧
    sampleNodePool "np2" ∉ (sampleClusterConfig [sampleNodePool "np-a"]).NodePools ∧
    sampleClusterConfig [sampleNodePool "np-a"]
      ≠ sampleClusterConfig [sampleNodePool "np", sampleNodePool "np2", sampleNodePool "np-a"] :=
  ⟨rfl, rfl, by decide, by decide, by decide⟩

end CCE

namespace ACK

/-- C14 (as stated, refuted): one pool with 3 instances scaled to 4.  The
update call receives as existing state the very object it receives as update:
its pool has 4 instances, not the 3 the caller's cluster had before the call. -/
theorem ScaleNodeGroup_existing_is_submitted :
    (sampleCluster [samplePool "a" 3]).ACKConfig.NodePoolList.map NodePoolInfo.InstancesNum
      = [3] ∧
    (ScaleNodeGroup (sampleEnv syncClient) (sampleCluster [samplePool "a" 3]) 4 false false
        (sampleWorld (sampleCluster [samplePool "a" 3]))).2.calls
      = [Call.Update (ScaleNodeGroup.upgradedCluster (sampleCluster [samplePool "a" 3]) 4)
          (ScaleNodeGroup.upgradedCluster (sampleCluster [samplePool "a" 3]) 4)] ∧
    (ScaleNodeGroup.upgradedCluster (sampleCluster [samplePool "a" 3])
        4).ACKConfig.NodePoolList.map NodePoolInfo.InstancesNum = [4] :=
  ⟨rfl, rfl, rfl⟩

end ACK

/-- C14 (amended): the mutation is applied in place.  In `ScaleNodeGroup`,
`UpgradeClusterKubernetesVersion`, `AddNodePool`, `DeleteNodePool` and the CCE
`UpdateCluster` the update call gets one and the same object as existing state
and as update: the caller's cluster with the targeted field already set (all
counts `nodeCount`; the version `upgradeToVersion`; the extended list; the
one-entry list; what `updateFunc` made of it). -/
theorem update_is_submitted_in_place {σ τ : Type} (env : ACK.Env σ) (cluster : ACK.Cluster)
    (upgradeToVersion : String) (nodeCount increaseBy : Int) (wait checkClusterConfig : Bool)
    (w : World σ ACK.Cluster) (cenv : CCE.Env τ) (ccluster : CCE.Cluster)
    (updateFunc : CCE.Cluster → CCE.Cluster) (cw : World τ CCE.Cluster) :
    (∃ later, (ACK.ScaleNodeGroup env cluster nodeCount wait checkClusterConfig w).2.calls
        = w.calls ++ Call.Update (ACK.ScaleNodeGroup.upgradedCluster cluster nodeCount)
            (ACK.ScaleNodeGroup.upgradedCluster cluster nodeCount) :: later) ∧
    (∀ ng ∈ (ACK.ScaleNodeGroup.upgradedCluster cluster nodeCount).ACKConfig.NodePoolList,
        ng.InstancesNum = nodeCount) ∧
    (∃ later, (ACK.UpgradeClusterKubernetesVersion env cluster upgradeToVersion
          checkClusterConfig w).2.calls
        = w.calls ++ Call.Update
            (ACK.UpgradeClusterKubernetesVersion.upgradedCluster cluster upgradeToVersion)
            (ACK.UpgradeClusterKubernetesVersion.upgradedCluster cluster upgradeToVersion)
            :: later) ∧
    (ACK.UpgradeClusterKubernetesVersion.upgradedCluster cluster
        upgradeToVersion).ACKConfig.KubernetesVersion = upgradeToVersion ∧
    (∀ ngTemplate others, (env.LoadConfig w.state).NodePoolList = ngTemplate :: others →
      ∃ (updateNodeGroupsList : List ACK.NodePoolInfo) (later : List (Call ACK.Cluster)),
        updateNodeGroupsList = cluster.ACKConfig.NodePoolList ++
          (generatedNames env.AppendRandomString "ng" increaseBy.toNat w.state).map
            (ACK.AddNodePool.newNodeGroup ngTemplate) ∧
        (ACK.AddNodePool env cluster increaseBy wait checkClusterConfig w).2.calls
          = w.calls ++ Call.Update (ACK.setNodePoolList cluster updateNodeGroupsList)
              (ACK.setNodePoolList cluster updateNodeGroupsList) :: later) ∧
    (∀ first rest, cluster.ACKConfig.NodePoolList = first :: rest →
      ∃ later, (ACK.DeleteNodePool env cluster wait checkClusterConfig w).2.calls
        = w.calls ++ Call.Update (ACK.setNodePoolList cluster [first])
            (ACK.setNodePoolList cluster [first]) :: later) ∧
    (CCE.UpdateCluster cenv ccluster updateFunc cw).2.calls
      = cw.calls ++ [Call.Update (updateFunc ccluster) (updateFunc ccluster)] := by
  have hN : ∀ (updateNodeGroupsList : List ACK.NodePoolInfo) (expected : Int) (c : ACK.Cluster),
      Appends (fun _ => True) _ :=
    fun l e c => ACK.appends_nodePoolChecks (fun _ => True) env l e wait checkClusterConfig c
      (fun _ => trivial) (fun _ _ => trivial)
  refine ⟨?_, ?_, ?_, rfl, ?_, ?_, rfl⟩
  · exact calls_Update_bind _ _ _ _
      (fun c => ACK.appends_scaleChecks (fun _ => True) env nodeCount wait checkClusterConfig c
        (fun _ => trivial) (fun _ _ => trivial)) w
  · intro ng hng
    simp only [ACK.ScaleNodeGroup.upgradedCluster, ACK.setInstancesNum_eq_map,
      List.mem_map] at hng
    obtain ⟨a, _, rfl⟩ := hng
    rfl
  · unfold ACK.UpgradeClusterKubernetesVersion
    refine calls_Update_bind _ _ _ _ (fun c => ?_) w
    cases checkClusterConfig <;> simp only [Bool.false_eq_true, reduceIte]
    · exact Appends.ret _ _
    · exact Appends.bind (Appends.ExpectEqual _ _ _)
        (fun _ => Appends.Eventually _ _ _ _
          (ACK.appends_UpgradeClusterKubernetesVersion_poll env _ (fun _ => trivial)))
  · intro ngTemplate others hT
    have key : ∃ later, (ACK.AddNodePool env cluster increaseBy wait checkClusterConfig w).2.calls
        = w.calls ++ Call.Update
            (ACK.setNodePoolList cluster (cluster.ACKConfig.NodePoolList ++
              (generatedNames env.AppendRandomString "ng" increaseBy.toNat w.state).map
                (ACK.AddNodePool.newNodeGroup ngTemplate)))
            (ACK.setNodePoolList cluster (cluster.ACKConfig.NodePoolList ++
              (generatedNames env.AppendRandomString "ng" increaseBy.toNat w.state).map
                (ACK.AddNodePool.newNodeGroup ngTemplate))) :: later := by
      rw [ACK.AddNodePool_eq env cluster increaseBy wait checkClusterConfig w ngTemplate others
        hT]
      exact calls_Update_bind _ _ _ _ (fun c => hN _ _ c) _
    obtain ⟨later, hlater⟩ := key
    exact ⟨_, later, rfl, hlater⟩
  · intro first rest hL
    rw [ACK.DeleteNodePool_eq env cluster wait checkClusterConfig first rest hL]
    exact calls_Update_bind _ _ _ _ (fun c => hN _ _ c) _

/-- C14 (amended) at a concrete input: two pools `a`, `b` with 3 instances,
scaled to 4, upgraded, extended by one pool and cut to the first pool, on a
backend that applies every update at once. -/
theorem update_is_submitted_in_place_witness :
    (∃ later, (ACK.ScaleNodeGroup (ACK.sampleEnv ACK.syncClient)
          (ACK.sampleCluster [ACK.samplePool "a" 3, ACK.samplePool "b" 3]) 4 true true
          (ACK.sampleWorld (ACK.sampleCluster [ACK.samplePool "a" 3,
            ACK.samplePool "b" 3]))).2.calls
        = (ACK.sampleWorld (ACK.sampleCluster [ACK.samplePool "a" 3,
            ACK.samplePool "b" 3])).calls ++
          Call.Update
            (ACK.ScaleNodeGroup.upgradedCluster
              (ACK.sampleCluster [ACK.samplePool "a" 3, ACK.samplePool "b" 3]) 4)
            (ACK.ScaleNodeGroup.upgradedCluster
              (ACK.sampleCluster [ACK.samplePool "a" 3, ACK.samplePool "b" 3]) 4) :: later) ∧
    (∃ (updateNodeGroupsList : List ACK.NodePoolInfo) (later : List (Call ACK.Cluster)),
      updateNodeGroupsList
          = (ACK.sampleCluster [ACK.samplePool "a" 3,
              ACK.samplePool "b" 3]).ACKConfig.NodePoolList ++
            (generatedNames (ACK.sampleEnv ACK.syncClient).AppendRandomString "ng" (1 : Int).toNat
              (ACK.sampleWorld (ACK.sampleCluster [ACK.samplePool "a" 3,
                ACK.samplePool "b" 3])).state).map
              (ACK.AddNodePool.newNodeGroup (ACK.samplePool "tpl" 2)) ∧
      (ACK.AddNodePool (ACK.sampleEnv ACK.syncClient)
          (ACK.sampleCluster [ACK.samplePool "a" 3, ACK.samplePool "b" 3]) 1 true true
          (ACK.sampleWorld (ACK.sampleCluster [ACK.samplePool "a" 3,
            ACK.samplePool "b" 3]))).2.calls
        = (ACK.sampleWorld (ACK.sampleCluster [ACK.samplePool "a" 3,
            ACK.samplePool "b" 3])).calls ++
          Call.Update
            (ACK.setNodePoolList (ACK.sampleCluster [ACK.samplePool "a" 3,
              ACK.samplePool "b" 3]) updateNodeGroupsList)
            (ACK.setNodePoolList (ACK.sampleCluster [ACK.samplePool "a" 3,
              ACK.samplePool "b" 3]) updateNodeGroupsList) :: later) ∧
    (∃ later, (ACK.DeleteNodePool (ACK.sampleEnv ACK.syncClient)
          (ACK.sampleCluster [ACK.samplePool "a" 3, ACK.samplePool "b" 3]) true true
          (ACK.sampleWorld (ACK.sampleCluster [ACK.samplePool "a" 3,
            ACK.samplePool "b" 3]))).2.calls
        = (ACK.sampleWorld (ACK.sampleCluster [ACK.samplePool "a" 3,
            ACK.samplePool "b" 3])).calls ++
          Call.Update
            (ACK.setNodePoolList (ACK.sampleCluster [ACK.samplePool "a" 3,
              ACK.samplePool "b" 3]) [ACK.samplePool "a" 3])
            (ACK.setNodePoolList (ACK.sampleCluster [ACK.samplePool "a" 3,
              ACK.samplePool "b" 3]) [ACK.samplePool "a" 3]) :: later) :=
  have h := update_is_submitted_in_place (ACK.sampleEnv ACK.syncClient)
    (ACK.sampleCluster [ACK.samplePool "a" 3, ACK.samplePool "b" 3]) "1.32.7-aliyun.1" 4 1 true
    true (ACK.sampleWorld (ACK.sampleCluster [ACK.samplePool "a" 3, ACK.samplePool "b" 3]))
    (CCE.sampleEnv CCE.staleClient) (CCE.sampleCluster "v1.30") id
    (CCE.sampleWorld (CCE.sampleCluster "v1.30"))
  ⟨h.1, h.2.2.2.2.1 _ _ rfl, h.2.2.2.2.2.1 _ _ rfl⟩

/-- C15: each convergence wait is bounded and fails when the observed status
never matches.  With `checkClusterConfig = true`, a run of `ScaleNodeGroup`,
`AddNodePool` or `DeleteNodePool` re-fetches the cluster at most
`SetTimeout(15 min) / 10 s + 1` times, a run of the ACK
`UpgradeClusterKubernetesVersion` at most `SetTimeout(30 min) / 30 s + 1` times
and a run of the CCE one at most `SetTimeout(15 min) / 30 s + 1` times; and on
a backend none of whose re-fetched clusters has the observed field at the
target, the helper does not return: it is aborted. -/
theorem convergence_wait_is_bounded {σ τ : Type} (env : ACK.Env σ) (cluster : ACK.Cluster)
    (upgradeToVersion : String) (nodeCount increaseBy : Int) (wait : Bool)
    (w : World σ ACK.Cluster) (cenv : CCE.Env τ) (ccluster : CCE.Cluster)
    (cw : World τ CCE.Cluster) :
    ((refetched (ACK.ScaleNodeGroup env cluster nodeCount wait true w).2.calls).length
        ≤ (refetched w.calls).length + (env.SetTimeout (15 * 60) / 10 + 1) ∧
      ((∀ id s c s1, env.client.ByID id s = (Except.ok c, s1) →
          ∃ ng ∈ c.ACKStatus.UpstreamSpec.NodePoolList, ng.InstancesNum ≠ nodeCount) →
        ∃ f w1, ACK.ScaleNodeGroup env cluster nodeCount wait true w
          = (Outcome.failed f, w1))) ∧
    ((refetched (ACK.AddNodePool env cluster increaseBy wait true w).2.calls).length
        ≤ (refetched w.calls).length + (env.SetTimeout (15 * 60) / 10 + 1) ∧
      ((∀ id s c s1, env.client.ByID id s = (Except.ok c, s1) →
          (c.ACKStatus.UpstreamSpec.NodePoolList.length : Int)
            ≠ cluster.ACKConfig.NodePoolList.length + increaseBy) →
        ∃ f w1, ACK.AddNodePool env cluster increaseBy wait true w
          = (Outcome.failed f, w1))) ∧
    ((refetched (ACK.DeleteNodePool env cluster wait true w).2.calls).length
        ≤ (refetched w.calls).length + (env.SetTimeout (15 * 60) / 10 + 1) ∧
      ((∀ id s c s1, env.client.ByID id s = (Except.ok c, s1) →
          (c.ACKStatus.UpstreamSpec.NodePoolList.length : Int)
            ≠ cluster.ACKConfig.NodePoolList.length - 1) →
        ∃ f w1, ACK.DeleteNodePool env cluster wait true w = (Outcome.failed f, w1))) ∧
    ((refetched (ACK.UpgradeClusterKubernetesVersion env cluster upgradeToVersion true
          w).2.calls).length
        ≤ (refetched w.calls).length + (env.SetTimeout (30 * 60) / 30 + 1) ∧
      ((∀ id s c s1, env.client.ByID id s = (Except.ok c, s1) →
          c.ACKStatus.UpstreamSpec.KubernetesVersion ≠ upgradeToVersion) →
        ∃ f w1, ACK.UpgradeClusterKubernetesVersion env cluster upgradeToVersion true w
          = (Outcome.failed f, w1))) ∧
    ((refetched (CCE.UpgradeClusterKubernetesVersion cenv ccluster upgradeToVersion true
          cw).2.calls).length
        ≤ (refetched cw.calls).length + (cenv.SetTimeout (15 * 60) / 30 + 1) ∧
      ((∀ id s c s1, cenv.client.ByID id s = (Except.ok c, s1) →
          c.CCEStatus.UpstreamSpec.Version ≠ upgradeToVersion) →
        ∃ f w1, CCE.UpgradeClusterKubernetesVersion cenv ccluster upgradeToVersion true cw
          = (Outcome.failed f, w1))) :=
  ⟨⟨ACK.ScaleNodeGroup_refetches env cluster nodeCount wait w,
      fun h => ACK.ScaleNodeGroup_fails env cluster nodeCount wait h w⟩,
    ⟨ACK.AddNodePool_refetches env cluster increaseBy wait w,
      fun h => ACK.AddNodePool_fails env cluster increaseBy wait h w⟩,
    ⟨ACK.DeleteNodePool_refetches env cluster wait w,
      fun h => ACK.DeleteNodePool_fails env cluster wait h w⟩,
    ⟨ACK.UpgradeClusterKubernetesVersion_refetches env cluster upgradeToVersion w,
      fun h => ACK.UpgradeClusterKubernetesVersion_fails env cluster upgradeToVersion h w⟩,
    ⟨CCE.upgrade_refetches cenv ccluster upgradeToVersion cw,
      fun h => CCE.upgrade_fails cenv ccluster upgradeToVersion h cw⟩⟩

/-- C15 at a concrete input: backends that answer every re-fetch with the
cluster as it was (one pool with 3 instances at "1.31.9-aliyun.1"; CCE at
"v1.30"), timeouts not scaled: scaling to 4 is aborted after at most 91
re-fetches, the ACK upgrade after at most 61, the CCE upgrade after at most
31. -/
theorem convergence_wait_is_bounded_witness :
    ((refetched (ACK.ScaleNodeGroup
          (ACK.sampleEnv (ACK.frozenClient (ACK.sampleCluster [ACK.samplePool "a" 3])))
          (ACK.sampleCluster [ACK.samplePool "a" 3]) 4 true true
          (ACK.sampleWorld (ACK.sampleCluster [ACK.samplePool "a" 3]))).2.calls).length ≤ 91 ∧
      ∃ f w1, ACK.ScaleNodeGroup
          (ACK.sampleEnv (ACK.frozenClient (ACK.sampleCluster [ACK.samplePool "a" 3])))
          (ACK.sampleCluster [ACK.samplePool "a" 3]) 4 true true
          (ACK.sampleWorld (ACK.sampleCluster [ACK.samplePool "a" 3]))
        = (Outcome.failed f, w1)) ∧
    ((refetched (ACK.UpgradeClusterKubernetesVersion
          (ACK.sampleEnv (ACK.frozenClient (ACK.sampleCluster [ACK.samplePool "a" 3])))
          (ACK.sampleCluster [ACK.samplePool "a" 3]) "1.32.7-aliyun.1" true
          (ACK.sampleWorld (ACK.sampleCluster [ACK.samplePool "a" 3]))).2.calls).length ≤ 61 ∧
      ∃ f w1, ACK.UpgradeClusterKubernetesVersion
          (ACK.sampleEnv (ACK.frozenClient (ACK.sampleCluster [ACK.samplePool "a" 3])))
          (ACK.sampleCluster [ACK.samplePool "a" 3]) "1.32.7-aliyun.1" true
          (ACK.sampleWorld (ACK.sampleCluster [ACK.samplePool "a" 3]))
        = (Outcome.failed f, w1)) ∧
    ((refetched (CCE.UpgradeClusterKubernetesVersion
          (CCE.sampleEnv (CCE.frozenClient (CCE.sampleCluster "v1.30")))
          (CCE.sampleCluster "v1.30") "1.32.7-aliyun.1" true
          (CCE.sampleWorld (CCE.sampleCluster "v1.30"))).2.calls).length ≤ 31 ∧
      ∃ f w1, CCE.UpgradeClusterKubernetesVersion
          (CCE.sampleEnv (CCE.frozenClient (CCE.sampleCluster "v1.30")))
          (CCE.sampleCluster "v1.30") "1.32.7-aliyun.1" true
          (CCE.sampleWorld (CCE.sampleCluster "v1.30"))
        = (Outcome.failed f, w1)) :=
  have h := convergence_wait_is_bounded
    (ACK.sampleEnv (ACK.frozenClient (ACK.sampleCluster [ACK.samplePool "a" 3])))
    (ACK.sampleCluster [ACK.samplePool "a" 3]) "1.32.7-aliyun.1" 4 1 true
    (ACK.sampleWorld (ACK.sampleCluster [ACK.samplePool "a" 3]))
    (CCE.sampleEnv (CCE.frozenClient (CCE.sampleCluster "v1.30"))) (CCE.sampleCluster "v1.30")
    (CCE.sampleWorld (CCE.sampleCluster "v1.30"))
  ⟨⟨h.1.1, h.1.2 (by
      intro id s c s1 hB
      simp only [ACK.sampleEnv, ACK.frozenClient, Prod.mk.injEq, Except.ok.injEq] at hB
      rw [← hB.1]
      exact ⟨ACK.samplePool "a" 3, by simp [ACK.sampleCluster], by decide⟩)⟩,
    ⟨h.2.2.2.1.1, h.2.2.2.1.2 (by
      intro id s c s1 hB
      simp only [ACK.sampleEnv, ACK.frozenClient, Prod.mk.injEq, Except.ok.injEq] at hB
      rw [← hB.1]
      decide)⟩,
    ⟨h.2.2.2.2.1, h.2.2.2.2.2 (by
      intro id s c s1 hB
      simp only [CCE.sampleEnv, CCE.frozenClient, Prod.mk.injEq, Except.ok.injEq] at hB
      rw [← hB.1]
      decide)⟩⟩

namespace ACK

/-- C17: with `checkClusterConfig = false`, when the update call returns the
cluster `response`, `UpgradeClusterKubernetesVersion` returns `response` (with
a nil error) whatever versions `response` carries, and the update is the one
call it has made: nothing is compared and nothing is re-fetched. -/
theorem UpgradeClusterKubernetesVersion_unchecked_returns_response {σ : Type} (env : Env σ)
    (cluster : Cluster) (upgradeToVersion : String) (w : World σ Cluster) (response : Cluster)
    (s : σ)
    (hU : env.client.Update (UpgradeClusterKubernetesVersion.upgradedCluster cluster upgradeToVersion)
      (UpgradeClusterKubernetesVersion.upgradedCluster cluster upgradeToVersion) w.state
      = (Except.ok response, s)) :
    UpgradeClusterKubernetesVersion env cluster upgradeToVersion false w
      = (Outcome.ok response,
          { state := s, calls := w.calls ++
            [Call.Update (UpgradeClusterKubernetesVersion.upgradedCluster cluster upgradeToVersion)
              (UpgradeClusterKubernetesVersion.upgradedCluster cluster upgradeToVersion)] }) ∧
    refetched (UpgradeClusterKubernetesVersion env cluster upgradeToVersion false w).2.calls
      = refetched w.calls := by
  have h : UpgradeClusterKubernetesVersion env cluster upgradeToVersion false w
      = (Outcome.ok response,
          { state := s, calls := w.calls ++
            [Call.Update (UpgradeClusterKubernetesVersion.upgradedCluster cluster upgradeToVersion)
              (UpgradeClusterKubernetesVersion.upgradedCluster cluster upgradeToVersion)] }) := by
    unfold UpgradeClusterKubernetesVersion
    rw [Run.bind_apply]
    simp only [Update, hU, Bool.false_eq_true, reduceIte, Run.pure_apply]
  refine ⟨h, ?_⟩
  rw [h, refetched_append]
  simp [refetched]

/-- C17 at a concrete input: the backend answers the update with the cluster
it stores less its last pool, still at "1.31.9-aliyun.1"; the helper returns
that cluster although its version is not the target "1.32.7-aliyun.1". -/
theorem UpgradeClusterKubernetesVersion_unchecked_returns_response_witness :
    (sampleEnv trimmingClient).client.Update
        (UpgradeClusterKubernetesVersion.upgradedCluster (sampleCluster [samplePool "a" 3])
          "1.32.7-aliyun.1")
        (UpgradeClusterKubernetesVersion.upgradedCluster (sampleCluster [samplePool "a" 3])
          "1.32.7-aliyun.1")
        (sampleWorld (sampleCluster [samplePool "a" 3])).state
      = (Except.ok (sampleCluster []),
          { stored := sampleCluster [], suffixes := ["-a", "-b", "-c"] }) ∧
    (sampleCluster []).ACKConfig.KubernetesVersion = "1.31.9-aliyun.1" ∧
    UpgradeClusterKubernetesVersion (sampleEnv trimmingClient) (sampleCluster [samplePool "a" 3])
        "1.32.7-aliyun.1" false (sampleWorld (sampleCluster [samplePool "a" 3]))
      = (Outcome.ok (sampleCluster []),
          { state := { stored := sampleCluster [], suffixes := ["-a", "-b", "-c"] },
            calls := (sampleWorld (sampleCluster [samplePool "a" 3])).calls ++
              [Call.Update
                (UpgradeClusterKubernetesVersion.upgradedCluster (sampleCluster [samplePool "a" 3])
                  "1.32.7-aliyun.1")
                (UpgradeClusterKubernetesVersion.upgradedCluster (sampleCluster [samplePool "a" 3])
                  "1.32.7-aliyun.1")] }) ∧
    refetched (UpgradeClusterKubernetesVersion (sampleEnv trimmingClient)
        (sampleCluster [samplePool "a" 3]) "1.32.7-aliyun.1" false
        (sampleWorld (sampleCluster [samplePool "a" 3]))).2.calls
      = refetched (sampleWorld (sampleCluster [samplePool "a" 3])).calls :=
  ⟨rfl, rfl, UpgradeClusterKubernetesVersion_unchecked_returns_response (sampleEnv trimmingClient)
    (sampleCluster [samplePool "a" 3]) "1.32.7-aliyun.1"
    (sampleWorld (sampleCluster [samplePool "a" 3])) _ _ rfl⟩

/-- C18 (code as it is): three desired node pools `a`, `b`, `c`, on a backend
that answers the update with the two pools `a`, `b`.  The count assertion
(2 = 3 - 1) passes, the name comparison passes at index 0 and then reads
`updateNodeGroupsList[1]` of the one-entry submitted list: `DeleteNodePool` is
aborted by an index out of range, right after its update call. -/
theorem DeleteNodePool_name_comparison_out_of_range :
    (sampleCluster [samplePool "a" 3, samplePool "b" 3, samplePool "c" 3]).ACKConfig.NodePoolList.length
      = 3 ∧
    ((sampleEnv trimmingClient).client.Update
        (setNodePoolList (sampleCluster [samplePool "a" 3, samplePool "b" 3, samplePool "c" 3])
          [samplePool "a" 3])
        (setNodePoolList (sampleCluster [samplePool "a" 3, samplePool "b" 3, samplePool "c" 3])
          [samplePool "a" 3])
        (sampleWorld (sampleCluster [samplePool "a" 3, samplePool "b" 3,
          samplePool "c" 3])).state).1
      = Except.ok (sampleCluster [samplePool "a" 3, samplePool "b" 3]) ∧
    (sampleCluster [samplePool "a" 3, samplePool "b" 3]).ACKConfig.NodePoolList.length = 3 - 1 ∧
    (DeleteNodePool (sampleEnv trimmingClient)
        (sampleCluster [samplePool "a" 3, samplePool "b" 3, samplePool "c" 3]) true true
        (sampleWorld (sampleCluster [samplePool "a" 3, samplePool "b" 3, samplePool "c" 3]))).1
      = Outcome.failed (Failure.indexOutOfRange 1 1) ∧
    (DeleteNodePool (sampleEnv trimmingClient)
        (sampleCluster [samplePool "a" 3, samplePool "b" 3, samplePool "c" 3]) true true
        (sampleWorld (sampleCluster [samplePool "a" 3, samplePool "b" 3,
          samplePool "c" 3]))).2.calls
      = [Call.Update
          (setNodePoolList (sampleCluster [samplePool "a" 3, samplePool "b" 3, samplePool "c" 3])
            [samplePool "a" 3])
          (setNodePoolList (sampleCluster [samplePool "a" 3, samplePool "b" 3, samplePool "c" 3])
            [samplePool "a" 3])] :=
  ⟨rfl, rfl, rfl, rfl, rfl⟩

/-- C19: when the re-fetch returns the cluster `fetched`, the function polled
by `ScaleNodeGroup` yields `fetched` and a truth value that is true exactly
when every upstream node pool of `fetched` has `InstancesNum` equal to
`nodeCount`; it is true when the upstream list is empty, whatever the desired
list holds. -/
theorem ScaleNodeGroup_poll_true_iff {σ : Type} (env : Env σ) (nodeCount : Int)
    (cluster fetched : Cluster) (w : World σ Cluster) (s : σ)
    (hB : env.client.ByID cluster.ID w.state = (Except.ok fetched, s)) :
    ∃ converged : Bool,
      ScaleNodeGroup.poll env nodeCount cluster w
        = (Outcome.ok (fetched, converged),
            { state := s, calls := w.calls ++ [Call.ByID cluster.ID] }) ∧
      (converged = true ↔
        ∀ ng ∈ fetched.ACKStatus.UpstreamSpec.NodePoolList, ng.InstancesNum = nodeCount) ∧
      (fetched.ACKStatus.UpstreamSpec.NodePoolList = [] → converged = true) := by
  refine ⟨ScaleNodeGroup.converged nodeCount fetched.ACKStatus.UpstreamSpec.NodePoolList,
    ?_, converged_iff _ _, ?_⟩
  · unfold ScaleNodeGroup.poll
    rw [Run.bind_apply]
    simp only [ByID, hB, Run.pure_apply]
  · intro hnil
    rw [hnil]
    rfl

/-- C19 at a concrete input: the fetched cluster has no upstream pool and a
desired pool with 3 instances; the polled value for `nodeCount = 4` is true. -/
theorem ScaleNodeGroup_poll_true_iff_witness :
    (sampleEnv (frozenClient (setNodePoolList (sampleCluster []) [samplePool "a" 3]))).client.ByID
        (sampleCluster [samplePool "a" 3]).ID (sampleWorld (sampleCluster [samplePool "a" 3])).state
      = (Except.ok (setNodePoolList (sampleCluster []) [samplePool "a" 3]),
          (sampleWorld (sampleCluster [samplePool "a" 3])).state) ∧
    (ScaleNodeGroup.poll
        (sampleEnv (frozenClient (setNodePoolList (sampleCluster []) [samplePool "a" 3]))) 4
        (sampleCluster [samplePool "a" 3]) (sampleWorld (sampleCluster [samplePool "a" 3]))).1
      = Outcome.ok (setNodePoolList (sampleCluster []) [samplePool "a" 3], true) ∧
    ∃ converged : Bool,
      ScaleNodeGroup.poll
          (sampleEnv (frozenClient (setNodePoolList (sampleCluster []) [samplePool "a" 3]))) 4
          (sampleCluster [samplePool "a" 3]) (sampleWorld (sampleCluster [samplePool "a" 3]))
        = (Outcome.ok (setNodePoolList (sampleCluster []) [samplePool "a" 3], converged),
            { state := (sampleWorld (sampleCluster [samplePool "a" 3])).state,
              calls := (sampleWorld (sampleCluster [samplePool "a" 3])).calls ++
                [Call.ByID (sampleCluster [samplePool "a" 3]).ID] }) ∧
      (converged = true ↔
        ∀ ng ∈ (setNodePoolList (sampleCluster [])
            [samplePool "a" 3]).ACKStatus.UpstreamSpec.NodePoolList, ng.InstancesNum = 4) ∧
      ((setNodePoolList (sampleCluster [])
          [samplePool "a" 3]).ACKStatus.UpstreamSpec.NodePoolList = [] → converged = true) :=
  ⟨rfl, rfl, ScaleNodeGroup_poll_true_iff
    (sampleEnv (frozenClient (setNodePoolList (sampleCluster []) [samplePool "a" 3]))) 4
    (sampleCluster [samplePool "a" 3]) _ (sampleWorld (sampleCluster [samplePool "a" 3])) _ rfl⟩

end ACK

end HostedProviders
